import Mathlib

/-!
# Verification of the ChatMock test-bench async control plane

Shallow embedding of the async sidecar core of the repository
(`test-bench/src/services/async/*`): the error classifier, the state
resolver, the envelope builder, the metrics store reservoirs, the replay
scoring harness and the queue manager scheduler, together with proofs of
the specification claims about them.

JavaScript numbers are idealized as rationals; the non-finite values
(`NaN`, `±Infinity`) are collapsed into a single marker (`Option ℚ` with
`none` standing for a non-finite value).  Machine time (`Date.now()`) is a
natural number of milliseconds supplied by the environment with each event.
-/

namespace ChatMock

/-- A JavaScript number: `some q` is a finite value, `none` is non-finite
(`NaN`/`±Infinity` collapsed; every branch point in the sources only tests
finiteness via `Number.isFinite`). -/
abbrev JSNum := Option ℚ

/-- A JavaScript value.  Strings carry their text; the numeric coercion of a
string (`Number(s)`) is computed by `parseJSNumber` below for the plain
decimal forms, every other form coerces to the non-finite marker. -/
inductive JSValue where
  | null
  | undef
  | bool (b : Bool)
  | num (n : JSNum)
  | str (s : String)
  | arr (elems : List JSValue)
  | obj (fields : List (String × JSValue))

/-- JavaScript truthiness (`Boolean(v)`). -/
def JSValue.truthy : JSValue → Bool
  | .null => false
  | .undef => false
  | .bool b => b
  | .num n => match n with
    | some q => decide (q ≠ 0)
    | none => false
  | .str s => decide (s ≠ "")
  | .arr _ => true
  | .obj _ => true

/-- Property access `v[k]`; a missing key and access on a primitive both give
`undefined` (the sources always guard accesses with truthiness checks, so the
throwing cases of real property access on `null`/`undefined` are unreachable). -/
def JSValue.get (v : JSValue) (k : String) : JSValue :=
  match v with
  | .obj fields =>
    match fields.find? (fun p => p.1 = k) with
    | some p => p.2
    | none => .undef
  | _ => JSValue.undef

/-- `a || b`. -/
def jsOr (a b : JSValue) : JSValue := if a.truthy then a else b

/-- `a && b`. -/
def jsAnd (a b : JSValue) : JSValue := if a.truthy then b else a

/-- `s.trim()`: strip whitespace from both ends. -/
def strTrim (s : String) : String :=
  String.mk (((s.data.dropWhile Char.isWhitespace).reverse.dropWhile
    Char.isWhitespace).reverse)

/-- Decimal digit run to a value, `none` when a non-digit occurs. -/
def digitsVal? : List Char → Option ℕ
  | [] => some 0
  | c :: cs =>
    if c.isDigit then
      match digitsVal? cs with
      | some v => some (v * 10 + (c.toNat - '0'.toNat))
      | none => none
    else none

/-- Value of a digit run read left to right. -/
def digitsValLtr (cs : List Char) : Option ℕ :=
  match digitsVal? cs.reverse with
  | some _ =>
    some (cs.foldl (fun acc c => acc * 10 + (c.toNat - '0'.toNat)) 0)
  | none => none

/-- `Number(s)` for a string: the empty/whitespace string coerces to `0`, an
optionally signed plain decimal literal to its value, everything else to the
non-finite marker (exotic forms — hex, exponent notation — are out of scope
of this development and coerce to the marker). -/
def parseJSNumber (s : String) : JSNum :=
  let t := strTrim s
  if t = "" then some 0
  else
    let (sign, body) :=
      match t.toList with
      | '-' :: rest => ((-1 : ℚ), rest)
      | '+' :: rest => ((1 : ℚ), rest)
      | cs => ((1 : ℚ), cs)
    let intPart := body.takeWhile (fun c => c ≠ '.')
    let rest := body.dropWhile (fun c => c ≠ '.')
    let fracPart := rest.drop 1
    if rest ≠ [] ∧ rest.take 1 = ['.'] ∨ rest = [] then
      if intPart = [] ∧ fracPart = [] then none
      else
        match digitsValLtr intPart, digitsValLtr fracPart with
        | some i, some f =>
          some (sign * ((i : ℚ) + (f : ℚ) / ((10 : ℚ) ^ fracPart.length)))
        | _, _ => none
    else none

/-- `Number(v)` coercion.  Object/array-to-primitive coercion is out of the
scope of this development and yields the non-finite marker. -/
def jsToNumber : JSValue → JSNum
  | .null => some 0
  | .undef => none
  | .bool b => some (if b then 1 else 0)
  | .num n => n
  | .str s => parseJSNumber s
  | .arr _ => none
  | .obj _ => none

/-- `Number.isFinite (Number v)`. -/
def jsFiniteNumber (v : JSValue) : Option ℚ := jsToNumber v

/-- Rendering of a finite number for `String(v)` contexts; the sources never
branch on this text, so a simple rendering of the rational suffices. -/
def ratText (q : ℚ) : String :=
  if q.den = 1 then toString q.num else toString q.num ++ "/" ++ toString q.den

/-- `String(v)` coercion. -/
def jsToString : JSValue → String
  | .null => "null"
  | .undef => "undefined"
  | .bool b => if b then "true" else "false"
  | .num n => match n with
    | some q => ratText q
    | none => "NaN"
  | .str s => s
  | .arr _ => ""
  | .obj _ => "[object Object]"

/-- Does the list start with the pattern? -/
def listStartsWith : List Char → List Char → Bool
  | [], _ => true
  | _ :: _, [] => false
  | p :: ps, c :: cs => p = c && listStartsWith ps cs

/-- Does the pattern occur as a contiguous run of the list? -/
def listContainsSub (pat : List Char) : List Char → Bool
  | [] => listStartsWith pat []
  | c :: cs => listStartsWith pat (c :: cs) || listContainsSub pat cs

/-- `s.includes(pat)`. -/
def strIncludes (s pat : String) : Bool :=
  listContainsSub pat.toList s.toList

/-- `s.toLowerCase()` (character-wise ASCII lowering). -/
def strLower (s : String) : String := String.mk (s.data.map Char.toLower)

/-- `s.toUpperCase()` (character-wise ASCII raising). -/
def strUpper (s : String) : String := String.mk (s.data.map Char.toUpper)

/-! ## Error classifier (`errorCodes.js`) -/

/-- The closed error taxonomy (`ERROR_CODES`). -/
inductive ErrCode where
  | INVALID_REQUEST
  | JOB_NOT_FOUND
  | JOB_CANCELLED
  | QUEUE_BACKPRESSURE
  | QUEUE_COOLDOWN_ACTIVE
  | UPSTREAM_TIMEOUT
  | UPSTREAM_LOGIN_REQUIRED
  | UPSTREAM_RATE_LIMITED
  | UPSTREAM_CHALLENGE
  | UPSTREAM_UNAVAILABLE
  | UPSTREAM_BAD_RESPONSE
  | INTERNAL_ERROR
deriving DecidableEq, Repr

/-- `classifyError`'s public result `{code, message, status, retryable}`. -/
structure ClassifiedError where
  code : ErrCode
  message : String
  status : ℤ
  retryable : Bool
deriving DecidableEq, Repr

/-- An upstream error value as consumed by `classifyError`: an object carrying
(possibly absent) `name`, `message`, `statusCode` and `code` properties. -/
structure JSError where
  name : JSValue := .undef
  message : JSValue := .undef
  statusCode : JSValue := .undef
  code : JSValue := JSValue.undef

/-- `String((error && error.f) || "")` for a field of a possibly-null error. -/
def errFieldText (error : Option JSError) (f : JSError → JSValue) : String :=
  match error with
  | none => ""
  | some e => jsToString (jsOr (f e) (.str ""))

/-- `error.message || fallback` (the message the classifier echoes). -/
def errMessageOr (error : Option JSError) (fallback : String) : String :=
  match error with
  | none => fallback
  | some e => if (e.message).truthy then jsToString e.message else fallback

/-- `Number(error && error.statusCode)`. -/
def errStatusNum (error : Option JSError) : JSNum :=
  match error with
  | none => some 0
  | some e => jsToNumber e.statusCode

/-- Does the (coerced) status code satisfy `statusCode === k`?  A non-finite
coercion (NaN) compares unequal to everything. -/
def statusIs (n : JSNum) (k : ℚ) : Bool :=
  match n with
  | some q => decide (q = k)
  | none => false

/-- `statusCode >= lo && statusCode < hi` (false on NaN). -/
def statusInRange (n : JSNum) (lo hi : ℚ) : Bool :=
  match n with
  | some q => decide (lo ≤ q) && decide (q < hi)
  | none => false

/-- `Number.isFinite statusCode && statusCode >= lo`. -/
def statusAtLeast (n : JSNum) (lo : ℚ) : Bool :=
  match n with
  | some q => decide (lo ≤ q)
  | none => false

/-- `error && error.name === "TimeoutError"` (strict equality against the
string). -/
def isTimeoutError (error : Option JSError) : Bool :=
  match error with
  | some e =>
    match e.name with
    | .str s => s = "TimeoutError"
    | _ => false
  | none => false

/-- `classifyError` (translated from `errorCodes.js`). -/
def classifyError (error : Option JSError) : ClassifiedError :=
  let msg := strLower (errFieldText error JSError.message)
  let statusCode := errStatusNum error
  let upstreamCode := strUpper (errFieldText error JSError.code)
  if isTimeoutError error then
    { code := .UPSTREAM_TIMEOUT
      message := errMessageOr error "Upstream request timed out."
      status := 504, retryable := true }
  else if statusIs statusCode 401 || upstreamCode = "LOGIN_REQUIRED" then
    { code := .UPSTREAM_LOGIN_REQUIRED
      message := errMessageOr error "Login required."
      status := 401, retryable := false }
  else if statusIs statusCode 429 || strIncludes msg "rate limit" then
    { code := .UPSTREAM_RATE_LIMITED
      message := errMessageOr error "Upstream is rate limited."
      status := 429, retryable := true }
  else if strIncludes msg "just a moment" || strIncludes msg "challenge" ||
      strIncludes msg "verify you are human" then
    { code := .UPSTREAM_CHALLENGE
      message := errMessageOr error "Upstream challenge page detected."
      status := 503, retryable := true }
  else if statusInRange statusCode 500 600 then
    { code := .UPSTREAM_UNAVAILABLE
      message := errMessageOr error "Upstream unavailable."
      status := 503, retryable := true }
  else if statusAtLeast statusCode 400 then
    { code := .UPSTREAM_BAD_RESPONSE
      message := errMessageOr error "Upstream returned an HTTP error."
      status := 424, retryable := false }
  else
    { code := .INTERNAL_ERROR
      message := errMessageOr error "Internal error."
      status := 500, retryable := false }

/-- The spec's classification rules as an ordered list of (condition,
result) pairs, in the spec's own vocabulary: evaluated in order, first match
wins.  Rule 6 is amended: the code's sixth guard is
`Number.isFinite(statusCode) && statusCode >= 400`, so it captures every
not-yet-matched finite status `≥ 400` (e.g. 600), not only 400–499. -/
def specRuleList (error : Option JSError) : List (Bool × ClassifiedError) :=
  let msg := strLower (errFieldText error JSError.message)
  let statusCode := errStatusNum error
  let upstreamCode := strUpper (errFieldText error JSError.code)
  [ (isTimeoutError error,
      { code := .UPSTREAM_TIMEOUT
        message := errMessageOr error "Upstream request timed out."
        status := 504, retryable := true }),
    (statusIs statusCode 401 || decide (upstreamCode = "LOGIN_REQUIRED"),
      { code := .UPSTREAM_LOGIN_REQUIRED
        message := errMessageOr error "Login required."
        status := 401, retryable := false }),
    (statusIs statusCode 429 || strIncludes msg "rate limit",
      { code := .UPSTREAM_RATE_LIMITED
        message := errMessageOr error "Upstream is rate limited."
        status := 429, retryable := true }),
    (strIncludes msg "just a moment" || strIncludes msg "challenge" ||
        strIncludes msg "verify you are human",
      { code := .UPSTREAM_CHALLENGE
        message := errMessageOr error "Upstream challenge page detected."
        status := 503, retryable := true }),
    (statusInRange statusCode 500 600,
      { code := .UPSTREAM_UNAVAILABLE
        message := errMessageOr error "Upstream unavailable."
        status := 503, retryable := true }),
    (statusAtLeast statusCode 400,
      { code := .UPSTREAM_BAD_RESPONSE
        message := errMessageOr error "Upstream returned an HTTP error."
        status := 424, retryable := false }) ]

/-- First-match-wins evaluation of the spec's (amended) rule list, with the
catch-all `INTERNAL_ERROR`/500/not-retryable seventh rule. -/
def classifySpecAmended (error : Option JSError) : ClassifiedError :=
  match (specRuleList error).find? (fun r => r.1) with
  | some r => r.2
  | none =>
    { code := .INTERNAL_ERROR
      message := errMessageOr error "Internal error."
      status := 500, retryable := false }

/-! ## State resolver (`stateResolver.js`) -/

/-- The four monotonic cooldown deadlines (unix ms). -/
structure Signals where
  auth_required_until : ℚ := 0
  challenge_until : ℚ := 0
  rate_limited_until : ℚ := 0
  degraded_until : ℚ := 0
deriving DecidableEq, Repr

/-- Input of the resolver (`{now, connectivityOk, signals, queueSnapshot,
metricsSummary}`); `depthTotal` is `queueSnapshot.depth.total` and
`errorRate` is `metricsSummary.error_rate`, both as raw JS values that the
resolver coerces with `Number(_) || 0`. -/
structure ResolverInput where
  now : ℚ := 0
  connectivityOk : Bool := false
  signals : Signals := {}
  depthTotal : JSValue := .num (some 0)
  errorRate : JSValue := .num (some 0)

/-- The resolver's output record. -/
structure SidecarState where
  state : String
  reasons : List String
  queue_depth : ℚ
  error_rate : ℚ
deriving DecidableEq, Repr

/-- `Number(v) || 0`. -/
def numOrZero (v : JSValue) : ℚ :=
  match jsToNumber v with
  | some q => if q = 0 then 0 else q
  | none => 0

/-- `resolveSidecarState` (translated from `stateResolver.js`). -/
def resolveSidecarState (i : ResolverInput) : SidecarState :=
  let queueDepth := numOrZero i.depthTotal
  let errorRate := numOrZero i.errorRate
  if i.signals.auth_required_until > i.now then
    { state := "auth_required", reasons := ["auth_required_signal"]
      queue_depth := queueDepth, error_rate := errorRate }
  else if i.signals.challenge_until > i.now then
    { state := "challenge", reasons := ["challenge_signal"]
      queue_depth := queueDepth, error_rate := errorRate }
  else if i.signals.rate_limited_until > i.now then
    { state := "rate_limited", reasons := ["rate_limited_signal"]
      queue_depth := queueDepth, error_rate := errorRate }
  else if ¬ i.connectivityOk then
    { state := "degraded", reasons := ["connectivity_check_failed"]
      queue_depth := queueDepth, error_rate := errorRate }
  else if i.signals.degraded_until > i.now then
    { state := "degraded", reasons := ["degraded_cooldown"]
      queue_depth := queueDepth, error_rate := errorRate }
  else
    { state := "ready", reasons := []
      queue_depth := queueDepth, error_rate := errorRate }

/-- The spec's precedence list in the spec's words: the first state whose
condition holds wins, with the matching reason echoed. -/
def resolveSidecarStateSpec (i : ResolverInput) : SidecarState :=
  let queueDepth := numOrZero i.depthTotal
  let errorRate := numOrZero i.errorRate
  let mk := fun (st : String) (rs : List String) =>
    { state := st, reasons := rs
      queue_depth := queueDepth, error_rate := errorRate : SidecarState }
  if i.signals.auth_required_until > i.now then mk "auth_required" ["auth_required_signal"]
  else if i.signals.challenge_until > i.now then mk "challenge" ["challenge_signal"]
  else if i.signals.rate_limited_until > i.now then mk "rate_limited" ["rate_limited_signal"]
  else if ¬ i.connectivityOk then mk "degraded" ["connectivity_check_failed"]
  else if i.signals.degraded_until > i.now then mk "degraded" ["degraded_cooldown"]
  else mk "ready" []

/-! ## Job statuses and priorities (`queueManager.js`) -/

/-- The closed set of job statuses; the sources use the literal strings
`"queued"`, `"running"`, `"retrying"`, `"completed"`, `"failed"`,
`"cancelled"`. -/
inductive Status where
  | queued
  | running
  | retrying
  | completed
  | failed
  | cancelled
deriving DecidableEq, Repr

/-- `FINAL_STATUSES` membership. -/
def Status.isFinal : Status → Bool
  | .completed => true
  | .failed => true
  | .cancelled => true
  | _ => false

/-- `PRIORITIES` (the three lanes). -/
inductive Priority where
  | interactive
  | retry
  | batch
deriving DecidableEq, Repr

/-- `toPriority`: `String(value || "").trim().toLowerCase()`, unknown strings
coerce to `batch`. -/
def toPriority (value : JSValue) : Priority :=
  let normalized := strLower (strTrim (jsToString (jsOr value (.str ""))))
  if normalized = "interactive" then .interactive
  else if normalized = "retry" then .retry
  else if normalized = "batch" then .batch
  else .batch

/-! ## Envelope builder (`envelopeBuilder.js`) -/

/-- `toNumberOrNull`: the finite coercion of the value, else null.  With the
`JSNum` idealization this is exactly `jsToNumber`. -/
def toNumberOrNull (v : JSValue) : Option ℚ := jsToNumber v

/-- `truncateText(value, 240)`. -/
def truncateText (v : JSValue) : String :=
  match v with
  | .str s => if s.length ≤ 240 then s else s.take 240 ++ "..."
  | _ => ""

/-- `v && typeof v === "object"` for a truthy object (objects and arrays;
`null` is falsy so it fails the guard despite `typeof null === "object"`). -/
def isObjType : JSValue → Bool
  | .obj _ => true
  | .arr _ => true
  | _ => false

/-- `detectConfidence` (translated from `envelopeBuilder.js`): the finite
numeric coercion of `parsedJson.confidence`, else of
`parsedJson.meta.confidence` behind a truthiness guard on `meta`, else `0.7`
for an assistant text with non-blank content, else null. -/
def detectConfidence (parsedJson assistantText : JSValue) : Option ℚ :=
  let fromJson : Option ℚ :=
    if isObjType parsedJson then
      match jsToNumber (parsedJson.get "confidence") with
      | some q => some q
      | none =>
        if (parsedJson.get "meta").truthy then
          jsToNumber ((parsedJson.get "meta").get "confidence")
        else none
    else none
  match fromJson with
  | some q => some q
  | none =>
    match assistantText with
    | .str s => if strTrim s ≠ "" then some (7 / 10) else none
    | _ => none

/-- Round to the nearest integer, ties upward: `⌊q + 1/2⌋` computed on the
rational's numerator and denominator. -/
def ratRound (q : ℚ) : ℤ := Int.fdiv (q + 1 / 2).num (q + 1 / 2).den

/-- `Number(x.toFixed(6))`: rounding to six decimals, idealized on the
rationals. -/
def round6 (q : ℚ) : ℚ := (ratRound (q * 1000000) : ℤ) / 1000000

/-- The amended confidence recipe in the (corrected) spec's words:
`confidence_after` is the finite numeric coercion of
`parsed_json.confidence` when the parsed JSON is an object and the coercion
is finite (note `null` coerces to `0`), else the finite coercion of
`parsed_json.meta.confidence` behind a truthiness guard on `meta`, else
`0.7` when the assistant text is a string with non-blank content, else
null. -/
def confidenceAfterSpec (pj assistantText : JSValue) : Option ℚ :=
  if isObjType pj && (jsToNumber (pj.get "confidence")).isSome then
    jsToNumber (pj.get "confidence")
  else if isObjType pj && (pj.get "meta").truthy &&
      (jsToNumber ((pj.get "meta").get "confidence")).isSome then
    jsToNumber ((pj.get "meta").get "confidence")
  else if (match assistantText with
      | .str s => decide (strTrim s ≠ "")
      | _ => false) then
    some (7 / 10)
  else none

/-- The amended delta recipe: six-decimal rounding of `after − before` when
both coerced values are finite, null otherwise (note an explicit `null`
`confidenceBefore` coerces to the finite `0`). -/
def confidenceDeltaSpec (before after : Option ℚ) : Option ℚ :=
  match before, after with
  | some b, some a => some (round6 (a - b))
  | _, _ => none

/-- The aggressive block of a request's metadata as `submit` builds it:
`enabled` is a boolean, `fallbackReason` a string or null, and
`confidenceBefore` a finite number or null. -/
structure AggressiveMeta where
  enabled : Bool := false
  fallbackReason : Option String := none
  confidenceBefore : Option ℚ := none
deriving DecidableEq, Repr

/-- `requestMeta` as `submit` builds it. -/
structure RequestMeta where
  model : JSValue := .null
  priority : Priority := .batch
  aggressive : AggressiveMeta := {}
  domAnchor : JSValue := .null
  screenshotRegion : JSValue := .null
  reasoningNote : JSValue := .null

/-- The JS value sitting in `requestMeta.aggressive.confidenceBefore`
(`null` when absent), as seen by `toNumberOrNull` in the builder. -/
def confidenceBeforeJS (m : RequestMeta) : JSValue :=
  match m.aggressive.confidenceBefore with
  | some q => .num (some q)
  | none => .null

/-- The JS value sitting in `requestMeta.aggressive.fallbackReason`. -/
def fallbackReasonJS (m : RequestMeta) : JSValue :=
  match m.aggressive.fallbackReason with
  | some s => .str s
  | none => .null

/-- The defaults record `normalizeEvidenceEntry` receives. -/
structure EvidenceDefaults where
  assistantText : JSValue
  model : JSValue
  domAnchor : JSValue
  screenshotRegion : JSValue
  fallbackReason : JSValue
  reasoningNote : JSValue

/-- A normalized evidence entry. -/
structure EvidenceEntry where
  snippet_id : JSValue
  quote : String
  dom_anchor : JSValue
  screenshot_region : JSValue
  model_path : JSValue
  reasoning_note : JSValue

/-- `normalizeEvidenceEntry` (translated from `envelopeBuilder.js`). -/
def normalizeEvidenceEntry (entry : JSValue) (defaults : EvidenceDefaults) :
    EvidenceEntry :=
  let out := if isObjType entry then entry else .obj []
  { snippet_id := jsOr (out.get "snippet_id") (jsOr (out.get "snippetId") .null)
    quote :=
      match out.get "quote" with
      | .str s => if s ≠ "" then s else truncateText defaults.assistantText
      | _ => truncateText defaults.assistantText
    dom_anchor :=
      jsOr (out.get "dom_anchor")
        (jsOr (out.get "domAnchor") (jsOr defaults.domAnchor .null))
    screenshot_region :=
      jsOr (out.get "screenshot_region")
        (jsOr (out.get "screenshotRegion") (jsOr defaults.screenshotRegion .null))
    model_path :=
      jsOr (out.get "model_path")
        (jsOr (out.get "modelPath") (jsOr defaults.model .null))
    reasoning_note :=
      jsOr (out.get "reasoning_note")
        (jsOr (out.get "reasoningNote")
          (jsOr defaults.reasoningNote (jsOr defaults.fallbackReason (.str "")))) }

/-- `buildEvidenceList` (translated from `envelopeBuilder.js`). -/
def buildEvidenceList (parsedJson assistantText model : JSValue)
    (requestMeta : RequestMeta) : List EvidenceEntry :=
  let defaults : EvidenceDefaults :=
    { assistantText := jsOr assistantText (.str "")
      model := model
      domAnchor := if requestMeta.domAnchor.truthy then requestMeta.domAnchor else .null
      screenshotRegion :=
        if requestMeta.screenshotRegion.truthy then requestMeta.screenshotRegion else .null
      fallbackReason :=
        if (fallbackReasonJS requestMeta).truthy then fallbackReasonJS requestMeta
        else .str ""
      reasoningNote :=
        if requestMeta.reasoningNote.truthy then requestMeta.reasoningNote
        else .str "" }
  let candidateEvidence : List JSValue :=
    if isObjType parsedJson then
      match parsedJson.get "evidence" with
      | .arr xs => xs
      | _ => []
    else []
  if candidateEvidence.length > 0 then
    candidateEvidence.map (fun e => normalizeEvidenceEntry e defaults)
  else
    [normalizeEvidenceEntry (.obj []) defaults]

/-- The `formatted` block handed to the builder. -/
structure Formatted where
  assistantText : JSValue := .null
  parsedJson : JSValue := .null
  renderedHtml : JSValue := .null
  mode : JSValue := .null

/-- The `timings` block handed to the builder. -/
structure TimingsIn where
  queuedAt : JSValue := .null
  startedAt : JSValue := .null
  completedAt : JSValue := .null
  queueWaitMs : JSValue := .null
  modelTimeMs : JSValue := .null
  totalMs : JSValue := .null

/-- The builder's input record. -/
structure EnvelopeInput where
  jobId : String
  status : Status
  requestMeta : RequestMeta := {}
  rawResponse : JSValue := .null
  formatted : Option Formatted := none
  error : Option ClassifiedError := none
  timings : Option TimingsIn := none
  attempts : JSValue := .num (some 1)

/-- `result.diagnostics.latency`. -/
structure LatencyDiag where
  queue_wait_ms : Option ℚ
  model_ms : Option ℚ
  total_ms : Option ℚ
deriving DecidableEq, Repr

/-- `result.diagnostics.aggressive`. -/
structure AggressiveDiag where
  enabled : Bool
  fallback_reason : Option String
  confidence_before : Option ℚ
  confidence_after : Option ℚ
  confidence_delta : Option ℚ
deriving DecidableEq, Repr

/-- `result.diagnostics`. -/
structure Diagnostics where
  attempts : ℚ
  model_path : JSValue
  latency : LatencyDiag
  aggressive : AggressiveDiag

/-- The `request` echo block. -/
structure RequestEcho where
  model : JSValue
  priority : Priority
  aggressive_enabled : Bool
  aggressive_fallback_reason : Option String

/-- The `result` block. -/
structure EnvelopeResult where
  assistant_text : JSValue
  parsed_json : JSValue
  render_mode : JSValue
  rendered_html : JSValue
  raw_response : JSValue
  evidence : List EvidenceEntry
  diagnostics : Diagnostics

/-- The `timings` echo block. -/
structure TimingsOut where
  queued_at : JSValue
  started_at : JSValue
  completed_at : JSValue

/-- The job envelope. -/
structure Envelope where
  job_id : String
  status : Status
  request : RequestEcho
  result : EnvelopeResult
  error : Option ClassifiedError
  timings : TimingsOut

/-- `formatted && formatted.f ? formatted.f : dflt`. -/
def formattedField (formatted : Option Formatted) (f : Formatted → JSValue)
    (dflt : JSValue) : JSValue :=
  match formatted with
  | some fm => if (f fm).truthy then f fm else dflt
  | none => dflt

/-- `formatted && formatted.f` (the raw value, as handed to
`detectConfidence`). -/
def formattedRaw (formatted : Option Formatted) (f : Formatted → JSValue) :
    JSValue :=
  match formatted with
  | some fm => f fm
  | none => JSValue.undef

/-- `timings && Number.isFinite(Number(timings.f)) ? Number(timings.f) : null`. -/
def timingsNum (timings : Option TimingsIn) (f : TimingsIn → JSValue) :
    Option ℚ :=
  match timings with
  | some t => jsToNumber (f t)
  | none => none

/-- `timings && timings.f ? timings.f : null`. -/
def timingsEcho (timings : Option TimingsIn) (f : TimingsIn → JSValue) :
    JSValue :=
  match timings with
  | some t => if (f t).truthy then f t else .null
  | none => .null

/-- `buildStructuredEnvelope` (translated from `envelopeBuilder.js`). -/
def buildStructuredEnvelope (i : EnvelopeInput) : Envelope :=
  let aggressiveEnabled := i.requestMeta.aggressive.enabled
  let confidenceBefore := toNumberOrNull (confidenceBeforeJS i.requestMeta)
  let confidenceAfter :=
    detectConfidence (formattedRaw i.formatted Formatted.parsedJson)
      (formattedRaw i.formatted Formatted.assistantText)
  let confidenceDelta : Option ℚ :=
    match confidenceBefore, confidenceAfter with
    | some b, some a => some (round6 (a - b))
    | _, _ => none
  let evidence :=
    buildEvidenceList (formattedField i.formatted Formatted.parsedJson .null)
      (formattedField i.formatted Formatted.assistantText (.str ""))
      (if i.requestMeta.model.truthy then i.requestMeta.model else .null)
      i.requestMeta
  { job_id := i.jobId
    status := i.status
    request :=
      { model := if i.requestMeta.model.truthy then i.requestMeta.model else .null
        priority := i.requestMeta.priority
        aggressive_enabled := aggressiveEnabled
        aggressive_fallback_reason :=
          match i.requestMeta.aggressive.fallbackReason with
          | some s => if s ≠ "" then some s else none
          | none => none }
    result :=
      { assistant_text := formattedField i.formatted Formatted.assistantText (.str "")
        parsed_json := formattedField i.formatted Formatted.parsedJson .null
        render_mode := formattedField i.formatted Formatted.mode .null
        rendered_html := formattedField i.formatted Formatted.renderedHtml (.str "")
        raw_response := jsOr i.rawResponse .null
        evidence := evidence
        diagnostics :=
          { attempts :=
              match jsToNumber i.attempts with
              | some q => q
              | none => 1
            model_path := if i.requestMeta.model.truthy then i.requestMeta.model else .null
            latency :=
              { queue_wait_ms := timingsNum i.timings TimingsIn.queueWaitMs
                model_ms := timingsNum i.timings TimingsIn.modelTimeMs
                total_ms := timingsNum i.timings TimingsIn.totalMs }
            aggressive :=
              { enabled := aggressiveEnabled
                fallback_reason :=
                  match i.requestMeta.aggressive.fallbackReason with
                  | some s => if s ≠ "" then some s else none
                  | none => none
                confidence_before := confidenceBefore
                confidence_after := confidenceAfter
                confidence_delta := confidenceDelta } } }
    error := i.error
    timings :=
      { queued_at := timingsEcho i.timings TimingsIn.queuedAt
        started_at := timingsEcho i.timings TimingsIn.startedAt
        completed_at := timingsEcho i.timings TimingsIn.completedAt } }

/-! ## Metrics store (`metricsStore.js`) -/

/-- `Number(v) || d` (default when the coercion is `NaN` or `0`). -/
def numOrDefault (v : JSValue) (d : ℚ) : ℚ :=
  match jsToNumber v with
  | some q => if q = 0 then d else q
  | none => d

/-- The metrics store state.  Latency reservoirs are FIFO lists with newest
samples at the tail. -/
structure MetricsStore where
  maxLatencySamples : ℚ
  totalSubmitted : ℕ := 0
  totalCompleted : ℕ := 0
  totalFailed : ℕ := 0
  totalCancelled : ℕ := 0
  byModel : List (String × (ℕ × ℕ)) := []
  errorTaxonomy : List (String × ℕ) := []
  latencyQueueWait : List ℚ := []
  latencyModel : List ℚ := []
  latencyTotal : List ℚ := []
  aggressiveTriggered : ℕ := 0
  aggressiveImproved : ℕ := 0
  byFallbackReason : List (String × (ℕ × ℕ)) := []
  lastErrorAt : Option ℕ := none

/-- The three reservoir keys. -/
inductive LatencyKey where
  | queue_wait_ms
  | model_ms
  | total_ms
deriving DecidableEq, Repr

/-- Read a reservoir. -/
def MetricsStore.reservoir (m : MetricsStore) : LatencyKey → List ℚ
  | .queue_wait_ms => m.latencyQueueWait
  | .model_ms => m.latencyModel
  | .total_ms => m.latencyTotal

/-- Write a reservoir. -/
def MetricsStore.setReservoir (m : MetricsStore) :
    LatencyKey → List ℚ → MetricsStore
  | .queue_wait_ms, l => { m with latencyQueueWait := l }
  | .model_ms, l => { m with latencyModel := l }
  | .total_ms, l => { m with latencyTotal := l }

/-- The `MetricsStore` constructor:
`this.maxLatencySamples = Math.max(50, Number(maxLatencySamples) || 500)`. -/
def mkMetricsStore (maxLatencySamples : JSValue := .undef) : MetricsStore :=
  { maxLatencySamples := max 50 (numOrDefault maxLatencySamples 500) }

/-- `#pushLatency` (translated from the source): the coerced sample is
dropped when non-finite or negative; otherwise it is appended and, once the
cap is exceeded, `splice(0, length - cap)` removes the oldest entries
(`splice` truncates a fractional count toward zero). -/
def MetricsStore.pushLatency (m : MetricsStore) (key : LatencyKey)
    (value : JSValue) : MetricsStore :=
  match jsToNumber value with
  | none => m
  | some parsed =>
    if parsed < 0 then m
    else
      let arr := m.reservoir key ++ [parsed]
      if (arr.length : ℚ) > m.maxLatencySamples then
        m.setReservoir key
          (arr.drop (((arr.length : ℚ) - m.maxLatencySamples).floor.toNat))
      else m.setReservoir key arr

/-- An `Option ℚ` envelope field as the JS value handed around (`null` when
absent). -/
def optNumJS : Option ℚ → JSValue
  | some q => .num (some q)
  | none => .null

/-- `recordSubmitted` (counters only touch the reservoirs' siblings). -/
def MetricsStore.recordSubmitted (m : MetricsStore) (meta : RequestMeta) :
    MetricsStore :=
  let model := if meta.model.truthy then jsToString meta.model else "unknown"
  let entry := ((m.byModel.find? (fun p => p.1 = model)).map Prod.snd).getD (0, 0)
  let m :=
    { m with totalSubmitted := m.totalSubmitted + 1
             byModel := (model, entry) :: m.byModel.filter (fun p => p.1 ≠ model) }
  if meta.aggressive.enabled then
    let reason := (meta.aggressive.fallbackReason.filter (· ≠ "")).getD "unspecified"
    let fe := ((m.byFallbackReason.find? (fun p => p.1 = reason)).map Prod.snd).getD (0, 0)
    { m with aggressiveTriggered := m.aggressiveTriggered + 1
             byFallbackReason :=
               (reason, (fe.1 + 1, fe.2)) ::
                 m.byFallbackReason.filter (fun p => p.1 ≠ reason) }
  else m

/-- `recordCompleted`: bumps the success counters and pushes the three
latency samples of the completed envelope through `#pushLatency`. -/
def MetricsStore.recordCompleted (m : MetricsStore) (e : Envelope) :
    MetricsStore :=
  let model := if e.request.model.truthy then jsToString e.request.model else "unknown"
  let entry := ((m.byModel.find? (fun p => p.1 = model)).map Prod.snd).getD (0, 0)
  let m :=
    { m with totalCompleted := m.totalCompleted + 1
             byModel :=
               (model, (entry.1 + 1, entry.2)) ::
                 m.byModel.filter (fun p => p.1 ≠ model) }
  let lat := e.result.diagnostics.latency
  let m := m.pushLatency .queue_wait_ms (optNumJS lat.queue_wait_ms)
  let m := m.pushLatency .model_ms (optNumJS lat.model_ms)
  let m := m.pushLatency .total_ms (optNumJS lat.total_ms)
  let aggr := e.result.diagnostics.aggressive
  if aggr.enabled && (match aggr.confidence_delta with
      | some d => decide (d > 0)
      | none => false) then
    let reason := (aggr.fallback_reason.filter (· ≠ "")).getD "unspecified"
    let fe := ((m.byFallbackReason.find? (fun p => p.1 = reason)).map Prod.snd).getD (0, 0)
    { m with aggressiveImproved := m.aggressiveImproved + 1
             byFallbackReason :=
               (reason, (fe.1, fe.2 + 1)) ::
                 m.byFallbackReason.filter (fun p => p.1 ≠ reason) }
  else m

/-- `recordFailed`. -/
def MetricsStore.recordFailed (m : MetricsStore) (e : Envelope) (now : ℕ) :
    MetricsStore :=
  let model := if e.request.model.truthy then jsToString e.request.model else "unknown"
  let entry := ((m.byModel.find? (fun p => p.1 = model)).map Prod.snd).getD (0, 0)
  let code :=
    match e.error with
    | some err => toString (repr err.code)
    | none => "UNKNOWN"
  let cnt := ((m.errorTaxonomy.find? (fun p => p.1 = code)).map Prod.snd).getD 0
  { m with totalFailed := m.totalFailed + 1
           lastErrorAt := some now
           byModel :=
             (model, (entry.1, entry.2 + 1)) ::
               m.byModel.filter (fun p => p.1 ≠ model)
           errorTaxonomy :=
             (code, cnt + 1) :: m.errorTaxonomy.filter (fun p => p.1 ≠ code) }

/-- `recordCancelled`. -/
def MetricsStore.recordCancelled (m : MetricsStore) : MetricsStore :=
  { m with totalCancelled := m.totalCancelled + 1 }

/-! ## Replay harness scoring (`replayHarness.js`) -/

/-- A normalized comparison value: null, number, boolean or string. -/
inductive Norm where
  | nnull
  | nnum (n : JSNum)
  | nbool (b : Bool)
  | nstr (s : String)
deriving DecidableEq, Repr

/-- Minimal JSON string escaping (quotes and backslashes). -/
def jsonEscape (s : String) : String :=
  String.mk (s.toList.flatMap (fun c =>
    if c = '"' then ['\\', '"']
    else if c = '\\' then ['\\', '\\']
    else [c]))

/-- Comma-join. -/
def joinComma : List String → String
  | [] => ""
  | [x] => x
  | x :: xs => x ++ "," ++ joinComma xs

mutual

/-- `JSON.stringify` (no spacing), used by `normalizeValue` on values that
are neither null, number, boolean nor string. -/
def jsonStringify : JSValue → String
  | .null => "null"
  | .undef => "null"
  | .bool b => if b then "true" else "false"
  | .num n =>
    match n with
    | some q => ratText q
    | none => "null"
  | .str s => "\"" ++ jsonEscape s ++ "\""
  | .arr xs => "[" ++ jsonStringifyList xs ++ "]"
  | .obj fs => "\x7b" ++ jsonStringifyFields fs ++ "\x7d"

def jsonStringifyList : List JSValue → String
  | [] => ""
  | [x] => jsonStringify x
  | x :: xs => jsonStringify x ++ "," ++ jsonStringifyList xs

def jsonStringifyFields : List (String × JSValue) → String
  | [] => ""
  | [(k, v)] => "\"" ++ jsonEscape k ++ "\":" ++ jsonStringify v
  | (k, v) :: fs =>
    "\"" ++ jsonEscape k ++ "\":" ++ jsonStringify v ++ "," ++
      jsonStringifyFields fs

end

/-- `normalizeValue` (translated from `replayHarness.js`). -/
def normalizeValue : JSValue → Norm
  | .null => .nnull
  | .undef => .nnull
  | .num n => .nnum n
  | .bool b => .nbool b
  | .str s => .nstr (strLower (strTrim s))
  | v => .nstr (jsonStringify v)

/-- JS strict equality `===` on normalized values; `NaN` is unequal to
everything, including itself. -/
def jsStrictEq : Norm → Norm → Bool
  | .nnum a, .nnum b =>
    match a, b with
    | some x, some y => decide (x = y)
    | _, _ => false
  | .nnull, .nnull => true
  | .nbool a, .nbool b => a = b
  | .nstr a, .nstr b => a = b
  | _, _ => false

/-- The keyed fields of an `expected`/`actual` JS object (`Object.keys`
enumeration; arrays enumerate their index strings). -/
def objFields : JSValue → List (String × JSValue)
  | .obj fs => fs
  | .arr xs => (xs.enum).map (fun p => (toString p.1, p.2))
  | _ => []

/-- Per-field comparison record. -/
structure FieldResult where
  expected : JSValue
  actual : JSValue
  match_ : Bool

/-- Per-case score. -/
structure CaseScore where
  total_fields : ℕ
  matched_fields : ℕ
  accuracy : ℚ
  field_results : List (String × FieldResult)

/-- `computeFieldScores` (translated from `replayHarness.js`). -/
def computeFieldScores (expected actual : JSValue) : CaseScore :=
  let expectedObj := if isObjType expected then expected else .obj []
  let actualObj := if isObjType actual then actual else .obj []
  let fields := (objFields expectedObj).map Prod.fst
  let results := fields.map (fun field =>
    let l := normalizeValue (expectedObj.get field)
    let r := normalizeValue (actualObj.get field)
    (field,
      { expected := expectedObj.get field
        actual := actualObj.get field
        match_ := jsStrictEq l r : FieldResult }))
  let total := fields.length
  let matched := (results.filter (fun p => p.2.match_)).length
  { total_fields := total
    matched_fields := matched
    accuracy := if total > 0 then (matched : ℚ) / (total : ℚ) else 0
    field_results := results }

/-- What a prior `latest-<name>.json` file yields: the file may be missing,
unparseable (ignored), or parsed to a JS value. -/
inductive PriorReport where
  | malformed
  | parsed (v : JSValue)

/-- The previous run's `candidate_accuracy` when the prior report is present,
well-formed and carries a finite value
(`previous && previous.summary && Number.isFinite(Number(previous.summary.candidate_accuracy))`). -/
def previousCandidateAcc (prior : Option PriorReport) : Option ℚ :=
  match prior with
  | none => none
  | some .malformed => none
  | some (.parsed v) =>
    if v.truthy ∧ (v.get "summary").truthy then
      jsToNumber ((v.get "summary").get "candidate_accuracy")
    else none

/-- `Number(x.toFixed(2))`. -/
def round2 (q : ℚ) : ℚ := (ratRound (q * 100) : ℤ) / 100

/-- A drift alert record. -/
structure DriftAlert where
  level : String
  type_ : String
  message : String
  previous_candidate_accuracy : ℚ
  current_candidate_accuracy : ℚ
deriving DecidableEq, Repr

/-- The drift alerts the run appends: one `accuracy_drop`/`warn` alert
exactly when the prior candidate accuracy is available and the drop is at
least five percentage points (`delta <= -0.05`). -/
def driftAlerts (prior : Option PriorReport) (candidateAcc : ℚ) :
    List DriftAlert :=
  match previousCandidateAcc prior with
  | none => []
  | some previousAcc =>
    let delta := candidateAcc - previousAcc
    if delta ≤ -(5 / 100) then
      [{ level := "warn"
         type_ := "accuracy_drop"
         message := "Candidate accuracy dropped by " ++
           ratText (round2 (|delta| * 100)) ++
           " percentage points vs previous run."
         previous_candidate_accuracy := previousAcc
         current_candidate_accuracy := candidateAcc }]
    else []

/-- One replay case as the scoring pipeline sees it: the expected object and
the `parsed_json` extracted from the two envelopes. -/
structure ReplayCaseInput where
  expected : JSValue := .obj []
  baselineParsed : JSValue := .null
  candidateParsed : JSValue := .null

/-- The summary block of a replay report. -/
structure ReplaySummary where
  total_cases : ℕ
  baseline_accuracy : ℚ
  candidate_accuracy : ℚ
  accuracy_delta : ℚ
  drift_alerts : List DriftAlert

/-- The scoring and aggregation pipeline of `ReplayHarness.run` (the
upstream calls that produce the envelopes and the file round-trip of the
prior report are collaborators; their outputs are this function's inputs). -/
def replayRun (cases : List ReplayCaseInput) (prior : Option PriorReport) :
    ReplaySummary :=
  let baseScores := cases.map (fun c => computeFieldScores c.expected c.baselineParsed)
  let candScores := cases.map (fun c => computeFieldScores c.expected c.candidateParsed)
  let baselineAcc : ℚ :=
    if cases.length = 0 then 0
    else (baseScores.map CaseScore.accuracy).sum / (cases.length : ℚ)
  let candidateAcc : ℚ :=
    if cases.length = 0 then 0
    else (candScores.map CaseScore.accuracy).sum / (cases.length : ℚ)
  { total_cases := cases.length
    baseline_accuracy := baselineAcc
    candidate_accuracy := candidateAcc
    accuracy_delta := candidateAcc - baselineAcc
    drift_alerts := driftAlerts prior candidateAcc }

/-! ## Queue manager (`queueManager.js`)

The `AsyncQueueManager` class is embedded as a state record plus one pure
step function per entry point.  The asynchronous environment (the event
loop, the upstream client, `setTimeout`/`setImmediate` timers and the
waiter callbacks) delivers events: an upstream call started for a running
job later resolves (`succeed`) or rejects (`fail`), a scheduled retry timer
later fires (`retryFire`), and drain ticks run at arbitrary times.  Job ids
are the strings `job-<now>-<seq>` exactly as in the source. -/

/-- `new Date(ms).toISOString()` modelled as an injective rendering of the
millisecond instant (no claim inspects the ISO text itself). -/
def isoString (ms : ℕ) : String := "iso-" ++ toString ms

/-- `` `job-${Date.now()}-${++this.jobSeq}` ``. -/
def mkJobId (nowMs seq : ℕ) : String :=
  "job-" ++ Nat.repr nowMs ++ "-" ++ Nat.repr seq

theorem toDigitsCore_acc (b : ℕ) : ∀ (fuel n : ℕ) (acc : List Char),
    Nat.toDigitsCore b fuel n acc = Nat.toDigitsCore b fuel n [] ++ acc := by
  intro fuel
  induction fuel with
  | zero => intro n acc; simp [Nat.toDigitsCore]
  | succ f ih =>
    intro n acc
    simp only [Nat.toDigitsCore]
    by_cases h : n / b = 0
    · simp [h]
    · simp only [h, if_false]
      rw [ih (n / b) (Nat.digitChar (n % b) :: acc),
        ih (n / b) [Nat.digitChar (n % b)]]
      simp

theorem toDigitsCore_digits : ∀ (fuel n : ℕ), n < fuel → 0 < n →
    Nat.toDigitsCore 10 fuel n [] = ((Nat.digits 10 n).map Nat.digitChar).reverse := by
  intro fuel
  induction fuel with
  | zero => intro n h; omega
  | succ f ih =>
    intro n hlt hpos
    simp only [Nat.toDigitsCore]
    rw [Nat.digits_def' (by norm_num : 1 < 10) hpos]
    by_cases h : n / 10 = 0
    · simp [h]
    · simp only [h, if_false]
      have hdiv : n / 10 < n := Nat.div_lt_self hpos (by norm_num)
      rw [toDigitsCore_acc, ih (n / 10) (by omega) (Nat.pos_of_ne_zero h)]
      simp

/-- The digit list `Nat.repr` renders (little-endian), with `0` rendered as
the single digit `0`. -/
def reprDigits (n : ℕ) : List ℕ := if n = 0 then [0] else Nat.digits 10 n

theorem reprDigits_lt (n : ℕ) : ∀ d ∈ reprDigits n, d < 10 := by
  intro d hd
  unfold reprDigits at hd
  by_cases h : n = 0
  · simp [h] at hd; omega
  · simp only [h, if_false] at hd
    exact Nat.digits_lt_base (by norm_num) hd

theorem natRepr_eq (n : ℕ) :
    Nat.repr n = (((reprDigits n).map Nat.digitChar).reverse).asString := by
  by_cases h : n = 0
  · subst h; rfl
  · unfold reprDigits
    simp only [h, if_false]
    show (Nat.toDigits 10 n).asString = _
    unfold Nat.toDigits
    rw [toDigitsCore_digits (n + 1) n (by omega) (Nat.pos_of_ne_zero h)]

theorem digitChar_inj_lt : ∀ a < 10, ∀ b < 10,
    Nat.digitChar a = Nat.digitChar b → a = b := by decide

theorem digitChar_ne_dash : ∀ a < 10, Nat.digitChar a ≠ '-' := by decide

theorem asString_data (l : List Char) : (l.asString).data = l := rfl

theorem digits_map_inj : ∀ (xs ys : List ℕ), (∀ x ∈ xs, x < 10) →
    (∀ y ∈ ys, y < 10) → xs.map Nat.digitChar = ys.map Nat.digitChar →
    xs = ys := by
  intro xs
  induction xs with
  | nil => intro ys _ _ h; cases ys <;> simp_all
  | cons x xs ih =>
    intro ys hx hy h
    cases ys with
    | nil => simp at h
    | cons y ys =>
      simp only [List.map_cons, List.cons.injEq] at h
      obtain ⟨h1, h2⟩ := h
      have hx0 : x < 10 := hx x (by simp)
      have hy0 : y < 10 := hy y (by simp)
      have : x = y := digitChar_inj_lt x hx0 y hy0 h1
      subst this
      have := ih ys (fun a ha => hx a (by simp [ha])) (fun a ha => hy a (by simp [ha])) h2
      simp [this]

theorem reprDigits_inj (a b : ℕ) (h : reprDigits a = reprDigits b) : a = b := by
  unfold reprDigits at h
  by_cases h0 : a = 0 <;> by_cases h1 : b = 0
  · omega
  · simp only [h0, h1, if_true, if_false] at h
    have := Nat.ofDigits_digits 10 b
    rw [← h] at this
    simp [Nat.ofDigits] at this
    omega
  · simp only [h0, h1, if_true, if_false] at h
    have := Nat.ofDigits_digits 10 a
    rw [h] at this
    simp [Nat.ofDigits] at this
    omega
  · simp only [h0, h1, if_false] at h
    have hA := Nat.ofDigits_digits 10 a
    have hB := Nat.ofDigits_digits 10 b
    rw [h] at hA
    omega

theorem natRepr_inj (a b : ℕ) (h : Nat.repr a = Nat.repr b) : a = b := by
  rw [natRepr_eq, natRepr_eq] at h
  have hdata := congrArg String.data h
  rw [asString_data, asString_data] at hdata
  have hmap : (reprDigits a).map Nat.digitChar = (reprDigits b).map Nat.digitChar := by
    have := congrArg List.reverse hdata
    simpa using this
  exact reprDigits_inj a b
    (digits_map_inj _ _ (reprDigits_lt a) (reprDigits_lt b) hmap)

theorem natRepr_no_dash (n : ℕ) : '-' ∉ (Nat.repr n).data := by
  rw [natRepr_eq, asString_data]
  intro hmem
  rw [List.mem_reverse] at hmem
  obtain ⟨d, hd, hdc⟩ := List.mem_map.mp hmem
  exact digitChar_ne_dash d (reprDigits_lt n d hd) hdc

theorem append_dash_inj : ∀ (l1 l2 r1 r2 : List Char),
    l1 ++ '-' :: r1 = l2 ++ '-' :: r2 → '-' ∉ l1 → '-' ∉ l2 →
    l1 = l2 ∧ r1 = r2 := by
  intro l1
  induction l1 with
  | nil =>
    intro l2 r1 r2 h h1 h2
    cases l2 with
    | nil => simp_all
    | cons c cs =>
      simp only [List.nil_append, List.cons_append, List.cons.injEq] at h
      obtain ⟨hc, _⟩ := h
      exact absurd (hc ▸ List.mem_cons_self c cs) (by simp_all)
  | cons c cs ih =>
    intro l2 r1 r2 h h1 h2
    cases l2 with
    | nil =>
      simp only [List.cons_append, List.nil_append, List.cons.injEq] at h
      obtain ⟨hc, _⟩ := h
      exact absurd (by simp [hc]) h1
    | cons d ds =>
      simp only [List.cons_append, List.cons.injEq] at h
      obtain ⟨hc, hrest⟩ := h
      subst hc
      have := ih ds r1 r2 hrest (fun hm => h1 (by simp [hm])) (fun hm => h2 (by simp [hm]))
      simp [this]

theorem mkJobId_inj (t1 k1 t2 k2 : ℕ)
    (h : mkJobId t1 k1 = mkJobId t2 k2) : t1 = t2 ∧ k1 = k2 := by
  unfold mkJobId at h
  have hdata := congrArg String.data h
  simp only [String.data_append] at hdata
  simp only [List.cons_append, List.nil_append, List.cons.injEq, true_and] at hdata
  rw [List.append_assoc, List.append_assoc, List.singleton_append,
    List.singleton_append] at hdata
  obtain ⟨hl, hr⟩ := append_dash_inj _ _ _ _ hdata
    (natRepr_no_dash t1) (natRepr_no_dash t2)
  constructor
  · exact natRepr_inj t1 t2 (String.ext hl)
  · exact natRepr_inj k1 k2 (String.ext hr)

/-- Associative-list lookup (`Map.get`): the first binding wins. -/
def lookupAssoc {α : Type} : List (String × α) → String → Option α
  | [], _ => none
  | p :: ps, k => if p.1 = k then some p.2 else lookupAssoc ps k

/-- Associative-list update (`Map.set`): replace in place, else append. -/
def setAssoc {α : Type} : List (String × α) → String → α → List (String × α)
  | [], k, v => [(k, v)]
  | p :: ps, k, v => if p.1 = k then (k, v) :: ps else p :: setAssoc ps k v

/-- A job record.  The `waiters` list and the `abortController` handle are
channels to the environment (waiter fanout and upstream abortion have no
effect on the manager's own state) and are not part of the state. -/
structure Job where
  job_id : String
  payload : JSValue
  priority : Priority
  status : Status
  attempts : ℕ
  queuedAtMs : ℕ
  startedAtMs : Option ℕ := none
  completedAt : JSValue := .null
  requestMeta : RequestMeta
  cancelRequested : Bool := false

/-- The clamped retry policy. -/
structure RetryPolicy where
  maxAttempts : ℚ
  baseDelayMs : ℚ
  maxDelayMs : ℚ
deriving DecidableEq, Repr

/-- The clamped cooldown durations. -/
structure Cooldowns where
  authRequiredMs : ℚ
  challengeMs : ℚ
  rateLimitedMs : ℚ
  degradedMs : ℚ
deriving DecidableEq, Repr

/-- The three FIFO lanes of queued job ids. -/
structure Lanes where
  interactive : List String := []
  retry : List String := []
  batch : List String := []
deriving DecidableEq, Repr

/-- Read a lane. -/
def Lanes.lane (l : Lanes) : Priority → List String
  | .interactive => l.interactive
  | .retry => l.retry
  | .batch => l.batch

/-- Append to a lane (`this.lanes[priority].push(jobId)`). -/
def Lanes.push (l : Lanes) : Priority → String → Lanes
  | .interactive, id => { l with interactive := l.interactive ++ [id] }
  | .retry, id => { l with retry := l.retry ++ [id] }
  | .batch, id => { l with batch := l.batch ++ [id] }

/-- All laned ids in lane-precedence order. -/
def Lanes.all (l : Lanes) : List String := l.interactive ++ l.retry ++ l.batch

/-- The queue manager state. -/
structure AsyncQueueManager where
  maxInFlight : ℚ
  maxQueueDepth : ℚ
  retryPolicy : RetryPolicy
  cooldowns : Cooldowns
  metrics : MetricsStore
  signals : Signals := {}
  lanes : Lanes := {}
  runningIds : List String := []
  jobs : List (String × Job) := []
  results : List (String × Envelope) := []
  jobSeq : ℕ := 0
  retryTimers : List String := []

/-- Raw constructor options for the retry policy. -/
structure RetryPolicyInput where
  maxAttempts : JSValue := .undef
  baseDelayMs : JSValue := .undef
  maxDelayMs : JSValue := JSValue.undef

/-- Raw constructor options for the cooldowns. -/
structure CooldownsInput where
  authRequiredMs : JSValue := .undef
  challengeMs : JSValue := .undef
  rateLimitedMs : JSValue := .undef
  degradedMs : JSValue := JSValue.undef

/-- The `AsyncQueueManager` constructor with its clamps (the upstream
client is a collaborator and does not enter the state). -/
def mkQueueManager (maxInFlight : JSValue := .undef)
    (maxQueueDepth : JSValue := .undef)
    (retryPolicy : RetryPolicyInput := {})
    (cooldowns : CooldownsInput := {}) : AsyncQueueManager :=
  { maxInFlight := max 1 (numOrDefault maxInFlight 1)
    maxQueueDepth := max 1 (numOrDefault maxQueueDepth 100)
    retryPolicy :=
      { maxAttempts := max 1 (numOrDefault retryPolicy.maxAttempts 2)
        baseDelayMs := max 0 (numOrDefault retryPolicy.baseDelayMs 1500)
        maxDelayMs := max 100 (numOrDefault retryPolicy.maxDelayMs 45000) }
    cooldowns :=
      { authRequiredMs := max 1000 (numOrDefault cooldowns.authRequiredMs 300000)
        challengeMs := max 1000 (numOrDefault cooldowns.challengeMs 90000)
        rateLimitedMs := max 1000 (numOrDefault cooldowns.rateLimitedMs 45000)
        degradedMs := max 1000 (numOrDefault cooldowns.degradedMs 15000) }
    metrics := mkMetricsStore }

/-- `#totalDepth`. -/
def AsyncQueueManager.totalDepth (s : AsyncQueueManager) : ℕ :=
  s.runningIds.length + s.lanes.interactive.length + s.lanes.retry.length +
    s.lanes.batch.length

/-- `#cooldownUntil` (the cooldown gate). -/
def AsyncQueueManager.cooldownUntil (s : AsyncQueueManager) : ℚ :=
  max (max s.signals.auth_required_until s.signals.challenge_until)
    (max s.signals.rate_limited_until s.signals.degraded_until)

/-- `#removeFromLanes`. -/
def AsyncQueueManager.removeFromLanes (s : AsyncQueueManager) (jobId : String) :
    AsyncQueueManager :=
  { s with lanes :=
      { interactive := s.lanes.interactive.filter (fun x => x ≠ jobId)
        retry := s.lanes.retry.filter (fun x => x ≠ jobId)
        batch := s.lanes.batch.filter (fun x => x ≠ jobId) } }

/-- `this.jobs.get(jobId)`. -/
def AsyncQueueManager.lookupJob (s : AsyncQueueManager) (jobId : String) :
    Option Job :=
  lookupAssoc s.jobs jobId

/-- `#applySignal`: exactly the signal mapped to the classified code is moved
to `now + duration`; other codes leave the signals untouched. -/
def AsyncQueueManager.applySignal (s : AsyncQueueManager) (errorCode : ErrCode)
    (now : ℕ) : AsyncQueueManager :=
  match errorCode with
  | .UPSTREAM_LOGIN_REQUIRED =>
    { s with signals :=
        { s.signals with auth_required_until := (now : ℚ) + s.cooldowns.authRequiredMs } }
  | .UPSTREAM_CHALLENGE =>
    { s with signals :=
        { s.signals with challenge_until := (now : ℚ) + s.cooldowns.challengeMs } }
  | .UPSTREAM_RATE_LIMITED =>
    { s with signals :=
        { s.signals with rate_limited_until := (now : ℚ) + s.cooldowns.rateLimitedMs } }
  | .UPSTREAM_UNAVAILABLE =>
    { s with signals :=
        { s.signals with degraded_until := (now : ℚ) + s.cooldowns.degradedMs } }
  | _ => s

/-- `#finalize`: stamp the job with the envelope's terminal status, store the
envelope in the result cache, and hand the envelope to the waiters and the
`job.final` listeners (environment effects). -/
def AsyncQueueManager.finalize (s : AsyncQueueManager) (job : Job)
    (envelope : Envelope) (now : ℕ) : AsyncQueueManager :=
  let job' :=
    { job with
        status := envelope.status
        completedAt :=
          if envelope.timings.completed_at.truthy then envelope.timings.completed_at
          else .str (isoString now) }
  { s with jobs := setAssoc s.jobs job.job_id job'
           results := setAssoc s.results job.job_id envelope }

/-- `submit`'s synchronous result. -/
inductive SubmitResult where
  | error (code : ErrCode) (message : String)
  | ok (job_id : String) (status : Status)
      (linkStatus linkResult linkCancel : String)

/-- The body of a `submit` call. -/
structure SubmitRequest where
  payload : JSValue := .undef
  priority : JSValue := .undef
  aggressive : JSValue := .undef
  domAnchor : JSValue := .undef
  screenshotRegion : JSValue := .undef
  reasoningNote : JSValue := JSValue.undef

/-- `Array.isArray`. -/
def isArray : JSValue → Bool
  | .arr _ => true
  | _ => false

/-- `submit` (translated from `queueManager.js`; a `null` request behaves
like one with a falsy payload).  `submit` performs no upstream call: it
only admits the job and schedules a drain tick asynchronously. -/
def AsyncQueueManager.submit (s : AsyncQueueManager) (request : SubmitRequest)
    (now : ℕ) : SubmitResult × AsyncQueueManager :=
  let payload := if request.payload.truthy then request.payload else .null
  if ¬ isObjType payload then
    (.error .INVALID_REQUEST "payload is required", s)
  else if ¬ (payload.get "model").truthy ∨ ¬ isArray (payload.get "messages") then
    (.error .INVALID_REQUEST "payload.model and payload.messages are required", s)
  else if (s.totalDepth : ℚ) ≥ s.maxQueueDepth then
    (.error .QUEUE_BACKPRESSURE "Queue backpressure: queue is full", s)
  else
    let priority := toPriority request.priority
    let jobId := mkJobId now (s.jobSeq + 1)
    let requestMeta : RequestMeta :=
      { model := payload.get "model"
        priority := priority
        aggressive :=
          { enabled := (jsAnd request.aggressive (request.aggressive.get "enabled")).truthy
            fallbackReason :=
              if request.aggressive.truthy then
                match (request.aggressive).get "fallbackReason" with
                | .str fs => some fs
                | _ => none
              else none
            confidenceBefore :=
              if request.aggressive.truthy then
                jsToNumber ((request.aggressive).get "confidenceBefore")
              else none }
        domAnchor := if request.domAnchor.truthy then request.domAnchor else .null
        screenshotRegion :=
          if request.screenshotRegion.truthy then request.screenshotRegion else .null
        reasoningNote :=
          if request.reasoningNote.truthy then request.reasoningNote else .null }
    let job : Job :=
      { job_id := jobId
        payload := payload
        priority := priority
        status := .queued
        attempts := 0
        queuedAtMs := now
        requestMeta := requestMeta }
    let s' :=
      { s with jobSeq := s.jobSeq + 1
               jobs := setAssoc s.jobs jobId job
               lanes := s.lanes.push priority jobId
               metrics := s.metrics.recordSubmitted requestMeta }
    (.ok jobId .queued ("/api/async/status/" ++ jobId)
      ("/api/async/result/" ++ jobId) ("/api/async/cancel/" ++ jobId), s')

/-- `cancel`'s synchronous result record. -/
structure CancelResult where
  cancelled : Bool
  code : Option String := none
  message : Option String := none
  running : Option Bool := none
  job_id : Option String := none
  status : Option String := none
deriving DecidableEq, Repr

/-- The cancelled envelope `cancel` synthesizes for a pre-dispatch job. -/
def cancelledEnvelopeInput (job : Job) (now : ℕ) : EnvelopeInput :=
  { jobId := job.job_id
    status := .cancelled
    requestMeta := job.requestMeta
    rawResponse := .null
    formatted := some
      { assistantText := .str ""
        parsedJson := .null
        renderedHtml := .str ""
        mode := .str "markdown" }
    error := some
      { code := .JOB_CANCELLED
        message := "Job cancelled before execution."
        retryable := false
        status := 409 }
    timings := some
      { queuedAt := .str (isoString job.queuedAtMs)
        startedAt := .null
        completedAt := .str (isoString now)
        queueWaitMs := .null
        modelTimeMs := .null
        totalMs := .num (some ((now : ℚ) - (job.queuedAtMs : ℚ))) }
    attempts := .num (some (job.attempts : ℚ)) }

/-- `cancel` (translated from `queueManager.js`). -/
def AsyncQueueManager.cancel (s : AsyncQueueManager) (jobId : String)
    (now : ℕ) : CancelResult × AsyncQueueManager :=
  let job? := s.lookupJob jobId
  let hasResult := (lookupAssoc s.results jobId).isSome
  if job?.isNone ∧ ¬ hasResult then
    ({ cancelled := false, code := some "JOB_NOT_FOUND"
       message := some "Job not found." }, s)
  else if hasResult then
    ({ cancelled := false, code := some "ALREADY_FINAL"
       message := some "Job is already final." }, s)
  else if jobId ∈ s.runningIds then
    let s' :=
      match job? with
      | some job =>
        { s with jobs := setAssoc s.jobs jobId { job with cancelRequested := true } }
      | none => s
    ({ cancelled := true, running := some true, job_id := some jobId
       status := some "cancel_requested" }, s')
  else
    match job? with
    | none =>
      ({ cancelled := false, code := some "JOB_NOT_FOUND"
         message := some "Job not found." }, s)
    | some job =>
      let s1 := s.removeFromLanes jobId
      let job' := { job with status := Status.cancelled }
      let s2 := { s1 with jobs := setAssoc s1.jobs jobId job' }
      let envelope := buildStructuredEnvelope (cancelledEnvelopeInput job' now)
      let s3 := { s2 with metrics := s2.metrics.recordCancelled }
      let s4 := s3.finalize job' envelope now
      ({ cancelled := true, running := some false, job_id := some jobId
         status := some "cancelled" }, s4)

/-- `#pickNextJobId`: shift the head of the first non-empty lane in the
fixed precedence interactive, retry, batch. -/
def AsyncQueueManager.pickNextJobId (s : AsyncQueueManager) :
    Option (String × AsyncQueueManager) :=
  match s.lanes.interactive with
  | id :: rest => some (id, { s with lanes := { s.lanes with interactive := rest } })
  | [] =>
    match s.lanes.retry with
    | id :: rest => some (id, { s with lanes := { s.lanes with retry := rest } })
    | [] =>
      match s.lanes.batch with
      | id :: rest => some (id, { s with lanes := { s.lanes with batch := rest } })
      | [] => none

/-- The synchronous part of `#startJob`: mark the job running, stamp
`started_at`, bump attempts, create the abort handle (environment) and put
the id in the running set.  The upstream call it launches resolves later as
a `succeed`/`fail` event. -/
def AsyncQueueManager.startJob (s : AsyncQueueManager) (job : Job) (now : ℕ) :
    AsyncQueueManager :=
  let job' :=
    { job with status := Status.running, startedAtMs := some now
               attempts := job.attempts + 1 }
  { s with jobs := setAssoc s.jobs job.job_id job'
           runningIds := s.runningIds ++ [job.job_id] }

/-- Total laned ids (termination measure of the drain loop). -/
def AsyncQueueManager.laneTotal (s : AsyncQueueManager) : ℕ :=
  s.lanes.interactive.length + s.lanes.retry.length + s.lanes.batch.length

theorem pickNextJobId_laneTotal (s : AsyncQueueManager) (id : String)
    (s' : AsyncQueueManager) (h : s.pickNextJobId = some (id, s')) :
    s'.laneTotal < s.laneTotal := by
  unfold AsyncQueueManager.pickNextJobId at h
  rcases hi : s.lanes.interactive with _ | ⟨x, xs⟩ <;>
    rcases hr : s.lanes.retry with _ | ⟨y, ys⟩ <;>
    rcases hb : s.lanes.batch with _ | ⟨z, zs⟩ <;>
    simp [hi, hr, hb] at h <;>
    ((try obtain ⟨h1, h2⟩ := h); subst_vars) <;>
    simp [AsyncQueueManager.laneTotal, hi, hr, hb] <;> omega

theorem startJob_laneTotal (s : AsyncQueueManager) (job : Job) (now : ℕ) :
    (s.startJob job now).laneTotal = s.laneTotal := rfl

/-- The `while` loop of `#drain`: while there is in-flight budget, pick the
next laned id, defensively skip missing or already-final jobs, and start the
rest.  Returns the started ids in start order. -/
def AsyncQueueManager.drainLoop (s : AsyncQueueManager) (now : ℕ) :
    List String × AsyncQueueManager :=
  if (s.runningIds.length : ℚ) < s.maxInFlight then
    match hp : s.pickNextJobId with
    | none => ([], s)
    | some (nextId, s') =>
      match s'.lookupJob nextId with
      | none => s'.drainLoop now
      | some job =>
        if job.status.isFinal then s'.drainLoop now
        else
          let s2 := s'.startJob job now
          let r := s2.drainLoop now
          (nextId :: r.1, r.2)
  else ([], s)
termination_by s.laneTotal
decreasing_by
  all_goals exact pickNextJobId_laneTotal s nextId s' hp

/-- `#drain`: when the cooldown gate is in the future no job starts and a
drain is rescheduled after `max(50, gate - now)` ms; otherwise the dispatch
loop runs.  The first component lists the started ids, the second is the
reschedule delay when the gate was closed. -/
def AsyncQueueManager.drain (s : AsyncQueueManager) (now : ℕ) :
    (List String × Option ℚ) × AsyncQueueManager :=
  if s.cooldownUntil > (now : ℚ) then
    (([], some (max 50 (s.cooldownUntil - (now : ℚ)))), s)
  else
    let r := s.drainLoop now
    ((r.1, none), r.2)

/-- The start instant the `run()` closure captured (`startedAtMs`); a
running job always has one. -/
def Job.startedAt' (job : Job) (now : ℕ) : ℕ := job.startedAtMs.getD now

/-- The ISO echo of `job.startedAt`. -/
def Job.startedAtIso (job : Job) : JSValue :=
  match job.startedAtMs with
  | some t => .str (isoString t)
  | none => .null

/-- The completed envelope built when the upstream call resolves. -/
def completedEnvelopeInput (job : Job) (rawResponse : JSValue)
    (formatted : Formatted) (now : ℕ) : EnvelopeInput :=
  let startedAtMs := job.startedAt' now
  { jobId := job.job_id
    status := .completed
    requestMeta := job.requestMeta
    rawResponse := rawResponse
    formatted := some formatted
    error := none
    timings := some
      { queuedAt := .str (isoString job.queuedAtMs)
        startedAt := job.startedAtIso
        completedAt := .str (isoString now)
        queueWaitMs := .num (some ((startedAtMs : ℚ) - (job.queuedAtMs : ℚ)))
        modelTimeMs := .num (some ((now : ℚ) - (startedAtMs : ℚ)))
        totalMs := .num (some ((now : ℚ) - (job.queuedAtMs : ℚ))) }
    attempts := .num (some (job.attempts : ℚ)) }

/-- The upstream call of a running job resolved: build the completed
envelope, record the metric, finalize, and (`finally`) leave the running
set and schedule another drain tick. -/
def AsyncQueueManager.succeedStep (s : AsyncQueueManager) (jobId : String)
    (rawResponse : JSValue) (formatted : Formatted) (now : ℕ) :
    AsyncQueueManager :=
  match s.lookupJob jobId with
  | none => { s with runningIds := s.runningIds.erase jobId }
  | some job =>
    let envelope := buildStructuredEnvelope
      (completedEnvelopeInput job rawResponse formatted now)
    let s1 := { s with metrics := s.metrics.recordCompleted envelope }
    let s2 := s1.finalize job envelope now
    { s2 with runningIds := s2.runningIds.erase jobId }

/-- The cancelled envelope built when the error path of a running job
observes `cancel_requested`. -/
def cancelledWhileRunningEnvelopeInput (job : Job) (now : ℕ) : EnvelopeInput :=
  let startedAtMs := job.startedAt' now
  { jobId := job.job_id
    status := .cancelled
    requestMeta := job.requestMeta
    rawResponse := .null
    formatted := some
      { assistantText := .str "", parsedJson := .null
        renderedHtml := .str "", mode := .str "markdown" }
    error := some
      { code := .JOB_CANCELLED
        message := "Job cancelled while running."
        retryable := false
        status := 409 }
    timings := some
      { queuedAt := .str (isoString job.queuedAtMs)
        startedAt := job.startedAtIso
        completedAt := .str (isoString now)
        queueWaitMs := .num (some ((startedAtMs : ℚ) - (job.queuedAtMs : ℚ)))
        modelTimeMs := .num (some ((now : ℚ) - (startedAtMs : ℚ)))
        totalMs := .num (some ((now : ℚ) - (job.queuedAtMs : ℚ))) }
    attempts := .num (some (job.attempts : ℚ)) }

/-- The failed envelope built when the error is final. -/
def failedEnvelopeInput (job : Job) (classified : ClassifiedError) (now : ℕ) :
    EnvelopeInput :=
  let startedAtMs := job.startedAt' now
  { jobId := job.job_id
    status := .failed
    requestMeta := job.requestMeta
    rawResponse := .null
    formatted := some
      { assistantText := .str "", parsedJson := .null
        renderedHtml := .str "", mode := .str "markdown" }
    error := some classified
    timings := some
      { queuedAt := .str (isoString job.queuedAtMs)
        startedAt := job.startedAtIso
        completedAt := .str (isoString now)
        queueWaitMs := .num (some ((startedAtMs : ℚ) - (job.queuedAtMs : ℚ)))
        modelTimeMs := .num (some ((now : ℚ) - (startedAtMs : ℚ)))
        totalMs := .num (some ((now : ℚ) - (job.queuedAtMs : ℚ))) }
    attempts := .num (some (job.attempts : ℚ)) }

/-- The upstream call of a running job rejected: classify, apply the
cooldown signal, then either emit a cancelled envelope (when
`cancel_requested`), schedule a retry (status `retrying`, retry timer
armed, no lane), or finalize as failed; in every branch the job leaves the
running set (`finally`). -/
def AsyncQueueManager.failStep (s : AsyncQueueManager) (jobId : String)
    (error : Option JSError) (now : ℕ) : AsyncQueueManager :=
  match s.lookupJob jobId with
  | none => { s with runningIds := s.runningIds.erase jobId }
  | some job =>
    let classified := classifyError error
    let s0 := s.applySignal classified.code now
    let shouldRetry := classified.retryable ∧ ¬ job.cancelRequested ∧
      (job.attempts : ℚ) < s0.retryPolicy.maxAttempts
    if job.cancelRequested then
      let envelope := buildStructuredEnvelope
        (cancelledWhileRunningEnvelopeInput job now)
      let s1 := { s0 with metrics := s0.metrics.recordCancelled }
      let s2 := s1.finalize job envelope now
      { s2 with runningIds := s2.runningIds.erase jobId }
    else if shouldRetry then
      let job' := { job with status := Status.retrying }
      { s0 with jobs := setAssoc s0.jobs jobId job'
                retryTimers := s0.retryTimers ++ [jobId]
                runningIds := s0.runningIds.erase jobId }
    else
      let envelope := buildStructuredEnvelope (failedEnvelopeInput job classified now)
      let s1 := { s0 with metrics := s0.metrics.recordFailed envelope now }
      let s2 := s1.finalize job envelope now
      { s2 with runningIds := s2.runningIds.erase jobId }

/-- A pending retry timer fired: the timer is spent; if the job has meanwhile
reached a terminal status nothing else happens, otherwise the job goes back
to `queued` and is pushed onto the retry lane. -/
def AsyncQueueManager.retryFireStep (s : AsyncQueueManager) (jobId : String) :
    AsyncQueueManager :=
  let s0 := { s with retryTimers := s.retryTimers.erase jobId }
  match s0.lookupJob jobId with
  | none => s0
  | some job =>
    if job.status.isFinal then s0
    else
      { s0 with jobs := setAssoc s0.jobs jobId { job with status := Status.queued }
                lanes := { s0.lanes with retry := s0.lanes.retry ++ [jobId] } }

/-- The events the environment can deliver to a queue manager. -/
inductive Event where
  | submit (request : SubmitRequest) (now : ℕ)
  | cancel (jobId : String) (now : ℕ)
  | drain (now : ℕ)
  | succeed (jobId : String) (rawResponse : JSValue) (formatted : Formatted) (now : ℕ)
  | fail (jobId : String) (error : Option JSError) (now : ℕ)
  | retryFire (jobId : String)

/-- When an event can occur: an upstream call only resolves or rejects for a
job whose call is in flight, and a retry timer only fires once armed. -/
def Event.valid : Event → AsyncQueueManager → Prop
  | .succeed jobId _ _ _, s => jobId ∈ s.runningIds
  | .fail jobId _ _, s => jobId ∈ s.runningIds
  | .retryFire jobId, s => jobId ∈ s.retryTimers
  | _, _ => True

/-- The state transition of one event. -/
def applyEvent : Event → AsyncQueueManager → AsyncQueueManager
  | .submit request now, s => (s.submit request now).2
  | .cancel jobId now, s => (s.cancel jobId now).2
  | .drain now, s => (s.drain now).2
  | .succeed jobId raw formatted now, s => s.succeedStep jobId raw formatted now
  | .fail jobId error now, s => s.failStep jobId error now
  | .retryFire jobId, s => s.retryFireStep jobId

/-- Multi-step reachability along valid events. -/
inductive StepsTo : AsyncQueueManager → AsyncQueueManager → Prop where
  | refl (s : AsyncQueueManager) : StepsTo s s
  | tail {s t : AsyncQueueManager} (e : Event) :
      StepsTo s t → e.valid t → StepsTo s (applyEvent e t)

/-- A state of a queue manager as constructed and then driven by any valid
event sequence. -/
def Reachable (s : AsyncQueueManager) : Prop :=
  ∃ mif mqd rp cd, StepsTo (mkQueueManager mif mqd rp cd) s

/-! ## Associative-list lemmas -/

theorem lookupAssoc_set_self {α : Type} (l : List (String × α)) (k : String)
    (v : α) : lookupAssoc (setAssoc l k v) k = some v := by
  induction l with
  | nil => simp [setAssoc, lookupAssoc]
  | cons p ps ih =>
    by_cases h : p.1 = k
    · simp [setAssoc, lookupAssoc, h]
    · simp [setAssoc, lookupAssoc, h, ih]

theorem lookupAssoc_set_ne {α : Type} (l : List (String × α)) (k k' : String)
    (v : α) (h : k' ≠ k) :
    lookupAssoc (setAssoc l k v) k' = lookupAssoc l k' := by
  induction l with
  | nil => simp [setAssoc, lookupAssoc, Ne.symm h]
  | cons p ps ih =>
    by_cases hp : p.1 = k
    · by_cases hp' : p.1 = k'
      · exact absurd (hp' ▸ hp) h
      · simp [setAssoc, lookupAssoc, hp, hp', Ne.symm h]
    · simp only [setAssoc, hp, if_false, lookupAssoc]
      by_cases hp' : p.1 = k' <;> simp [hp', ih]

theorem mem_setAssoc {α : Type} : ∀ (l : List (String × α)) (k : String)
    (v : α) (p : String × α), p ∈ setAssoc l k v → p = (k, v) ∨ p ∈ l := by
  intro l
  induction l with
  | nil => intro k v p h; simp [setAssoc] at h; simp [h]
  | cons q qs ih =>
    intro k v p h
    by_cases hq : q.1 = k
    · simp only [setAssoc, hq, if_true] at h
      rcases List.mem_cons.mp h with h | h
      · exact Or.inl h
      · exact Or.inr (List.mem_cons_of_mem q h)
    · simp only [setAssoc, hq, if_false] at h
      rcases List.mem_cons.mp h with h | h
      · exact Or.inr (h ▸ List.mem_cons_self q qs)
      · rcases ih k v p h with h' | h'
        · exact Or.inl h'
        · exact Or.inr (List.mem_cons_of_mem q h')

theorem keys_setAssoc_subset {α : Type} (l : List (String × α)) (k : String)
    (v : α) (a : String) (h : a ∈ (setAssoc l k v).map Prod.fst) :
    a ∈ l.map Prod.fst ∨ a = k := by
  obtain ⟨p, hp, rfl⟩ := List.mem_map.mp h
  rcases mem_setAssoc l k v p hp with h' | h'
  · subst h'; exact Or.inr rfl
  · exact Or.inl (List.mem_map.mpr ⟨p, h', rfl⟩)

theorem keys_subset_setAssoc {α : Type} : ∀ (l : List (String × α))
    (k : String) (v : α) (a : String), a ∈ l.map Prod.fst →
    a ∈ (setAssoc l k v).map Prod.fst := by
  intro l
  induction l with
  | nil => intro k v a h; simp at h
  | cons q qs ih =>
    intro k v a h
    by_cases hq : q.1 = k
    · simp only [setAssoc, hq, if_true]
      simp only [List.map_cons, List.mem_cons] at h ⊢
      rcases h with h | h
      · exact Or.inl (by rw [h, hq])
      · exact Or.inr h
    · simp only [setAssoc, hq, if_false]
      simp only [List.map_cons, List.mem_cons] at h ⊢
      rcases h with h | h
      · exact Or.inl h
      · exact Or.inr (ih k v a h)

theorem keys_setAssoc_nodup {α : Type} : ∀ (l : List (String × α))
    (k : String) (v : α), (l.map Prod.fst).Nodup →
    ((setAssoc l k v).map Prod.fst).Nodup := by
  intro l
  induction l with
  | nil => intro k v _; simp [setAssoc]
  | cons q qs ih =>
    intro k v h
    simp only [List.map_cons, List.nodup_cons] at h
    obtain ⟨hq', hqs⟩ := h
    by_cases hq : q.1 = k
    · simp only [setAssoc, hq, if_true, List.map_cons, List.nodup_cons]
      exact ⟨hq ▸ hq', hqs⟩
    · simp only [setAssoc, hq, if_false, List.map_cons, List.nodup_cons]
      refine ⟨fun hmem => ?_, ih k v hqs⟩
      rcases keys_setAssoc_subset qs k v q.1 hmem with h' | h'
      · exact hq' h'
      · exact hq h'

theorem lookupAssoc_isSome_iff {α : Type} (l : List (String × α)) (k : String) :
    (lookupAssoc l k).isSome ↔ k ∈ l.map Prod.fst := by
  induction l with
  | nil => simp [lookupAssoc]
  | cons p ps ih =>
    by_cases h : p.1 = k
    · simp [lookupAssoc, h]
    · simp only [lookupAssoc, h, if_false, List.map_cons, List.mem_cons]
      rw [ih]
      constructor
      · exact fun hm => Or.inr hm
      · rintro (hk | hm)
        · exact absurd hk.symm h
        · exact hm

theorem lookupAssoc_mem {α : Type} : ∀ (l : List (String × α)) (k : String)
    (v : α), lookupAssoc l k = some v → (k, v) ∈ l := by
  intro l
  induction l with
  | nil => intro k v h; simp [lookupAssoc] at h
  | cons p ps ih =>
    intro k v h
    by_cases hp : p.1 = k
    · simp only [lookupAssoc, hp, if_true, Option.some.injEq] at h
      subst h
      have : (k, p.2) = p := by rw [← hp]
      rw [this]
      exact List.mem_cons_self p ps
    · simp only [lookupAssoc, hp, if_false] at h
      exact List.mem_cons_of_mem p (ih k v h)

theorem mem_lookupAssoc {α : Type} : ∀ (l : List (String × α)) (k : String)
    (v : α), (l.map Prod.fst).Nodup → (k, v) ∈ l →
    lookupAssoc l k = some v := by
  intro l
  induction l with
  | nil => intro k v _ h; simp at h
  | cons p ps ih =>
    intro k v hnd h
    simp only [List.map_cons, List.nodup_cons] at hnd
    obtain ⟨hp', hps⟩ := hnd
    rcases List.mem_cons.mp h with h | h
    · rw [← h]; simp [lookupAssoc]
    · have hk : p.1 ≠ k := by
        intro heq
        exact hp' (heq ▸ List.mem_map.mpr ⟨(k, v), h, rfl⟩)
      simp [lookupAssoc, hk, ih k v hps h]

theorem lookupAssoc_none_iff {α : Type} (l : List (String × α)) (k : String) :
    lookupAssoc l k = none ↔ k ∉ l.map Prod.fst := by
  rw [← lookupAssoc_isSome_iff, Option.isSome_iff_exists]
  cases lookupAssoc l k <;> simp

/-! ## The queue manager invariant -/

/-- The keys of the job map. -/
def AsyncQueueManager.jobsKeys (s : AsyncQueueManager) : List String :=
  s.jobs.map Prod.fst

/-- The structural invariant every reachable manager state satisfies. -/
structure Inv (s : AsyncQueueManager) : Prop where
  keysNodup : s.jobsKeys.Nodup
  keyMatches : ∀ p ∈ s.jobs, p.2.job_id = p.1
  keySeq : ∀ p ∈ s.jobs, ∃ t k, p.1 = mkJobId t k ∧ 1 ≤ k ∧ k ≤ s.jobSeq
  lanesNodup : s.lanes.all.Nodup
  lanesQueued : ∀ id ∈ s.lanes.all,
    ∃ job, s.lookupJob id = some job ∧ job.status = Status.queued
  runningNodup : s.runningIds.Nodup
  runningStatus : ∀ id ∈ s.runningIds,
    ∃ job, s.lookupJob id = some job ∧ job.status = Status.running
  statusRunning : ∀ p ∈ s.jobs, p.2.status = Status.running → p.1 ∈ s.runningIds
  resultsFinal : ∀ id, (lookupAssoc s.results id).isSome ↔
    (∃ job, s.lookupJob id = some job ∧ job.status.isFinal)
  timersNodup : s.retryTimers.Nodup
  timersStatus : ∀ id ∈ s.retryTimers,
    ∃ job, s.lookupJob id = some job ∧
      (job.status = Status.retrying ∨ job.status.isFinal)

theorem inv_init (mif mqd : JSValue) (rp : RetryPolicyInput)
    (cd : CooldownsInput) : Inv (mkQueueManager mif mqd rp cd) := by
  constructor <;>
    simp [mkQueueManager, AsyncQueueManager.jobsKeys, Lanes.all,
      AsyncQueueManager.lookupJob, lookupAssoc]

theorem Inv.lookup_of_mem {s : AsyncQueueManager} (hs : Inv s)
    {p : String × Job} (hp : p ∈ s.jobs) : s.lookupJob p.1 = some p.2 :=
  mem_lookupAssoc s.jobs p.1 p.2 hs.keysNodup hp

theorem Inv.job_id_eq {s : AsyncQueueManager} (hs : Inv s) {id : String}
    {job : Job} (h : s.lookupJob id = some job) : job.job_id = id :=
  hs.keyMatches (id, job) (lookupAssoc_mem s.jobs id job h)

/-- A laned id is never the id of a running, retrying or terminal job. -/
theorem Inv.lane_ne_of_status {s : AsyncQueueManager} (hs : Inv s)
    {id id' : String} {job : Job} (h : s.lookupJob id' = some job)
    (hst : job.status ≠ Status.queued) (hid : id ∈ s.lanes.all) : id ≠ id' := by
  intro heq
  subst heq
  obtain ⟨job', hj', hq⟩ := hs.lanesQueued id hid
  rw [h] at hj'
  cases hj'
  exact hst hq

/-- A running-set id is never the id of a non-running job. -/
theorem Inv.running_ne_of_status {s : AsyncQueueManager} (hs : Inv s)
    {id id' : String} {job : Job} (h : s.lookupJob id' = some job)
    (hst : job.status ≠ Status.running) (hid : id ∈ s.runningIds) :
    id ≠ id' := by
  intro heq
  subst heq
  obtain ⟨job', hj', hq⟩ := hs.runningStatus id hid
  rw [h] at hj'
  cases hj'
  exact hst hq

/-- A retry-timer id is never the id of a queued or running job. -/
theorem Inv.timer_ne_of_status {s : AsyncQueueManager} (hs : Inv s)
    {id id' : String} {job : Job} (h : s.lookupJob id' = some job)
    (hst : job.status ≠ Status.retrying) (hfin : job.status.isFinal = false)
    (hid : id ∈ s.retryTimers) : id ≠ id' := by
  intro heq
  subst heq
  obtain ⟨job', hj', hq⟩ := hs.timersStatus id hid
  rw [h] at hj'
  cases hj'
  rcases hq with hq | hq
  · exact hst hq
  · rw [hq] at hfin; cases hfin

theorem Inv.lane_mem_keys {s : AsyncQueueManager} (hs : Inv s) {id : String}
    (h : id ∈ s.lanes.all) : id ∈ s.jobsKeys := by
  obtain ⟨job, hj, _⟩ := hs.lanesQueued id h
  exact (lookupAssoc_isSome_iff s.jobs id).mp (by rw [AsyncQueueManager.lookupJob] at hj; simp [hj])

theorem Inv.running_mem_keys {s : AsyncQueueManager} (hs : Inv s) {id : String}
    (h : id ∈ s.runningIds) : id ∈ s.jobsKeys := by
  obtain ⟨job, hj, _⟩ := hs.runningStatus id h
  exact (lookupAssoc_isSome_iff s.jobs id).mp (by rw [AsyncQueueManager.lookupJob] at hj; simp [hj])

theorem Inv.timer_mem_keys {s : AsyncQueueManager} (hs : Inv s) {id : String}
    (h : id ∈ s.retryTimers) : id ∈ s.jobsKeys := by
  obtain ⟨job, hj, _⟩ := hs.timersStatus id h
  exact (lookupAssoc_isSome_iff s.jobs id).mp (by rw [AsyncQueueManager.lookupJob] at hj; simp [hj])

theorem push_lane_perm (l : Lanes) (pr : Priority) (x : String) :
    (l.push pr x).all.Perm (x :: l.all) := by
  cases pr
  · show ((l.interactive ++ [x]) ++ l.retry ++ l.batch).Perm
      (x :: (l.interactive ++ l.retry ++ l.batch))
    have h1 : (l.interactive ++ [x]) ++ l.retry ++ l.batch =
        l.interactive ++ x :: (l.retry ++ l.batch) := by simp
    rw [h1]
    have h2 := @List.perm_middle _ x l.interactive (l.retry ++ l.batch)
    refine h2.trans ?_
    rw [List.append_assoc]
  · show (l.interactive ++ (l.retry ++ [x]) ++ l.batch).Perm
      (x :: (l.interactive ++ l.retry ++ l.batch))
    have h1 : l.interactive ++ (l.retry ++ [x]) ++ l.batch =
        (l.interactive ++ l.retry) ++ x :: l.batch := by simp
    rw [h1]
    have h2 := @List.perm_middle _ x (l.interactive ++ l.retry) l.batch
    exact h2
  · show (l.interactive ++ l.retry ++ (l.batch ++ [x])).Perm
      (x :: (l.interactive ++ l.retry ++ l.batch))
    have h1 : l.interactive ++ l.retry ++ (l.batch ++ [x]) =
        (l.interactive ++ l.retry ++ l.batch) ++ x :: [] := by simp
    rw [h1]
    have h2 := @List.perm_middle _ x (l.interactive ++ l.retry ++ l.batch) []
    refine h2.trans ?_
    simp

theorem mem_push_lane (l : Lanes) (pr : Priority) (x id : String) :
    id ∈ (l.push pr x).all ↔ id = x ∨ id ∈ l.all := by
  rw [(push_lane_perm l pr x).mem_iff]
  simp

theorem nodup_push_lane (l : Lanes) (pr : Priority) (x : String)
    (h : l.all.Nodup) (hx : x ∉ l.all) : (l.push pr x).all.Nodup :=
  (push_lane_perm l pr x).nodup_iff.mpr (List.nodup_cons.mpr ⟨hx, h⟩)

/-- Admission preserves the invariant: the admitted job carries the fresh id
`job-<t>-<jobSeq+1>`, status `queued`, and lands in the job map and its
lane. -/
theorem inv_admitted (s : AsyncQueueManager) (hs : Inv s) (t : ℕ)
    (jobId : String) (job : Job) (pr : Priority) (m' : MetricsStore)
    (hjid : jobId = mkJobId t (s.jobSeq + 1)) (hjobid : job.job_id = jobId)
    (hq : job.status = Status.queued) :
    Inv { s with jobSeq := s.jobSeq + 1
                 jobs := setAssoc s.jobs jobId job
                 lanes := s.lanes.push pr jobId
                 metrics := m' } := by
  have hfresh : jobId ∉ s.jobsKeys := by
    intro hmem
    obtain ⟨p, hp, hpe⟩ := List.mem_map.mp hmem
    obtain ⟨t', k', hk, h1, h2⟩ := hs.keySeq p hp
    have := mkJobId_inj t' k' t (s.jobSeq + 1) (by rw [← hk, hpe, hjid])
    omega
  have hlookup_none : lookupAssoc s.jobs jobId = none :=
    (lookupAssoc_none_iff s.jobs jobId).mpr hfresh
  have hnotlane : jobId ∉ s.lanes.all := fun h => hfresh (hs.lane_mem_keys h)
  refine ⟨?_, ?_, ?_, ?_, ?_, ?_, ?_, ?_, ?_, ?_, ?_⟩
  · exact keys_setAssoc_nodup s.jobs jobId job hs.keysNodup
  · intro p hp
    rcases mem_setAssoc s.jobs jobId job p hp with rfl | hold
    · exact hjobid
    · exact hs.keyMatches p hold
  · intro p hp
    show ∃ t' k', p.1 = mkJobId t' k' ∧ 1 ≤ k' ∧ k' ≤ s.jobSeq + 1
    rcases mem_setAssoc s.jobs jobId job p hp with rfl | hold
    · exact ⟨t, s.jobSeq + 1, hjid, by omega, le_refl _⟩
    · obtain ⟨t', k', hk, h1, h2⟩ := hs.keySeq p hold
      exact ⟨t', k', hk, h1, by omega⟩
  · exact nodup_push_lane s.lanes pr jobId hs.lanesNodup hnotlane
  · intro id hid
    rcases (mem_push_lane s.lanes pr jobId id).mp hid with rfl | hold
    · exact ⟨job, lookupAssoc_set_self s.jobs id job, hq⟩
    · obtain ⟨job', hj', hq'⟩ := hs.lanesQueued id hold
      have hne : id ≠ jobId := fun h => hfresh (h ▸ hs.lane_mem_keys hold)
      exact ⟨job', by
        show lookupAssoc (setAssoc s.jobs jobId job) id = some job'
        rw [lookupAssoc_set_ne s.jobs jobId id job hne]; exact hj', hq'⟩
  · exact hs.runningNodup
  · intro id hid
    obtain ⟨job', hj', hr'⟩ := hs.runningStatus id hid
    have hne : id ≠ jobId := fun h => hfresh (h ▸ hs.running_mem_keys hid)
    exact ⟨job', by
      show lookupAssoc (setAssoc s.jobs jobId job) id = some job'
      rw [lookupAssoc_set_ne s.jobs jobId id job hne]; exact hj', hr'⟩
  · intro p hp hrun
    rcases mem_setAssoc s.jobs jobId job p hp with rfl | hold
    · rw [hq] at hrun; cases hrun
    · exact hs.statusRunning p hold hrun
  · intro id
    show (lookupAssoc s.results id).isSome ↔
      ∃ job', lookupAssoc (setAssoc s.jobs jobId job) id = some job' ∧
        job'.status.isFinal
    by_cases hne : id = jobId
    · rw [hne]
      have hlhs : lookupAssoc s.results jobId = none := by
        rcases h : lookupAssoc s.results jobId with _ | env
        · rfl
        · exfalso
          obtain ⟨job', hj', _⟩ := (hs.resultsFinal jobId).mp (by rw [h]; rfl)
          have : lookupAssoc s.jobs jobId = some job' := hj'
          rw [hlookup_none] at this
          cases this
      rw [hlhs]
      constructor
      · intro hsome; cases hsome
      · rintro ⟨job', hj', hfin⟩
        rw [lookupAssoc_set_self] at hj'
        cases hj'
        rw [hq] at hfin
        cases hfin
    · rw [lookupAssoc_set_ne s.jobs jobId id job hne]
      exact hs.resultsFinal id
  · exact hs.timersNodup
  · intro id hid
    obtain ⟨job', hj', hr'⟩ := hs.timersStatus id hid
    have hne : id ≠ jobId := fun h => hfresh (h ▸ hs.timer_mem_keys hid)
    exact ⟨job', by
      show lookupAssoc (setAssoc s.jobs jobId job) id = some job'
      rw [lookupAssoc_set_ne s.jobs jobId id job hne]; exact hj', hr'⟩

theorem inv_submit (s : AsyncQueueManager) (req : SubmitRequest) (now : ℕ)
    (hs : Inv s) : Inv (s.submit req now).2 := by
  unfold AsyncQueueManager.submit
  dsimp only
  split
  all_goals
    split
    · exact hs
    · split
      · exact hs
      · split
        · exact hs
        · apply inv_admitted s hs now <;> rfl

theorem setAssoc_setAssoc {α : Type} : ∀ (l : List (String × α)) (k : String)
    (v w : α), setAssoc (setAssoc l k v) k w = setAssoc l k w := by
  intro l
  induction l with
  | nil => intro k v w; simp [setAssoc]
  | cons p ps ih =>
    intro k v w
    by_cases hp : p.1 = k
    · simp [setAssoc, hp]
    · simp [setAssoc, hp, ih]

/-- Updating a job entry in place without changing its status preserves the
invariant. -/
theorem inv_touch (s : AsyncQueueManager) (hs : Inv s) (jobId : String)
    (job job2 : Job) (hlook : s.lookupJob jobId = some job)
    (hjid2 : job2.job_id = jobId) (hst : job2.status = job.status) :
    Inv { s with jobs := setAssoc s.jobs jobId job2 } := by
  have hdet : ∀ job', s.lookupJob jobId = some job' → job' = job := by
    intro job' h'
    rw [hlook] at h'
    exact (Option.some.injEq _ _).mp h'.symm ▸ rfl
  refine ⟨?_, ?_, ?_, ?_, ?_, ?_, ?_, ?_, ?_, ?_, ?_⟩
  · exact keys_setAssoc_nodup s.jobs jobId job2 hs.keysNodup
  · intro p hp
    rcases mem_setAssoc s.jobs jobId job2 p hp with rfl | hold
    · exact hjid2
    · exact hs.keyMatches p hold
  · intro p hp
    show ∃ t' k', p.1 = mkJobId t' k' ∧ 1 ≤ k' ∧ k' ≤ s.jobSeq
    rcases mem_setAssoc s.jobs jobId job2 p hp with rfl | hold
    · exact hs.keySeq (jobId, job) (lookupAssoc_mem s.jobs jobId job hlook)
    · exact hs.keySeq p hold
  · exact hs.lanesNodup
  · intro id hid
    obtain ⟨job', hj', hq'⟩ := hs.lanesQueued id hid
    by_cases hne : id = jobId
    · subst hne
      have : job' = job := by rw [hlook] at hj'; cases hj'; rfl
      exact ⟨job2, lookupAssoc_set_self s.jobs id job2, by rw [hst, ← this]; exact hq'⟩
    · exact ⟨job', by
        show lookupAssoc (setAssoc s.jobs jobId job2) id = some job'
        rw [lookupAssoc_set_ne s.jobs jobId id job2 hne]; exact hj', hq'⟩
  · exact hs.runningNodup
  · intro id hid
    obtain ⟨job', hj', hr'⟩ := hs.runningStatus id hid
    by_cases hne : id = jobId
    · subst hne
      have : job' = job := by rw [hlook] at hj'; cases hj'; rfl
      exact ⟨job2, lookupAssoc_set_self s.jobs id job2, by rw [hst, ← this]; exact hr'⟩
    · exact ⟨job', by
        show lookupAssoc (setAssoc s.jobs jobId job2) id = some job'
        rw [lookupAssoc_set_ne s.jobs jobId id job2 hne]; exact hj', hr'⟩
  · intro p hp hrun
    rcases mem_setAssoc s.jobs jobId job2 p hp with rfl | hold
    · rw [hst] at hrun
      exact hs.statusRunning (jobId, job)
        (lookupAssoc_mem s.jobs jobId job hlook) hrun
    · exact hs.statusRunning p hold hrun
  · intro id
    show (lookupAssoc s.results id).isSome ↔
      ∃ job', lookupAssoc (setAssoc s.jobs jobId job2) id = some job' ∧
        job'.status.isFinal
    by_cases hne : id = jobId
    · rw [hne, lookupAssoc_set_self]
      rw [hs.resultsFinal jobId]
      constructor
      · rintro ⟨job', hj', hfin⟩
        have : job' = job := by
          have := hdet job' hj'
          exact this
        exact ⟨job2, rfl, by rw [hst, ← this]; exact hfin⟩
      · rintro ⟨job', hj', hfin⟩
        cases hj'
        exact ⟨job, hlook, by rw [← hst]; exact hfin⟩
    · rw [lookupAssoc_set_ne s.jobs jobId id job2 hne]
      exact hs.resultsFinal id
  · exact hs.timersNodup
  · intro id hid
    obtain ⟨job', hj', hr'⟩ := hs.timersStatus id hid
    by_cases hne : id = jobId
    · subst hne
      have : job' = job := by rw [hlook] at hj'; cases hj'; rfl
      exact ⟨job2, lookupAssoc_set_self s.jobs id job2, by rw [hst, ← this]; exact hr'⟩
    · exact ⟨job', by
        show lookupAssoc (setAssoc s.jobs jobId job2) id = some job'
        rw [lookupAssoc_set_ne s.jobs jobId id job2 hne]; exact hj', hr'⟩

theorem filtered_lanes_sublist (l : Lanes) (jobId : String) :
    ((l.interactive.filter (fun x => x ≠ jobId)) ++
      (l.retry.filter (fun x => x ≠ jobId)) ++
      (l.batch.filter (fun x => x ≠ jobId))).Sublist l.all :=
  ((l.interactive.filter_sublist.append l.retry.filter_sublist).append
    l.batch.filter_sublist)

/-- Finalizing a job that is in no lane slot race (not running): the lanes are
purged of its id, the job map entry becomes terminal and the envelope enters
the result cache.  This is the shape of `cancel` on a queued or retrying
job. -/
theorem inv_finalize_idle (s : AsyncQueueManager) (hs : Inv s)
    (jobId : String) (job : Job) (env : Envelope) (job'' : Job)
    (m' : MetricsStore) (hlook : s.lookupJob jobId = some job)
    (hnr : jobId ∉ s.runningIds) (henv : env.status.isFinal = true)
    (hjid : job''.job_id = jobId) (hst : job''.status = env.status) :
    Inv { s with
            lanes :=
              { interactive := s.lanes.interactive.filter (fun x => x ≠ jobId)
                retry := s.lanes.retry.filter (fun x => x ≠ jobId)
                batch := s.lanes.batch.filter (fun x => x ≠ jobId) }
            jobs := setAssoc s.jobs jobId job''
            results := setAssoc s.results jobId env
            metrics := m' } := by
  have hmemlane : ∀ id, id ∈ (Lanes.all
      { interactive := s.lanes.interactive.filter (fun x => x ≠ jobId)
        retry := s.lanes.retry.filter (fun x => x ≠ jobId)
        batch := s.lanes.batch.filter (fun x => x ≠ jobId) }) →
      id ∈ s.lanes.all ∧ id ≠ jobId := by
    intro id hid
    rcases List.mem_append.mp hid with hid' | hid'
    · rcases List.mem_append.mp hid' with hid'' | hid''
      · obtain ⟨hm, hp⟩ := List.mem_filter.mp hid''
        exact ⟨List.mem_append.mpr (Or.inl (List.mem_append.mpr (Or.inl hm))),
          by simpa using hp⟩
      · obtain ⟨hm, hp⟩ := List.mem_filter.mp hid''
        exact ⟨List.mem_append.mpr (Or.inl (List.mem_append.mpr (Or.inr hm))),
          by simpa using hp⟩
    · obtain ⟨hm, hp⟩ := List.mem_filter.mp hid'
      exact ⟨List.mem_append.mpr (Or.inr hm), by simpa using hp⟩
  refine ⟨?_, ?_, ?_, ?_, ?_, ?_, ?_, ?_, ?_, ?_, ?_⟩
  · exact keys_setAssoc_nodup s.jobs jobId job'' hs.keysNodup
  · intro p hp
    rcases mem_setAssoc s.jobs jobId job'' p hp with rfl | hold
    · exact hjid
    · exact hs.keyMatches p hold
  · intro p hp
    show ∃ t' k', p.1 = mkJobId t' k' ∧ 1 ≤ k' ∧ k' ≤ s.jobSeq
    rcases mem_setAssoc s.jobs jobId job'' p hp with rfl | hold
    · exact hs.keySeq (jobId, job) (lookupAssoc_mem s.jobs jobId job hlook)
    · exact hs.keySeq p hold
  · exact (filtered_lanes_sublist s.lanes jobId).nodup hs.lanesNodup
  · intro id hid
    obtain ⟨hid', hne⟩ := hmemlane id hid
    obtain ⟨job', hj', hq'⟩ := hs.lanesQueued id hid'
    exact ⟨job', by
      show lookupAssoc (setAssoc s.jobs jobId job'') id = some job'
      rw [lookupAssoc_set_ne s.jobs jobId id job'' hne]; exact hj', hq'⟩
  · exact hs.runningNodup
  · intro id hid
    obtain ⟨job', hj', hr'⟩ := hs.runningStatus id hid
    have hne : id ≠ jobId := fun h => hnr (h ▸ hid)
    exact ⟨job', by
      show lookupAssoc (setAssoc s.jobs jobId job'') id = some job'
      rw [lookupAssoc_set_ne s.jobs jobId id job'' hne]; exact hj', hr'⟩
  · intro p hp hrun
    rcases mem_setAssoc s.jobs jobId job'' p hp with rfl | hold
    · exfalso
      rw [hst] at hrun
      rw [hrun] at henv
      cases henv
    · exact hs.statusRunning p hold hrun
  · intro id
    show (lookupAssoc (setAssoc s.results jobId env) id).isSome ↔
      ∃ job', lookupAssoc (setAssoc s.jobs jobId job'') id = some job' ∧
        job'.status.isFinal
    by_cases hne : id = jobId
    · rw [hne, lookupAssoc_set_self, lookupAssoc_set_self]
      simp only [Option.isSome_some, true_iff]
      exact ⟨job'', rfl, by rw [hst]; exact henv⟩
    · rw [lookupAssoc_set_ne s.results jobId id env hne,
        lookupAssoc_set_ne s.jobs jobId id job'' hne]
      exact hs.resultsFinal id
  · exact hs.timersNodup
  · intro id hid
    obtain ⟨job', hj', hr'⟩ := hs.timersStatus id hid
    by_cases hne : id = jobId
    · subst hne
      exact ⟨job'', lookupAssoc_set_self s.jobs id job'',
        Or.inr (by rw [hst]; exact henv)⟩
    · exact ⟨job', by
        show lookupAssoc (setAssoc s.jobs jobId job'') id = some job'
        rw [lookupAssoc_set_ne s.jobs jobId id job'' hne]; exact hj', hr'⟩

/-- Finalizing a running job (completed, failed, or cancelled-while-running):
the job map entry becomes terminal, the envelope enters the result cache, and
the id leaves the running set. -/
theorem inv_finalize_running (s : AsyncQueueManager) (hs : Inv s)
    (jobId : String) (job : Job) (env : Envelope) (job'' : Job)
    (m' : MetricsStore) (hlook : s.lookupJob jobId = some job)
    (hr : jobId ∈ s.runningIds) (henv : env.status.isFinal = true)
    (hjid : job''.job_id = jobId) (hst : job''.status = env.status) :
    Inv { s with
            jobs := setAssoc s.jobs jobId job''
            results := setAssoc s.results jobId env
            runningIds := s.runningIds.erase jobId
            metrics := m' } := by
  have hjobrun : job.status = Status.running := by
    obtain ⟨job', hj', hq⟩ := hs.runningStatus jobId hr
    rw [hlook] at hj'
    cases hj'
    exact hq
  refine ⟨?_, ?_, ?_, ?_, ?_, ?_, ?_, ?_, ?_, ?_, ?_⟩
  · exact keys_setAssoc_nodup s.jobs jobId job'' hs.keysNodup
  · intro p hp
    rcases mem_setAssoc s.jobs jobId job'' p hp with rfl | hold
    · exact hjid
    · exact hs.keyMatches p hold
  · intro p hp
    show ∃ t' k', p.1 = mkJobId t' k' ∧ 1 ≤ k' ∧ k' ≤ s.jobSeq
    rcases mem_setAssoc s.jobs jobId job'' p hp with rfl | hold
    · exact hs.keySeq (jobId, job) (lookupAssoc_mem s.jobs jobId job hlook)
    · exact hs.keySeq p hold
  · exact hs.lanesNodup
  · intro id hid
    obtain ⟨job', hj', hq'⟩ := hs.lanesQueued id hid
    have hne : id ≠ jobId := by
      intro heq
      subst heq
      rw [hlook] at hj'
      cases hj'
      rw [hjobrun] at hq'
      cases hq'
    exact ⟨job', by
      show lookupAssoc (setAssoc s.jobs jobId job'') id = some job'
      rw [lookupAssoc_set_ne s.jobs jobId id job'' hne]; exact hj', hq'⟩
  · exact hs.runningNodup.erase jobId
  · intro id hid
    have hid' : id ∈ s.runningIds := List.mem_of_mem_erase hid
    have hne : id ≠ jobId := (List.Nodup.mem_erase_iff hs.runningNodup).mp hid |>.1
    obtain ⟨job', hj', hr'⟩ := hs.runningStatus id hid'
    exact ⟨job', by
      show lookupAssoc (setAssoc s.jobs jobId job'') id = some job'
      rw [lookupAssoc_set_ne s.jobs jobId id job'' hne]; exact hj', hr'⟩
  · intro p hp hrun
    rcases mem_setAssoc s.jobs jobId job'' p hp with rfl | hold
    · exfalso
      rw [hst] at hrun
      rw [hrun] at henv
      cases henv
    · have hmem := hs.statusRunning p hold hrun
      have hne : p.1 ≠ jobId := by
        intro heq
        have hlk := mem_lookupAssoc (setAssoc s.jobs jobId job'') p.1 p.2
          (keys_setAssoc_nodup s.jobs jobId job'' hs.keysNodup) hp
        rw [heq, lookupAssoc_set_self] at hlk
        cases hlk
        rw [hst] at hrun
        rw [hrun] at henv
        cases henv
      exact (List.Nodup.mem_erase_iff hs.runningNodup).mpr ⟨hne, hmem⟩
  · intro id
    show (lookupAssoc (setAssoc s.results jobId env) id).isSome ↔
      ∃ job', lookupAssoc (setAssoc s.jobs jobId job'') id = some job' ∧
        job'.status.isFinal
    by_cases hne : id = jobId
    · rw [hne, lookupAssoc_set_self, lookupAssoc_set_self]
      simp only [Option.isSome_some, true_iff]
      exact ⟨job'', rfl, by rw [hst]; exact henv⟩
    · rw [lookupAssoc_set_ne s.results jobId id env hne,
        lookupAssoc_set_ne s.jobs jobId id job'' hne]
      exact hs.resultsFinal id
  · exact hs.timersNodup
  · intro id hid
    obtain ⟨job', hj', hr'⟩ := hs.timersStatus id hid
    by_cases hne : id = jobId
    · subst hne
      exact ⟨job'', lookupAssoc_set_self s.jobs id job'',
        Or.inr (by rw [hst]; exact henv)⟩
    · exact ⟨job', by
        show lookupAssoc (setAssoc s.jobs jobId job'') id = some job'
        rw [lookupAssoc_set_ne s.jobs jobId id job'' hne]; exact hj', hr'⟩

theorem buildStructuredEnvelope_status (i : EnvelopeInput) :
    (buildStructuredEnvelope i).status = i.status := rfl

theorem inv_cancel (s : AsyncQueueManager) (jobId : String) (now : ℕ)
    (hs : Inv s) : Inv (s.cancel jobId now).2 := by
  unfold AsyncQueueManager.cancel
  dsimp only
  split
  · exact hs
  · split
    · exact hs
    · split
      · -- running branch
        split
        · next job heq =>
          exact inv_touch s hs jobId job { job with cancelRequested := true }
            heq (show job.job_id = jobId from hs.job_id_eq heq) rfl
        · exact hs
      · -- queued / retrying branch
        next hnotrun =>
        split
        · exact hs
        · next job heq =>
          have hjid : job.job_id = jobId := hs.job_id_eq heq
          simp only [AsyncQueueManager.finalize, AsyncQueueManager.removeFromLanes,
            hjid, setAssoc_setAssoc]
          exact inv_finalize_idle s hs jobId job _ _ _ heq hnotrun rfl rfl rfl

theorem inv_set_signals (s : AsyncQueueManager) (hs : Inv s) (sig : Signals) :
    Inv { s with signals := sig } :=
  ⟨hs.keysNodup, hs.keyMatches, hs.keySeq, hs.lanesNodup, hs.lanesQueued,
    hs.runningNodup, hs.runningStatus, hs.statusRunning, hs.resultsFinal,
    hs.timersNodup, hs.timersStatus⟩

theorem inv_applySignal (s : AsyncQueueManager) (c : ErrCode) (now : ℕ)
    (hs : Inv s) : Inv (s.applySignal c now) := by
  cases c <;> first
    | exact hs
    | exact inv_set_signals s hs _

theorem applySignal_jobs (s : AsyncQueueManager) (c : ErrCode) (now : ℕ) :
    (s.applySignal c now).jobs = s.jobs := by cases c <;> rfl

theorem applySignal_runningIds (s : AsyncQueueManager) (c : ErrCode) (now : ℕ) :
    (s.applySignal c now).runningIds = s.runningIds := by cases c <;> rfl

theorem applySignal_lookupJob (s : AsyncQueueManager) (c : ErrCode) (now : ℕ)
    (id : String) : (s.applySignal c now).lookupJob id = s.lookupJob id := by
  cases c <;> rfl

theorem inv_succeed (s : AsyncQueueManager) (jobId : String) (raw : JSValue)
    (formatted : Formatted) (now : ℕ) (hs : Inv s)
    (hvalid : jobId ∈ s.runningIds) :
    Inv (s.succeedStep jobId raw formatted now) := by
  unfold AsyncQueueManager.succeedStep
  split
  · next hnone =>
    exfalso
    obtain ⟨job, hj, _⟩ := hs.runningStatus jobId hvalid
    rw [hnone] at hj
    cases hj
  · next job heq =>
    have hjid := hs.job_id_eq heq
    simp only [AsyncQueueManager.finalize, hjid]
    exact inv_finalize_running s hs jobId job _ _ _ heq hvalid rfl rfl rfl

/-- Marking a running job as retrying and arming its timer preserves the
invariant. -/
theorem inv_mark_retrying (s : AsyncQueueManager) (hs : Inv s)
    (jobId : String) (job : Job) (hlook : s.lookupJob jobId = some job)
    (hvalid : jobId ∈ s.runningIds) :
    Inv { s with
            jobs := setAssoc s.jobs jobId { job with status := Status.retrying }
            retryTimers := s.retryTimers ++ [jobId]
            runningIds := s.runningIds.erase jobId } := by
  have hjid : job.job_id = jobId := hs.job_id_eq hlook
  have hjobrun : job.status = Status.running := by
    obtain ⟨job', hj', hq⟩ := hs.runningStatus jobId hvalid
    rw [hlook] at hj'
    cases hj'
    exact hq
  have hnottimer : jobId ∉ s.retryTimers := by
    intro hmem
    obtain ⟨job', hj', hd⟩ := hs.timersStatus jobId hmem
    rw [hlook] at hj'
    cases hj'
    rcases hd with hd | hd
    · rw [hjobrun] at hd; cases hd
    · rw [hjobrun] at hd; cases hd
  refine ⟨?_, ?_, ?_, ?_, ?_, ?_, ?_, ?_, ?_, ?_, ?_⟩
  · exact keys_setAssoc_nodup s.jobs jobId _ hs.keysNodup
  · intro p hp
    rcases mem_setAssoc s.jobs jobId _ p hp with rfl | hold
    · exact hjid
    · exact hs.keyMatches p hold
  · intro p hp
    show ∃ t' k', p.1 = mkJobId t' k' ∧ 1 ≤ k' ∧ k' ≤ s.jobSeq
    rcases mem_setAssoc s.jobs jobId _ p hp with rfl | hold
    · exact hs.keySeq (jobId, job) (lookupAssoc_mem s.jobs jobId job hlook)
    · exact hs.keySeq p hold
  · exact hs.lanesNodup
  · intro id hid
    obtain ⟨job', hj', hq'⟩ := hs.lanesQueued id hid
    have hne : id ≠ jobId := by
      intro heq
      subst heq
      rw [hlook] at hj'
      cases hj'
      rw [hjobrun] at hq'
      cases hq'
    exact ⟨job', by
      show lookupAssoc (setAssoc s.jobs jobId _) id = some job'
      rw [lookupAssoc_set_ne s.jobs jobId id _ hne]; exact hj', hq'⟩
  · exact hs.runningNodup.erase jobId
  · intro id hid
    have hid' : id ∈ s.runningIds := List.mem_of_mem_erase hid
    have hne : id ≠ jobId := ((List.Nodup.mem_erase_iff hs.runningNodup).mp hid).1
    obtain ⟨job', hj', hr'⟩ := hs.runningStatus id hid'
    exact ⟨job', by
      show lookupAssoc (setAssoc s.jobs jobId _) id = some job'
      rw [lookupAssoc_set_ne s.jobs jobId id _ hne]; exact hj', hr'⟩
  · intro p hp hrun
    rcases mem_setAssoc s.jobs jobId _ p hp with heqp | hold
    · rw [heqp] at hrun
      simp at hrun
    · have hmem := hs.statusRunning p hold hrun
      have hne : p.1 ≠ jobId := by
        intro heq
        have hlk := mem_lookupAssoc (setAssoc s.jobs jobId _) p.1 p.2
          (keys_setAssoc_nodup s.jobs jobId _ hs.keysNodup) hp
        rw [heq, lookupAssoc_set_self] at hlk
        have hp2 := Option.some.inj hlk
        rw [← hp2] at hrun
        simp at hrun
      exact (List.Nodup.mem_erase_iff hs.runningNodup).mpr ⟨hne, hmem⟩
  · intro id
    show (lookupAssoc s.results id).isSome ↔
      ∃ job', lookupAssoc (setAssoc s.jobs jobId _) id = some job' ∧
        job'.status.isFinal
    by_cases hne : id = jobId
    · rw [hne, lookupAssoc_set_self]
      rw [hs.resultsFinal jobId]
      constructor
      · rintro ⟨job', hj', hfin⟩
        rw [hlook] at hj'
        cases hj'
        rw [hjobrun] at hfin
        cases hfin
      · rintro ⟨job', hj', hfin⟩
        cases hj'
        cases hfin
    · rw [lookupAssoc_set_ne s.jobs jobId id _ hne]
      exact hs.resultsFinal id
  · rw [List.nodup_append]
    exact ⟨hs.timersNodup, List.nodup_singleton jobId,
      fun a ha hb => by
        simp only [List.mem_singleton] at hb
        exact hnottimer (hb ▸ ha)⟩
  · intro id hid
    rcases List.mem_append.mp hid with hid' | hid'
    · obtain ⟨job', hj', hd⟩ := hs.timersStatus id hid'
      have hne : id ≠ jobId := fun h => hnottimer (h ▸ hid')
      exact ⟨job', by
        show lookupAssoc (setAssoc s.jobs jobId _) id = some job'
        rw [lookupAssoc_set_ne s.jobs jobId id _ hne]; exact hj', hd⟩
    · simp only [List.mem_singleton] at hid'
      subst hid'
      exact ⟨{ job with status := Status.retrying },
        lookupAssoc_set_self s.jobs id _, Or.inl rfl⟩

theorem inv_fail (s : AsyncQueueManager) (jobId : String)
    (error : Option JSError) (now : ℕ) (hs : Inv s)
    (hvalid : jobId ∈ s.runningIds) : Inv (s.failStep jobId error now) := by
  unfold AsyncQueueManager.failStep
  split
  · next hnone =>
    exfalso
    obtain ⟨job, hj, _⟩ := hs.runningStatus jobId hvalid
    rw [hnone] at hj
    cases hj
  · next job heq =>
    have hjid := hs.job_id_eq heq
    have hs0 : Inv (s.applySignal (classifyError error).code now) :=
      inv_applySignal s _ now hs
    have hlook0 : (s.applySignal (classifyError error).code now).lookupJob jobId =
        some job := by rw [applySignal_lookupJob]; exact heq
    have hvalid0 : jobId ∈ (s.applySignal (classifyError error).code now).runningIds := by
      rw [applySignal_runningIds]; exact hvalid
    dsimp only
    split
    · simp only [AsyncQueueManager.finalize, hjid]
      exact inv_finalize_running _ hs0 jobId job _ _ _ hlook0 hvalid0 rfl rfl rfl
    · split
      · exact inv_mark_retrying _ hs0 jobId job hlook0 hvalid0
      · simp only [AsyncQueueManager.finalize, hjid]
        exact inv_finalize_running _ hs0 jobId job _ _ _ hlook0 hvalid0 rfl rfl rfl

theorem inv_retryFire (s : AsyncQueueManager) (jobId : String) (hs : Inv s)
    (hvalid : jobId ∈ s.retryTimers) : Inv (s.retryFireStep jobId) := by
  have hs0 : Inv { s with retryTimers := s.retryTimers.erase jobId } :=
    ⟨hs.keysNodup, hs.keyMatches, hs.keySeq, hs.lanesNodup, hs.lanesQueued,
      hs.runningNodup, hs.runningStatus, hs.statusRunning, hs.resultsFinal,
      hs.timersNodup.erase jobId,
      fun id hid => hs.timersStatus id (List.mem_of_mem_erase hid)⟩
  unfold AsyncQueueManager.retryFireStep
  dsimp only
  split
  · exact hs0
  · next job heq =>
    split
    · exact hs0
    · next hnotfin =>
      -- the job is retrying (its timer was armed and it is not final)
      have heqS : s.lookupJob jobId = some job := heq
      have hjid : job.job_id = jobId := hs.job_id_eq heqS
      have hretry : job.status = Status.retrying := by
        obtain ⟨job', hj', hd⟩ := hs.timersStatus jobId hvalid
        rw [heqS] at hj'
        cases hj'
        rcases hd with hd | hd
        · exact hd
        · exact absurd hd (by simpa using hnotfin)
      have hnotlane : jobId ∉ s.lanes.all := by
        intro hmem
        obtain ⟨job', hj', hq⟩ := hs.lanesQueued jobId hmem
        rw [heqS] at hj'
        cases hj'
        rw [hretry] at hq
        cases hq
      refine ⟨?_, ?_, ?_, ?_, ?_, ?_, ?_, ?_, ?_, ?_, ?_⟩
      · exact keys_setAssoc_nodup s.jobs jobId _ hs.keysNodup
      · intro p hp
        rcases mem_setAssoc s.jobs jobId _ p hp with rfl | hold
        · exact hjid
        · exact hs.keyMatches p hold
      · intro p hp
        show ∃ t' k', p.1 = mkJobId t' k' ∧ 1 ≤ k' ∧ k' ≤ s.jobSeq
        rcases mem_setAssoc s.jobs jobId _ p hp with rfl | hold
        · exact hs.keySeq (jobId, job) (lookupAssoc_mem s.jobs jobId job heqS)
        · exact hs.keySeq p hold
      · exact nodup_push_lane s.lanes .retry jobId hs.lanesNodup hnotlane
      · intro id hid
        rcases (mem_push_lane s.lanes .retry jobId id).mp hid with rfl | hold
        · exact ⟨{ job with status := Status.queued },
            lookupAssoc_set_self s.jobs id _, rfl⟩
        · obtain ⟨job', hj', hq'⟩ := hs.lanesQueued id hold
          have hne : id ≠ jobId := fun h => hnotlane (h ▸ hold)
          exact ⟨job', by
            show lookupAssoc (setAssoc s.jobs jobId _) id = some job'
            rw [lookupAssoc_set_ne s.jobs jobId id _ hne]; exact hj', hq'⟩
      · exact hs.runningNodup
      · intro id hid
        obtain ⟨job', hj', hr'⟩ := hs.runningStatus id hid
        have hne : id ≠ jobId := by
          intro h
          subst h
          rw [heqS] at hj'
          cases hj'
          rw [hretry] at hr'
          cases hr'
        exact ⟨job', by
          show lookupAssoc (setAssoc s.jobs jobId _) id = some job'
          rw [lookupAssoc_set_ne s.jobs jobId id _ hne]; exact hj', hr'⟩
      · intro p hp hrun
        rcases mem_setAssoc s.jobs jobId _ p hp with heqp | hold
        · rw [heqp] at hrun
          simp at hrun
        · exact hs.statusRunning p hold hrun
      · intro id
        show (lookupAssoc s.results id).isSome ↔
          ∃ job', lookupAssoc (setAssoc s.jobs jobId _) id = some job' ∧
            job'.status.isFinal
        by_cases hne : id = jobId
        · rw [hne, lookupAssoc_set_self]
          rw [hs.resultsFinal jobId]
          constructor
          · rintro ⟨job', hj', hfin⟩
            rw [heqS] at hj'
            cases hj'
            rw [hretry] at hfin
            cases hfin
          · rintro ⟨job', hj', hfin⟩
            cases hj'
            cases hfin
        · rw [lookupAssoc_set_ne s.jobs jobId id _ hne]
          exact hs.resultsFinal id
      · exact hs.timersNodup.erase jobId
      · intro id hid
        have hid' : id ∈ s.retryTimers := List.mem_of_mem_erase hid
        have hne : id ≠ jobId := ((List.Nodup.mem_erase_iff hs.timersNodup).mp hid).1
        obtain ⟨job', hj', hd⟩ := hs.timersStatus id hid'
        exact ⟨job', by
          show lookupAssoc (setAssoc s.jobs jobId _) id = some job'
          rw [lookupAssoc_set_ne s.jobs jobId id _ hne]; exact hj', hd⟩

theorem pick_cons (s : AsyncQueueManager) (id : String)
    (s' : AsyncQueueManager) (h : s.pickNextJobId = some (id, s')) :
    s.lanes.all = id :: s'.lanes.all ∧ s'.jobs = s.jobs ∧
      s'.runningIds = s.runningIds ∧ s'.retryTimers = s.retryTimers ∧
      s'.results = s.results ∧ s'.maxInFlight = s.maxInFlight ∧
      s'.jobSeq = s.jobSeq := by
  unfold AsyncQueueManager.pickNextJobId at h
  rcases hi : s.lanes.interactive with _ | ⟨x, xs⟩ <;>
    rcases hr : s.lanes.retry with _ | ⟨y, ys⟩ <;>
    rcases hb : s.lanes.batch with _ | ⟨z, zs⟩ <;>
    simp [hi, hr, hb] at h <;>
    obtain ⟨h1, h2⟩ := h <;> subst_vars <;>
    simp [Lanes.all, hi, hr, hb]

theorem inv_pick (s : AsyncQueueManager) (hs : Inv s) (id : String)
    (s' : AsyncQueueManager) (h : s.pickNextJobId = some (id, s')) :
    Inv s' := by
  obtain ⟨hcons, hjobs, hrun, htim, hres, _, hseq⟩ := pick_cons s id s' h
  have hnd := hs.lanesNodup
  rw [hcons] at hnd
  obtain ⟨hnm, hnd'⟩ := List.nodup_cons.mp hnd
  refine ⟨?_, ?_, ?_, hnd', ?_, ?_, ?_, ?_, ?_, ?_, ?_⟩
  · show (s'.jobs.map Prod.fst).Nodup
    rw [hjobs]; exact hs.keysNodup
  · intro p hp
    rw [hjobs] at hp
    exact hs.keyMatches p hp
  · intro p hp
    rw [hjobs] at hp
    rw [hseq]
    exact hs.keySeq p hp
  · intro x hx
    obtain ⟨job, hj, hq⟩ :=
      hs.lanesQueued x (hcons ▸ List.mem_cons_of_mem id hx)
    exact ⟨job, by
      show lookupAssoc s'.jobs x = some job
      rw [hjobs]; exact hj, hq⟩
  · rw [hrun]; exact hs.runningNodup
  · intro x hx
    rw [hrun] at hx
    obtain ⟨job, hj, hq⟩ := hs.runningStatus x hx
    exact ⟨job, by
      show lookupAssoc s'.jobs x = some job
      rw [hjobs]; exact hj, hq⟩
  · intro p hp hpr
    rw [hjobs] at hp
    rw [hrun]
    exact hs.statusRunning p hp hpr
  · intro x
    show (lookupAssoc s'.results x).isSome ↔ _
    rw [hres]
    have := hs.resultsFinal x
    rw [this]
    constructor <;>
      (rintro ⟨job, hj, hf⟩;
        exact ⟨job, by
          first
          | (show lookupAssoc s'.jobs x = some job; rw [hjobs]; exact hj)
          | (have hj' : lookupAssoc s'.jobs x = some job := hj
             rw [hjobs] at hj'; exact hj'), hf⟩)
  · rw [htim]; exact hs.timersNodup
  · intro x hx
    rw [htim] at hx
    obtain ⟨job, hj, hq⟩ := hs.timersStatus x hx
    exact ⟨job, by
      show lookupAssoc s'.jobs x = some job
      rw [hjobs]; exact hj, hq⟩

theorem inv_start (s : AsyncQueueManager) (hs : Inv s) (job : Job) (now : ℕ)
    (hlook : s.lookupJob job.job_id = some job)
    (hq : job.status = Status.queued) (hnl : job.job_id ∉ s.lanes.all) :
    Inv (s.startJob job now) := by
  have hlookA : lookupAssoc s.jobs job.job_id = some job := hlook
  have hnotrun : job.job_id ∉ s.runningIds := by
    intro hmem
    obtain ⟨job', hj', hr'⟩ := hs.runningStatus job.job_id hmem
    rw [hlook] at hj'
    cases hj'
    rw [hq] at hr'
    cases hr'
  have hnottimer : job.job_id ∉ s.retryTimers := by
    intro hmem
    obtain ⟨job', hj', hd⟩ := hs.timersStatus job.job_id hmem
    rw [hlook] at hj'
    cases hj'
    rcases hd with hd | hd <;> rw [hq] at hd <;> cases hd
  unfold AsyncQueueManager.startJob
  refine ⟨?_, ?_, ?_, ?_, ?_, ?_, ?_, ?_, ?_, ?_, ?_⟩
  · exact keys_setAssoc_nodup s.jobs job.job_id _ hs.keysNodup
  · intro p hp
    rcases mem_setAssoc s.jobs job.job_id _ p hp with heqp | hold
    · rw [heqp]
    · exact hs.keyMatches p hold
  · intro p hp
    show ∃ t' k', p.1 = mkJobId t' k' ∧ 1 ≤ k' ∧ k' ≤ s.jobSeq
    rcases mem_setAssoc s.jobs job.job_id _ p hp with heqp | hold
    · rw [heqp]
      exact hs.keySeq (job.job_id, job)
        (lookupAssoc_mem s.jobs job.job_id job hlookA)
    · exact hs.keySeq p hold
  · exact hs.lanesNodup
  · intro id hid
    obtain ⟨job', hj', hq'⟩ := hs.lanesQueued id hid
    have hne : id ≠ job.job_id := fun h => hnl (h ▸ hid)
    exact ⟨job', by
      show lookupAssoc (setAssoc s.jobs job.job_id _) id = some job'
      rw [lookupAssoc_set_ne s.jobs job.job_id id _ hne]; exact hj', hq'⟩
  · rw [List.nodup_append]
    refine ⟨hs.runningNodup, List.nodup_singleton job.job_id, ?_⟩
    intro a ha hb
    simp only [List.mem_singleton] at hb
    subst hb
    exact hnotrun ha
  · intro id hid
    rcases List.mem_append.mp hid with hid' | hid'
    · obtain ⟨job', hj', hr'⟩ := hs.runningStatus id hid'
      have hne : id ≠ job.job_id := fun h => hnotrun (h ▸ hid')
      exact ⟨job', by
        show lookupAssoc (setAssoc s.jobs job.job_id _) id = some job'
        rw [lookupAssoc_set_ne s.jobs job.job_id id _ hne]; exact hj', hr'⟩
    · simp only [List.mem_singleton] at hid'
      rw [hid']
      exact ⟨_, lookupAssoc_set_self s.jobs job.job_id _, rfl⟩
  · intro p hp hpr
    rcases mem_setAssoc s.jobs job.job_id _ p hp with heqp | hold
    · rw [heqp]
      exact List.mem_append.mpr (Or.inr (List.mem_singleton.mpr rfl))
    · refine List.mem_append.mpr (Or.inl ?_)
      exact hs.statusRunning p hold hpr
  · intro id
    show (lookupAssoc s.results id).isSome ↔
      ∃ job', lookupAssoc (setAssoc s.jobs job.job_id _) id = some job' ∧
        job'.status.isFinal
    by_cases hne : id = job.job_id
    · rw [hne, lookupAssoc_set_self]
      rw [hs.resultsFinal job.job_id]
      constructor
      · rintro ⟨job', hj', hfin⟩
        rw [hlook] at hj'
        cases hj'
        rw [hq] at hfin
        cases hfin
      · rintro ⟨job', hj', hfin⟩
        cases hj'
        cases hfin
    · rw [lookupAssoc_set_ne s.jobs job.job_id id _ hne]
      exact hs.resultsFinal id
  · exact hs.timersNodup
  · intro id hid
    obtain ⟨job', hj', hd⟩ := hs.timersStatus id hid
    have hne : id ≠ job.job_id := fun h => hnottimer (h ▸ hid)
    exact ⟨job', by
      show lookupAssoc (setAssoc s.jobs job.job_id _) id = some job'
      rw [lookupAssoc_set_ne s.jobs job.job_id id _ hne]; exact hj', hd⟩

theorem drainLoop_nocap (s : AsyncQueueManager) (now : ℕ)
    (h : ¬ ((s.runningIds.length : ℚ) < s.maxInFlight)) :
    s.drainLoop now = ([], s) := by
  unfold AsyncQueueManager.drainLoop
  simp only [if_neg h]

theorem drainLoop_none (s : AsyncQueueManager) (now : ℕ)
    (h : (s.runningIds.length : ℚ) < s.maxInFlight)
    (hp : s.pickNextJobId = none) : s.drainLoop now = ([], s) := by
  unfold AsyncQueueManager.drainLoop
  simp only [if_pos h]
  split
  · rfl
  · next nid s'' heq =>
    rw [hp] at heq
    cases heq

theorem drainLoop_skip_missing (s : AsyncQueueManager) (now : ℕ)
    (nextId : String) (s' : AsyncQueueManager)
    (h : (s.runningIds.length : ℚ) < s.maxInFlight)
    (hp : s.pickNextJobId = some (nextId, s'))
    (hl : s'.lookupJob nextId = none) :
    s.drainLoop now = s'.drainLoop now := by
  conv_lhs => rw [AsyncQueueManager.drainLoop.eq_def]
  simp only [if_pos h]
  split
  · next heq => rw [hp] at heq; cases heq
  · next nid s'' heq =>
    rw [hp] at heq
    injection heq with heq'
    injection heq' with h1 h2
    subst h1; subst h2
    rw [hl]

theorem drainLoop_skip_final (s : AsyncQueueManager) (now : ℕ)
    (nextId : String) (s' : AsyncQueueManager) (job : Job)
    (h : (s.runningIds.length : ℚ) < s.maxInFlight)
    (hp : s.pickNextJobId = some (nextId, s'))
    (hl : s'.lookupJob nextId = some job) (hf : job.status.isFinal = true) :
    s.drainLoop now = s'.drainLoop now := by
  conv_lhs => rw [AsyncQueueManager.drainLoop.eq_def]
  simp only [if_pos h]
  split
  · next heq => rw [hp] at heq; cases heq
  · next nid s'' heq =>
    rw [hp] at heq
    injection heq with heq'
    injection heq' with h1 h2
    subst h1; subst h2
    rw [hl]
    simp only [hf, if_pos]

theorem drainLoop_start (s : AsyncQueueManager) (now : ℕ)
    (nextId : String) (s' : AsyncQueueManager) (job : Job)
    (h : (s.runningIds.length : ℚ) < s.maxInFlight)
    (hp : s.pickNextJobId = some (nextId, s'))
    (hl : s'.lookupJob nextId = some job) (hf : job.status.isFinal = false) :
    s.drainLoop now =
      (nextId :: ((s'.startJob job now).drainLoop now).1,
        ((s'.startJob job now).drainLoop now).2) := by
  conv_lhs => rw [AsyncQueueManager.drainLoop.eq_def]
  simp only [if_pos h]
  split
  · next heq => rw [hp] at heq; cases heq
  · next nid s'' heq =>
    rw [hp] at heq
    injection heq with heq'
    injection heq' with h1 h2
    subst h1; subst h2
    rw [hl]
    simp only [hf]
    simp

theorem inv_drainLoop : ∀ (s : AsyncQueueManager) (now : ℕ), Inv s →
    Inv (s.drainLoop now).2 := by
  intro s now
  induction s, now using AsyncQueueManager.drainLoop.induct with
  | case1 s now hcap hpick =>
    intro hs
    rw [drainLoop_none s now hcap hpick]
    exact hs
  | case2 s now hcap nextId s' hpick hlook ih =>
    intro hs
    rw [drainLoop_skip_missing s now nextId s' hcap hpick hlook]
    exact ih (inv_pick s hs nextId s' hpick)
  | case3 s now hcap nextId s' hpick job hlook hfin ih =>
    intro hs
    rw [drainLoop_skip_final s now nextId s' job hcap hpick hlook hfin]
    exact ih (inv_pick s hs nextId s' hpick)
  | case4 s now hcap nextId s' hpick job hlook hnfin s2 ih =>
    intro hs
    rw [drainLoop_start s now nextId s' job hcap hpick hlook
      (Bool.not_eq_true _ ▸ hnfin)]
    have hs' := inv_pick s hs nextId s' hpick
    obtain ⟨hcons, hjobs, _, _, _, _, _⟩ := pick_cons s nextId s' hpick
    have hjid : job.job_id = nextId := hs'.job_id_eq hlook
    have hq : job.status = Status.queued := by
      obtain ⟨job0, hj0, hq0⟩ :=
        hs.lanesQueued nextId (hcons ▸ List.mem_cons_self nextId s'.lanes.all)
      have : s'.lookupJob nextId = some job0 := by
        show lookupAssoc s'.jobs nextId = some job0
        rw [hjobs]; exact hj0
      rw [hlook] at this
      cases this
      exact hq0
    have hnl : job.job_id ∉ s'.lanes.all := by
      rw [hjid]
      have hnd := hs.lanesNodup
      rw [hcons] at hnd
      exact (List.nodup_cons.mp hnd).1
    exact ih (inv_start s' hs' job now (by rw [hjid]; exact hlook) hq hnl)
  | case5 s now hcap =>
    intro hs
    rw [drainLoop_nocap s now hcap]
    exact hs

theorem inv_drain (s : AsyncQueueManager) (now : ℕ) (hs : Inv s) :
    Inv (s.drain now).2 := by
  unfold AsyncQueueManager.drain
  split
  · exact hs
  · exact inv_drainLoop s now hs

/-- Every valid event preserves the invariant. -/
theorem inv_applyEvent (e : Event) (s : AsyncQueueManager) (hs : Inv s)
    (hv : e.valid s) : Inv (applyEvent e s) := by
  cases e with
  | submit req now => exact inv_submit s req now hs
  | cancel jobId now => exact inv_cancel s jobId now hs
  | drain now => exact inv_drain s now hs
  | succeed jobId raw formatted now => exact inv_succeed s jobId raw formatted now hs hv
  | fail jobId error now => exact inv_fail s jobId error now hs hv
  | retryFire jobId => exact inv_retryFire s jobId hs hv

theorem inv_stepsTo {s t : AsyncQueueManager} (h : StepsTo s t) (hs : Inv s) :
    Inv t := by
  induction h with
  | refl => exact hs
  | tail e hsteps hv ih => exact inv_applyEvent e _ ih hv

/-- Every reachable queue manager state satisfies the invariant. -/
theorem inv_reachable {s : AsyncQueueManager} (h : Reachable s) : Inv s := by
  obtain ⟨mif, mqd, rp, cd, hsteps⟩ := h
  exact inv_stepsTo hsteps (inv_init mif mqd rp cd)

theorem fresh_id (s : AsyncQueueManager) (hs : Inv s) (t : ℕ) {j : String}
    (hjmem : j ∈ s.jobsKeys) : j ≠ mkJobId t (s.jobSeq + 1) := by
  obtain ⟨p, hp, hpe⟩ := List.mem_map.mp hjmem
  obtain ⟨t', k', hk, h1, h2⟩ := hs.keySeq p hp
  intro heq
  have := mkJobId_inj t' k' t (s.jobSeq + 1) (by rw [← hk, hpe, ← heq])
  omega

theorem drainLoop_preserves_final : ∀ (s : AsyncQueueManager) (now : ℕ),
    Inv s → ∀ (j : String) (job : Job), s.lookupJob j = some job →
    job.status.isFinal = true →
    (s.drainLoop now).2.lookupJob j = some job ∧
      (s.drainLoop now).2.results = s.results := by
  intro s now
  induction s, now using AsyncQueueManager.drainLoop.induct with
  | case1 s now hcap hpick =>
    intro hs j job hlook hfin
    rw [drainLoop_none s now hcap hpick]
    exact ⟨hlook, rfl⟩
  | case2 s now hcap nextId s' hpick hlook' ih =>
    intro hs j job hlook hfin
    rw [drainLoop_skip_missing s now nextId s' hcap hpick hlook']
    obtain ⟨hcons, hjobs, _, _, hres, _, _⟩ := pick_cons s nextId s' hpick
    have hlook2 : s'.lookupJob j = some job := by
      show lookupAssoc s'.jobs j = some job
      rw [hjobs]; exact hlook
    obtain ⟨h1, h2⟩ := ih (inv_pick s hs nextId s' hpick) j job hlook2 hfin
    exact ⟨h1, by rw [h2, hres]⟩
  | case3 s now hcap nextId s' hpick job' hlook' hfin' ih =>
    intro hs j job hlook hfin
    rw [drainLoop_skip_final s now nextId s' job' hcap hpick hlook' hfin']
    obtain ⟨hcons, hjobs, _, _, hres, _, _⟩ := pick_cons s nextId s' hpick
    have hlook2 : s'.lookupJob j = some job := by
      show lookupAssoc s'.jobs j = some job
      rw [hjobs]; exact hlook
    obtain ⟨h1, h2⟩ := ih (inv_pick s hs nextId s' hpick) j job hlook2 hfin
    exact ⟨h1, by rw [h2, hres]⟩
  | case4 s now hcap nextId s' hpick job' hlook' hnfin s2 ih =>
    intro hs j job hlook hfin
    rw [drainLoop_start s now nextId s' job' hcap hpick hlook'
      (Bool.not_eq_true _ ▸ hnfin)]
    have hs' := inv_pick s hs nextId s' hpick
    obtain ⟨hcons, hjobs, _, _, hres, _, _⟩ := pick_cons s nextId s' hpick
    have hlook2 : s'.lookupJob j = some job := by
      show lookupAssoc s'.jobs j = some job
      rw [hjobs]; exact hlook
    have hjid : job'.job_id = nextId := hs'.job_id_eq hlook'
    have hq : job'.status = Status.queued := by
      obtain ⟨job0, hj0, hq0⟩ :=
        hs.lanesQueued nextId (hcons ▸ List.mem_cons_self nextId s'.lanes.all)
      have : s'.lookupJob nextId = some job0 := by
        show lookupAssoc s'.jobs nextId = some job0
        rw [hjobs]; exact hj0
      rw [hlook'] at this
      cases this
      exact hq0
    have hnl : job'.job_id ∉ s'.lanes.all := by
      rw [hjid]
      have hnd := hs.lanesNodup
      rw [hcons] at hnd
      exact (List.nodup_cons.mp hnd).1
    have hne : j ≠ job'.job_id := by
      intro heq
      rw [heq, hjid, hlook'] at hlook2
      cases hlook2
      rw [hq] at hfin
      cases hfin
    have hlook3 : (s'.startJob job' now).lookupJob j = some job := by
      show lookupAssoc (setAssoc s'.jobs job'.job_id _) j = some job
      rw [lookupAssoc_set_ne s'.jobs job'.job_id j _ hne]
      exact hlook2
    obtain ⟨h1, h2⟩ := ih (inv_start s' hs' job' now
      (by rw [hjid]; exact hlook') hq hnl) j job hlook3 hfin
    exact ⟨h1, by rw [h2]; show s'.results = s.results; rw [hres]⟩
  | case5 s now hcap =>
    intro hs j job hlook hfin
    rw [drainLoop_nocap s now hcap]
    exact ⟨hlook, rfl⟩

/-- Terminal statuses are absorbing set-by-step: a valid event neither
touches a terminal job's record in the job map nor its entry in the result
cache. -/
theorem step_preserves_final (e : Event) (s : AsyncQueueManager)
    (hs : Inv s) (hv : e.valid s) (j : String) (job : Job)
    (hlook : s.lookupJob j = some job) (hfin : job.status.isFinal = true) :
    (applyEvent e s).lookupJob j = some job ∧
      lookupAssoc (applyEvent e s).results j = lookupAssoc s.results j := by
  have hlookA : lookupAssoc s.jobs j = some job := hlook
  have hjmem : j ∈ s.jobsKeys :=
    (lookupAssoc_isSome_iff s.jobs j).mp (by rw [hlookA]; rfl)
  have hres : (lookupAssoc s.results j).isSome :=
    (hs.resultsFinal j).mpr ⟨job, hlook, hfin⟩
  have hnotrun : j ∉ s.runningIds := by
    intro hmem
    obtain ⟨job', hj', hr'⟩ := hs.runningStatus j hmem
    rw [hlook] at hj'
    cases hj'
    rw [hr'] at hfin
    cases hfin
  cases e with
  | submit req now =>
    show ((s.submit req now).2.lookupJob j = some job ∧
      lookupAssoc (s.submit req now).2.results j = lookupAssoc s.results j)
    unfold AsyncQueueManager.submit
    dsimp only
    split
    all_goals
      split
      · exact ⟨hlook, rfl⟩
      · split
        · exact ⟨hlook, rfl⟩
        · split
          · exact ⟨hlook, rfl⟩
          · refine ⟨?_, rfl⟩
            show lookupAssoc (setAssoc s.jobs (mkJobId now (s.jobSeq + 1)) _) j =
              some job
            rw [lookupAssoc_set_ne s.jobs (mkJobId now (s.jobSeq + 1)) j _
              (fresh_id s hs now hjmem)]
            exact hlookA
  | cancel jobId now =>
    show ((s.cancel jobId now).2.lookupJob j = some job ∧
      lookupAssoc (s.cancel jobId now).2.results j = lookupAssoc s.results j)
    unfold AsyncQueueManager.cancel
    dsimp only
    split
    · exact ⟨hlook, rfl⟩
    · split
      · exact ⟨hlook, rfl⟩
      · next hnores =>
        split
        · next hrun =>
          split
          · next job2 heq =>
            have hne : j ≠ jobId := fun hx => hnotrun (hx ▸ hrun)
            refine ⟨?_, rfl⟩
            show lookupAssoc (setAssoc s.jobs jobId _) j = some job
            rw [lookupAssoc_set_ne s.jobs jobId j _ hne]
            exact hlookA
          · exact ⟨hlook, rfl⟩
        · split
          · exact ⟨hlook, rfl⟩
          · next job2 heq =>
            have hne : j ≠ jobId := by
              intro hx
              exact hnores (by rw [← hx]; exact hres)
            have hjid2 : job2.job_id = jobId := hs.job_id_eq heq
            constructor
            · show lookupAssoc (setAssoc (setAssoc
                (s.removeFromLanes jobId).jobs jobId _) _ _) j = some job
              rw [hjid2, setAssoc_setAssoc]
              rw [lookupAssoc_set_ne _ jobId j _ hne]
              exact hlookA
            · show lookupAssoc (setAssoc s.results _ _) j =
                lookupAssoc s.results j
              rw [hjid2]
              rw [lookupAssoc_set_ne s.results jobId j _ hne]
  | drain now =>
    show ((s.drain now).2.lookupJob j = some job ∧
      lookupAssoc (s.drain now).2.results j = lookupAssoc s.results j)
    unfold AsyncQueueManager.drain
    split
    · exact ⟨hlook, rfl⟩
    · obtain ⟨h1, h2⟩ := drainLoop_preserves_final s now hs j job hlook hfin
      exact ⟨h1, by rw [h2]⟩
  | succeed jobId raw formatted now =>
    have hne : j ≠ jobId := fun hx => hnotrun (hx ▸ hv)
    show ((s.succeedStep jobId raw formatted now).lookupJob j = some job ∧
      lookupAssoc (s.succeedStep jobId raw formatted now).results j =
        lookupAssoc s.results j)
    unfold AsyncQueueManager.succeedStep
    split
    · exact ⟨hlook, rfl⟩
    · next job2 heq =>
      have hjid2 : job2.job_id = jobId := hs.job_id_eq heq
      constructor
      · show lookupAssoc (setAssoc s.jobs _ _) j = some job
        rw [hjid2, lookupAssoc_set_ne s.jobs jobId j _ hne]
        exact hlookA
      · show lookupAssoc (setAssoc s.results _ _) j = lookupAssoc s.results j
        rw [hjid2, lookupAssoc_set_ne s.results jobId j _ hne]
  | fail jobId error now =>
    have hne : j ≠ jobId := fun hx => hnotrun (hx ▸ hv)
    show ((s.failStep jobId error now).lookupJob j = some job ∧
      lookupAssoc (s.failStep jobId error now).results j =
        lookupAssoc s.results j)
    unfold AsyncQueueManager.failStep
    split
    · exact ⟨hlook, rfl⟩
    · next job2 heq =>
      have hjid2 : job2.job_id = jobId := hs.job_id_eq heq
      have happ_jobs := applySignal_jobs s (classifyError error).code now
      have happ_res : (s.applySignal (classifyError error).code now).results =
          s.results := by cases hc : (classifyError error).code <;> rfl
      dsimp only
      split
      · constructor
        · show lookupAssoc (setAssoc
            (s.applySignal (classifyError error).code now).jobs _ _) j = some job
          rw [hjid2, lookupAssoc_set_ne _ jobId j _ hne, happ_jobs]
          exact hlookA
        · show lookupAssoc (setAssoc
            (s.applySignal (classifyError error).code now).results _ _) j =
            lookupAssoc s.results j
          rw [hjid2, lookupAssoc_set_ne _ jobId j _ hne, happ_res]
      · split
        · constructor
          · show lookupAssoc (setAssoc
              (s.applySignal (classifyError error).code now).jobs jobId _) j =
              some job
            rw [lookupAssoc_set_ne _ jobId j _ hne, happ_jobs]
            exact hlookA
          · show lookupAssoc
              (s.applySignal (classifyError error).code now).results j =
              lookupAssoc s.results j
            rw [happ_res]
        · constructor
          · show lookupAssoc (setAssoc
              (s.applySignal (classifyError error).code now).jobs _ _) j = some job
            rw [hjid2, lookupAssoc_set_ne _ jobId j _ hne, happ_jobs]
            exact hlookA
          · show lookupAssoc (setAssoc
              (s.applySignal (classifyError error).code now).results _ _) j =
              lookupAssoc s.results j
            rw [hjid2, lookupAssoc_set_ne _ jobId j _ hne, happ_res]
  | retryFire jobId =>
    show ((s.retryFireStep jobId).lookupJob j = some job ∧
      lookupAssoc (s.retryFireStep jobId).results j = lookupAssoc s.results j)
    unfold AsyncQueueManager.retryFireStep
    dsimp only
    split
    · exact ⟨hlook, rfl⟩
    · next job2 heq =>
      split
      · exact ⟨hlook, rfl⟩
      · next hnotfin =>
        have heqS : s.lookupJob jobId = some job2 := heq
        have hne : j ≠ jobId := by
          intro hx
          subst hx
          rw [hlook] at heqS
          cases heqS
          exact hnotfin hfin
        refine ⟨?_, rfl⟩
        show lookupAssoc (setAssoc s.jobs jobId _) j = some job
        rw [lookupAssoc_set_ne s.jobs jobId j _ hne]
        exact hlookA

theorem stepsTo_preserves_final {s t : AsyncQueueManager} (h : StepsTo s t)
    (hs : Inv s) (j : String) (job : Job) (hlook : s.lookupJob j = some job)
    (hfin : job.status.isFinal = true) :
    t.lookupJob j = some job ∧
      lookupAssoc t.results j = lookupAssoc s.results j := by
  induction h with
  | refl => exact ⟨hlook, rfl⟩
  | tail e hsteps hv ih =>
    obtain ⟨h1, h2⟩ := ih
    have hinv := inv_stepsTo hsteps hs
    obtain ⟨h1', h2'⟩ := step_preserves_final e _ hinv hv j job h1 hfin
    exact ⟨h1', by rw [h2', h2]⟩

theorem final_not_running {t : AsyncQueueManager} (ht : Inv t) {j : String}
    {job : Job} (hlook : t.lookupJob j = some job)
    (hfin : job.status.isFinal = true) : j ∉ t.runningIds := by
  intro hmem
  obtain ⟨job', hj', hr'⟩ := ht.runningStatus j hmem
  rw [hlook] at hj'
  cases hj'
  rw [hr'] at hfin
  cases hfin

/-! ### The job map only grows -/

theorem drainLoop_keys : ∀ (s : AsyncQueueManager) (now : ℕ) (id : String),
    id ∈ s.jobsKeys → id ∈ (s.drainLoop now).2.jobsKeys := by
  intro s now
  induction s, now using AsyncQueueManager.drainLoop.induct with
  | case1 s now hcap hpick =>
    intro id hid
    rw [drainLoop_none s now hcap hpick]
    exact hid
  | case2 s now hcap nextId s' hpick hlook' ih =>
    intro id hid
    rw [drainLoop_skip_missing s now nextId s' hcap hpick hlook']
    obtain ⟨_, hjobs, _, _, _, _, _⟩ := pick_cons s nextId s' hpick
    exact ih id (by show id ∈ s'.jobs.map Prod.fst; rw [hjobs]; exact hid)
  | case3 s now hcap nextId s' hpick job' hlook' hfin' ih =>
    intro id hid
    rw [drainLoop_skip_final s now nextId s' job' hcap hpick hlook' hfin']
    obtain ⟨_, hjobs, _, _, _, _, _⟩ := pick_cons s nextId s' hpick
    exact ih id (by show id ∈ s'.jobs.map Prod.fst; rw [hjobs]; exact hid)
  | case4 s now hcap nextId s' hpick job' hlook' hnfin s2 ih =>
    intro id hid
    rw [drainLoop_start s now nextId s' job' hcap hpick hlook'
      (Bool.not_eq_true _ ▸ hnfin)]
    obtain ⟨_, hjobs, _, _, _, _, _⟩ := pick_cons s nextId s' hpick
    refine ih id ?_
    show id ∈ (setAssoc s'.jobs job'.job_id _).map Prod.fst
    apply keys_subset_setAssoc
    show id ∈ s'.jobs.map Prod.fst
    rw [hjobs]
    exact hid
  | case5 s now hcap =>
    intro id hid
    rw [drainLoop_nocap s now hcap]
    exact hid

/-- No event ever removes a job id from the job map. -/
theorem step_keys_monotone (e : Event) (s : AsyncQueueManager) (id : String)
    (hid : id ∈ s.jobsKeys) : id ∈ (applyEvent e s).jobsKeys := by
  cases e with
  | submit req now =>
    show id ∈ (s.submit req now).2.jobsKeys
    unfold AsyncQueueManager.submit
    dsimp only
    split
    all_goals
      split
      · exact hid
      · split
        · exact hid
        · split
          · exact hid
          · exact keys_subset_setAssoc s.jobs _ _ id hid
  | cancel jobId now =>
    show id ∈ (s.cancel jobId now).2.jobsKeys
    unfold AsyncQueueManager.cancel
    dsimp only
    split
    · exact hid
    · split
      · exact hid
      · split
        · split
          · exact keys_subset_setAssoc s.jobs _ _ id hid
          · exact hid
        · split
          · exact hid
          · show id ∈ (List.map Prod.fst (setAssoc (setAssoc
              (s.removeFromLanes jobId).jobs jobId _) _ _))
            apply keys_subset_setAssoc
            exact keys_subset_setAssoc s.jobs _ _ id hid
  | drain now =>
    show id ∈ (s.drain now).2.jobsKeys
    unfold AsyncQueueManager.drain
    split
    · exact hid
    · exact drainLoop_keys s now id hid
  | succeed jobId raw formatted now =>
    show id ∈ (s.succeedStep jobId raw formatted now).jobsKeys
    unfold AsyncQueueManager.succeedStep
    split
    · exact hid
    · exact keys_subset_setAssoc s.jobs _ _ id hid
  | fail jobId error now =>
    show id ∈ (s.failStep jobId error now).jobsKeys
    unfold AsyncQueueManager.failStep
    split
    · exact hid
    · have happ : (s.applySignal (classifyError error).code now).jobs = s.jobs :=
        applySignal_jobs s _ now
      dsimp only
      split
      · show id ∈ (setAssoc (s.applySignal (classifyError error).code now).jobs
          _ _).map Prod.fst
        apply keys_subset_setAssoc
        rw [happ]
        exact hid
      · split
        · show id ∈ (setAssoc (s.applySignal (classifyError error).code now).jobs
            _ _).map Prod.fst
          apply keys_subset_setAssoc
          rw [happ]
          exact hid
        · show id ∈ (setAssoc (s.applySignal (classifyError error).code now).jobs
            _ _).map Prod.fst
          apply keys_subset_setAssoc
          rw [happ]
          exact hid
  | retryFire jobId =>
    show id ∈ (s.retryFireStep jobId).jobsKeys
    unfold AsyncQueueManager.retryFireStep
    dsimp only
    split
    · exact hid
    · split
      · exact hid
      · exact keys_subset_setAssoc s.jobs _ _ id hid

/-! ### Dispatch order -/

theorem pick_none_iff (s : AsyncQueueManager) :
    s.pickNextJobId = none ↔ s.lanes.all = [] := by
  unfold AsyncQueueManager.pickNextJobId
  rcases hi : s.lanes.interactive with _ | ⟨x, xs⟩ <;>
    rcases hr : s.lanes.retry with _ | ⟨y, ys⟩ <;>
    rcases hb : s.lanes.batch with _ | ⟨z, zs⟩ <;>
    simp [Lanes.all, hi, hr, hb]

/-- Under the invariant, the drain loop never skips: the started ids are a
prefix of the laned ids in lane-precedence order (interactive, then retry,
then batch, FIFO within each lane). -/
theorem drainLoop_starts_front : ∀ (s : AsyncQueueManager) (now : ℕ),
    Inv s → (s.drainLoop now).1 <+: s.lanes.all := by
  intro s now
  induction s, now using AsyncQueueManager.drainLoop.induct with
  | case1 s now hcap hpick =>
    intro hs
    rw [drainLoop_none s now hcap hpick]
    exact ⟨s.lanes.all, rfl⟩
  | case2 s now hcap nextId s' hpick hlook' ih =>
    intro hs
    exfalso
    obtain ⟨hcons, hjobs, _, _, _, _, _⟩ := pick_cons s nextId s' hpick
    obtain ⟨job0, hj0, _⟩ :=
      hs.lanesQueued nextId (hcons ▸ List.mem_cons_self nextId s'.lanes.all)
    have : s'.lookupJob nextId = some job0 := by
      show lookupAssoc s'.jobs nextId = some job0
      rw [hjobs]; exact hj0
    rw [hlook'] at this
    cases this
  | case3 s now hcap nextId s' hpick job' hlook' hfin' ih =>
    intro hs
    exfalso
    obtain ⟨hcons, hjobs, _, _, _, _, _⟩ := pick_cons s nextId s' hpick
    obtain ⟨job0, hj0, hq0⟩ :=
      hs.lanesQueued nextId (hcons ▸ List.mem_cons_self nextId s'.lanes.all)
    have : s'.lookupJob nextId = some job0 := by
      show lookupAssoc s'.jobs nextId = some job0
      rw [hjobs]; exact hj0
    rw [hlook'] at this
    cases this
    rw [hq0] at hfin'
    cases hfin'
  | case4 s now hcap nextId s' hpick job' hlook' hnfin s2 ih =>
    intro hs
    rw [drainLoop_start s now nextId s' job' hcap hpick hlook'
      (Bool.not_eq_true _ ▸ hnfin)]
    have hs' := inv_pick s hs nextId s' hpick
    obtain ⟨hcons, hjobs, _, _, _, _, _⟩ := pick_cons s nextId s' hpick
    have hjid : job'.job_id = nextId := hs'.job_id_eq hlook'
    have hq : job'.status = Status.queued := by
      obtain ⟨job0, hj0, hq0⟩ :=
        hs.lanesQueued nextId (hcons ▸ List.mem_cons_self nextId s'.lanes.all)
      have : s'.lookupJob nextId = some job0 := by
        show lookupAssoc s'.jobs nextId = some job0
        rw [hjobs]; exact hj0
      rw [hlook'] at this
      cases this
      exact hq0
    have hnl : job'.job_id ∉ s'.lanes.all := by
      rw [hjid]
      have hnd := hs.lanesNodup
      rw [hcons] at hnd
      exact (List.nodup_cons.mp hnd).1
    have hpre := ih (inv_start s' hs' job' now (by rw [hjid]; exact hlook') hq hnl)
    rw [hcons]
    have hlanes2 : (s'.startJob job' now).lanes.all = s'.lanes.all := rfl
    rw [hlanes2] at hpre
    obtain ⟨tail1, htail⟩ := hpre
    exact ⟨tail1, by rw [List.cons_append, htail]⟩
  | case5 s now hcap =>
    intro hs
    rw [drainLoop_nocap s now hcap]
    exact ⟨s.lanes.all, rfl⟩

/-- With in-flight budget available and the laned ids headed by `id`, the
drain loop starts `id` first. -/
theorem drainLoop_starts_head (s : AsyncQueueManager) (now : ℕ) (hs : Inv s)
    (hcap : (s.runningIds.length : ℚ) < s.maxInFlight) (id : String)
    (rest : List String) (hall : s.lanes.all = id :: rest) :
    ∃ tl, (s.drainLoop now).1 = id :: tl := by
  rcases hp : s.pickNextJobId with _ | ⟨nextId, s'⟩
  · rw [(pick_none_iff s).mp hp] at hall
    cases hall
  · obtain ⟨hcons, hjobs, _, _, _, _, _⟩ := pick_cons s nextId s' hp
    have hid : nextId = id := by
      rw [hall] at hcons
      exact ((List.cons.injEq _ _ _ _ ▸ hcons).1).symm
    obtain ⟨job0, hj0, hq0⟩ :=
      hs.lanesQueued nextId (hcons ▸ List.mem_cons_self nextId s'.lanes.all)
    have hlook' : s'.lookupJob nextId = some job0 := by
      show lookupAssoc s'.jobs nextId = some job0
      rw [hjobs]; exact hj0
    have hnf : job0.status.isFinal = false := by rw [hq0]; rfl
    rw [drainLoop_start s now nextId s' job0 hcap hp hlook' hnf]
    exact ⟨_, by rw [hid]⟩

/-- No event changes the configured cooldown durations. -/
theorem drainLoop_cooldowns : ∀ (s : AsyncQueueManager) (now : ℕ),
    (s.drainLoop now).2.cooldowns = s.cooldowns := by
  intro s now
  induction s, now using AsyncQueueManager.drainLoop.induct with
  | case1 s now hcap hpick =>
    rw [drainLoop_none s now hcap hpick]
  | case2 s now hcap nextId s' hpick hlook' ih =>
    rw [drainLoop_skip_missing s now nextId s' hcap hpick hlook', ih]
    obtain ⟨_, _, _, _, _, _, _⟩ := pick_cons s nextId s' hpick
    revert hpick
    unfold AsyncQueueManager.pickNextJobId
    rcases hi : s.lanes.interactive with _ | ⟨x, xs⟩ <;>
      rcases hr : s.lanes.retry with _ | ⟨y, ys⟩ <;>
      rcases hb : s.lanes.batch with _ | ⟨z, zs⟩ <;>
      intro hpick <;> simp [hi, hr, hb] at hpick <;>
      obtain ⟨h1, h2⟩ := hpick <;> subst_vars <;> rfl
  | case3 s now hcap nextId s' hpick job' hlook' hfin' ih =>
    rw [drainLoop_skip_final s now nextId s' job' hcap hpick hlook', ih]
    · revert hpick
      unfold AsyncQueueManager.pickNextJobId
      rcases hi : s.lanes.interactive with _ | ⟨x, xs⟩ <;>
        rcases hr : s.lanes.retry with _ | ⟨y, ys⟩ <;>
        rcases hb : s.lanes.batch with _ | ⟨z, zs⟩ <;>
        intro hpick <;> simp [hi, hr, hb] at hpick <;>
        obtain ⟨h1, h2⟩ := hpick <;> subst_vars <;> rfl
    · exact hfin'
  | case4 s now hcap nextId s' hpick job' hlook' hnfin s2 ih =>
    rw [drainLoop_start s now nextId s' job' hcap hpick hlook'
      (Bool.not_eq_true _ ▸ hnfin)]
    show (s2.drainLoop now).2.cooldowns = s.cooldowns
    rw [ih]
    show s'.cooldowns = s.cooldowns
    revert hpick
    unfold AsyncQueueManager.pickNextJobId
    rcases hi : s.lanes.interactive with _ | ⟨x, xs⟩ <;>
      rcases hr : s.lanes.retry with _ | ⟨y, ys⟩ <;>
      rcases hb : s.lanes.batch with _ | ⟨z, zs⟩ <;>
      intro hpick <;> simp [hi, hr, hb] at hpick <;>
      obtain ⟨h1, h2⟩ := hpick <;> subst_vars <;> rfl
  | case5 s now hcap =>
    rw [drainLoop_nocap s now hcap]

theorem step_cooldowns (e : Event) (s : AsyncQueueManager) :
    (applyEvent e s).cooldowns = s.cooldowns := by
  cases e with
  | submit req now =>
    show (s.submit req now).2.cooldowns = s.cooldowns
    unfold AsyncQueueManager.submit
    dsimp only
    split
    all_goals
      split
      · rfl
      · split
        · rfl
        · split <;> rfl
  | cancel jobId now =>
    show (s.cancel jobId now).2.cooldowns = s.cooldowns
    unfold AsyncQueueManager.cancel
    dsimp only
    split
    · rfl
    · split
      · rfl
      · split
        · split <;> rfl
        · split <;> rfl
  | drain now =>
    show (s.drain now).2.cooldowns = s.cooldowns
    unfold AsyncQueueManager.drain
    split
    · rfl
    · exact drainLoop_cooldowns s now
  | succeed jobId raw formatted now =>
    show (s.succeedStep jobId raw formatted now).cooldowns = s.cooldowns
    unfold AsyncQueueManager.succeedStep
    split <;> rfl
  | fail jobId error now =>
    show (s.failStep jobId error now).cooldowns = s.cooldowns
    unfold AsyncQueueManager.failStep
    split
    · rfl
    · have happ : (s.applySignal (classifyError error).code now).cooldowns =
          s.cooldowns := by cases hc : (classifyError error).code <;> rfl
      dsimp only
      split
      · exact happ
      · split <;> exact happ
  | retryFire jobId =>
    show (s.retryFireStep jobId).cooldowns = s.cooldowns
    unfold AsyncQueueManager.retryFireStep
    dsimp only
    split
    · rfl
    · split <;> rfl

/-- Every reachable state's cooldown durations sit at or above the
one-second floors the constructor enforces. -/
theorem cooldowns_reachable {s : AsyncQueueManager} (h : Reachable s) :
    1000 ≤ s.cooldowns.authRequiredMs ∧ 1000 ≤ s.cooldowns.challengeMs ∧
      1000 ≤ s.cooldowns.rateLimitedMs ∧ 1000 ≤ s.cooldowns.degradedMs := by
  obtain ⟨mif, mqd, rp, cd, hsteps⟩ := h
  have hinit : (mkQueueManager mif mqd rp cd).cooldowns.authRequiredMs =
        max 1000 (numOrDefault cd.authRequiredMs 300000) ∧
      (mkQueueManager mif mqd rp cd).cooldowns.challengeMs =
        max 1000 (numOrDefault cd.challengeMs 90000) ∧
      (mkQueueManager mif mqd rp cd).cooldowns.rateLimitedMs =
        max 1000 (numOrDefault cd.rateLimitedMs 45000) ∧
      (mkQueueManager mif mqd rp cd).cooldowns.degradedMs =
        max 1000 (numOrDefault cd.degradedMs 15000) := ⟨rfl, rfl, rfl, rfl⟩
  have hcd : s.cooldowns = (mkQueueManager mif mqd rp cd).cooldowns := by
    clear hinit
    induction hsteps with
    | refl => rfl
    | tail e hsteps hv ih => rw [step_cooldowns e _]; exact ih
  rw [hcd]
  obtain ⟨h1, h2, h3, h4⟩ := hinit
  rw [h1, h2, h3, h4]
  exact ⟨le_max_left _ _, le_max_left _ _, le_max_left _ _, le_max_left _ _⟩

/-! ## Claim theorems -/

/-- **C3 counterexample**: an HTTP status of 600 lies outside 400–599, so by
the claim it should classify as `INTERNAL_ERROR`/500; the code's sixth guard
(`Number.isFinite(statusCode) && statusCode >= 400`) matches it instead and
yields `UPSTREAM_BAD_RESPONSE` normalized to 424. -/
theorem C3_counterexample :
    (classifyError (some { statusCode := JSValue.num (some 600) })).code =
        ErrCode.UPSTREAM_BAD_RESPONSE ∧
      (classifyError (some { statusCode := JSValue.num (some 600) })).status = 424 ∧
      (classifyError (some { statusCode := JSValue.num (some 600) })).code ≠
        ErrCode.INTERNAL_ERROR := by
  refine ⟨?_, ?_, ?_⟩ <;> with_unfolding_all decide

/-- **C3 (amended)**: `classifyError` evaluates the spec's rules in order
with first match winning — timeout; 401/`LOGIN_REQUIRED`; 429/"rate limit";
challenge markers; 500–599 normalized to 503 retryable — with rule 6 amended
to capture every not-yet-matched *finite status ≥ 400* (not only 400–499)
as `UPSTREAM_BAD_RESPONSE`/424/not retryable, and everything else (no rule
matched, including non-finite or sub-400 statuses) as
`INTERNAL_ERROR`/500/not retryable. -/
theorem C3_classifier_first_match :
    ∀ error : Option JSError, classifyError error = classifySpecAmended error := by
  intro e
  unfold classifyError classifySpecAmended specRuleList
  dsimp only
  by_cases h1 : isTimeoutError e = true
  · simp [h1, List.find?]
  · rw [Bool.not_eq_true] at h1
    by_cases h2 : (statusIs (errStatusNum e) 401 ||
        decide (strUpper (errFieldText e JSError.code) = "LOGIN_REQUIRED")) = true
    · simp [h1, h2, List.find?]
    · rw [Bool.not_eq_true] at h2
      by_cases h3 : (statusIs (errStatusNum e) 429 ||
          strIncludes (strLower (errFieldText e JSError.message)) "rate limit") = true
      · simp [h1, h2, h3, List.find?]
      · rw [Bool.not_eq_true] at h3
        by_cases h4 : (strIncludes (strLower (errFieldText e JSError.message))
              "just a moment" ||
            strIncludes (strLower (errFieldText e JSError.message)) "challenge" ||
            strIncludes (strLower (errFieldText e JSError.message))
              "verify you are human") = true
        · simp [h1, h2, h3, h4, List.find?]
        · rw [Bool.not_eq_true] at h4
          by_cases h5 : statusInRange (errStatusNum e) 500 600 = true
          · simp [h1, h2, h3, h4, h5, List.find?]
          · rw [Bool.not_eq_true] at h5
            by_cases h6 : statusAtLeast (errStatusNum e) 400 = true
            · simp [h1, h2, h3, h4, h5, h6, List.find?]
            · rw [Bool.not_eq_true] at h6
              simp [h1, h2, h3, h4, h5, h6, List.find?]

theorem detectConfidence_eq_spec (pj assistantText : JSValue) :
    detectConfidence pj assistantText = confidenceAfterSpec pj assistantText := by
  unfold detectConfidence confidenceAfterSpec
  by_cases h1 : isObjType pj = true
  · rcases h2 : jsToNumber (pj.get "confidence") with _ | q
    · by_cases h3 : (pj.get "meta").truthy = true
      · rcases h4 : jsToNumber ((pj.get "meta").get "confidence") with _ | q'
        · cases assistantText <;> simp [h1, h2, h3, h4, ite_not]
        · simp [h1, h2, h3, h4]
      · rw [Bool.not_eq_true] at h3
        cases assistantText <;> simp [h1, h2, h3, ite_not]
    · simp [h1, h2]
  · rw [Bool.not_eq_true] at h1
    cases assistantText <;> simp [h1, ite_not]

/-- **C6 counterexample**: with `parsed_json = {confidence: null}`, an empty
assistant text and no `confidenceBefore`, the claim predicts
`confidence_after = null` (no finite number anywhere) and
`confidence_delta = null`; the builder's `Number` coercions turn both
`null`s into the finite `0`, so it produces `confidence_after = 0`,
`confidence_before = 0` and `confidence_delta = 0`. -/
theorem C6_counterexample :
    (buildStructuredEnvelope
        { jobId := "job-1"
          status := .completed
          requestMeta := { model := .str "m" }
          formatted := some
            { assistantText := .str ""
              parsedJson := .obj [("confidence", .null)] } }
      ).result.diagnostics.aggressive.confidence_after = some 0 ∧
    (buildStructuredEnvelope
        { jobId := "job-1"
          status := .completed
          requestMeta := { model := .str "m" }
          formatted := some
            { assistantText := .str ""
              parsedJson := .obj [("confidence", .null)] } }
      ).result.diagnostics.aggressive.confidence_delta = some 0 ∧
    (buildStructuredEnvelope
        { jobId := "job-1"
          status := .completed
          requestMeta := { model := .str "m" }
          formatted := some
            { assistantText := .str ""
              parsedJson := .obj [("confidence", .null)] } }
      ).result.diagnostics.aggressive.confidence_after ≠ none := by
  refine ⟨?_, ?_, ?_⟩ <;> with_unfolding_all decide

/-- **C6 (amended)**: for every envelope the builder produces,
`confidence_after` follows the coercion-based recipe (`parsed_json.confidence`
when its `Number` coercion is finite — an explicit `null` counting as `0` —
else `parsed_json.meta.confidence` under the same reading, else `0.7` for a
non-blank assistant text, else null), and `confidence_delta` is `after −
before` rounded to six decimals when both coerced values are finite and null
otherwise. -/
theorem C6_confidence_derivation :
    ∀ i : EnvelopeInput,
      (buildStructuredEnvelope i).result.diagnostics.aggressive.confidence_after =
        confidenceAfterSpec (formattedRaw i.formatted Formatted.parsedJson)
          (formattedRaw i.formatted Formatted.assistantText) ∧
      (buildStructuredEnvelope i).result.diagnostics.aggressive.confidence_delta =
        confidenceDeltaSpec (toNumberOrNull (confidenceBeforeJS i.requestMeta))
          ((buildStructuredEnvelope i).result.diagnostics.aggressive.confidence_after) := by
  intro i
  constructor
  · show detectConfidence _ _ = _
    exact detectConfidence_eq_spec _ _
  · show (match toNumberOrNull (confidenceBeforeJS i.requestMeta),
        detectConfidence (formattedRaw i.formatted Formatted.parsedJson)
          (formattedRaw i.formatted Formatted.assistantText) with
      | some b, some a => some (round6 (a - b))
      | _, _ => none) = _
    unfold confidenceDeltaSpec
    rfl

/-- **C8**: the state resolver is a pure function applying the fixed
precedence `auth_required > challenge > rate_limited > degraded (bad
connectivity or degraded cooldown) > ready`, first condition wins, echoing
the matching reason and the coerced `queue_depth`/`error_rate` from the
snapshot and metrics; in particular a future auth deadline combined with
failed connectivity resolves to `auth_required`. -/
theorem C8_state_resolver :
    (∀ i : ResolverInput, resolveSidecarState i = resolveSidecarStateSpec i) ∧
    (∀ i : ResolverInput, (resolveSidecarState i).queue_depth =
        numOrZero i.depthTotal ∧
      (resolveSidecarState i).error_rate = numOrZero i.errorRate) ∧
    ((resolveSidecarState
        { now := 0
          connectivityOk := false
          signals := { auth_required_until := 10000 }
          depthTotal := .num (some 0)
          errorRate := .num (some 0) }).state = "auth_required") ∧
    ((resolveSidecarState
        { now := 0
          connectivityOk := false
          signals := { auth_required_until := 10000 }
          depthTotal := .num (some 0)
          errorRate := .num (some 0) }).reasons = ["auth_required_signal"]) := by
  refine ⟨?_, ?_, ?_, ?_⟩
  · intro i
    rfl
  · intro i
    unfold resolveSidecarState
    dsimp only
    split_ifs <;> exact ⟨rfl, rfl⟩
  · with_unfolding_all decide
  · with_unfolding_all decide

/-- The job map only grows along any event sequence. -/
theorem stepsTo_keys_monotone {s t : AsyncQueueManager} (h : StepsTo s t)
    (id : String) (hid : id ∈ s.jobsKeys) : id ∈ t.jobsKeys := by
  induction h with
  | refl => exact hid
  | tail e hsteps hv ih => exact step_keys_monotone e _ id ih

/-- **C1 counterexample**: submit a job and cancel it while queued; the
cancelled envelope enters the result cache, but `#finalize` never deletes
the job record, so the id sits in the active job map AND the result cache
of this reachable state — the claimed XOR (and the claimed removal on
reaching a terminal status) fails. -/
theorem C1_counterexample :
    Reachable (applyEvent (Event.cancel (mkJobId 1000 1) 1000)
      (applyEvent (Event.submit
          { payload := JSValue.obj
              [("model", .str "m"), ("messages", .arr [])] } 1000)
        mkQueueManager)) ∧
    ((applyEvent (Event.cancel (mkJobId 1000 1) 1000)
        (applyEvent (Event.submit
            { payload := JSValue.obj
                [("model", .str "m"), ("messages", .arr [])] } 1000)
          mkQueueManager)).lookupJob (mkJobId 1000 1)).isSome = true ∧
    (lookupAssoc (applyEvent (Event.cancel (mkJobId 1000 1) 1000)
        (applyEvent (Event.submit
            { payload := JSValue.obj
                [("model", .str "m"), ("messages", .arr [])] } 1000)
          mkQueueManager)).results (mkJobId 1000 1)).isSome = true := by
  refine ⟨⟨.undef, .undef, {}, {}, ?_⟩, ?_, ?_⟩
  · exact StepsTo.tail _ (StepsTo.tail _ (StepsTo.refl _) trivial) trivial
  · with_unfolding_all decide
  · with_unfolding_all decide

/-- **C1 (amended)**: in every reachable state a job id is in the result
cache exactly when its record is in the active job map with a terminal
status (so the two sides overlap rather than partition), and the job map
only ever grows — a terminal job's record is never removed. -/
theorem C1_job_map_vs_result_cache :
    (∀ s : AsyncQueueManager, Reachable s → ∀ id,
        (lookupAssoc s.results id).isSome ↔
          ∃ job, s.lookupJob id = some job ∧ job.status.isFinal) ∧
    (∀ s t : AsyncQueueManager, StepsTo s t → ∀ id,
        id ∈ s.jobsKeys → id ∈ t.jobsKeys) := by
  constructor
  · intro s hs id
    exact (inv_reachable hs).resultsFinal id
  · intro s t h id hid
    exact stepsTo_keys_monotone h id hid

theorem C1_witness :
    (lookupAssoc (mkQueueManager : AsyncQueueManager).results "job-0-0").isSome ↔
      ∃ job, (mkQueueManager : AsyncQueueManager).lookupJob "job-0-0" = some job ∧
        job.status.isFinal :=
  C1_job_map_vs_result_cache.1 mkQueueManager
    ⟨.undef, .undef, {}, {}, StepsTo.refl _⟩ "job-0-0"

/-- **C2**: on every dispatch pass of the drain loop the started ids form a
front segment of the laned ids in the fixed precedence interactive, retry,
batch (FIFO within each lane); whenever the interactive lane is non-empty
and in-flight budget remains, its head is started first; and concretely,
with the default `max_in_flight = 1`, an interactive job submitted after a
batch job is the one (and only) job the next drain starts. -/
theorem C2_dispatch_precedence :
    (∀ (s : AsyncQueueManager) (now : ℕ), Reachable s →
        List.IsPrefix (s.drainLoop now).1 s.lanes.all) ∧
    (∀ (s : AsyncQueueManager) (now : ℕ) (id : String) (rest : List String),
        Reachable s → ((s.runningIds.length : ℚ) < s.maxInFlight) →
        s.lanes.interactive = id :: rest →
        ∃ tl, (s.drainLoop now).1 = id :: tl) ∧
    (((applyEvent (Event.submit
          { payload := JSValue.obj [("model", .str "m"), ("messages", .arr [])]
            priority := .str "interactive" } 1000)
        (applyEvent (Event.submit
            { payload := JSValue.obj [("model", .str "m"), ("messages", .arr [])]
              priority := .str "batch" } 1000)
          mkQueueManager)).drain 1001).1.1 = [mkJobId 1000 2]) := by
  refine ⟨?_, ?_, ?_⟩
  · intro s now hs
    exact drainLoop_starts_front s now (inv_reachable hs)
  · intro s now id rest hs hcap hint
    refine drainLoop_starts_head s now (inv_reachable hs) hcap id
      (rest ++ s.lanes.retry ++ s.lanes.batch) ?_
    show s.lanes.interactive ++ s.lanes.retry ++ s.lanes.batch = _
    rw [hint]
    simp
  · with_unfolding_all decide

theorem C2_witness :
    ∃ tl, ((applyEvent (Event.submit
        { payload := JSValue.obj [("model", .str "m"), ("messages", .arr [])]
          priority := .str "interactive" } 1000)
        mkQueueManager).drainLoop 1001).1 = mkJobId 1000 1 :: tl := by
  refine C2_dispatch_precedence.2.1 _ 1001 (mkJobId 1000 1) [] ?_ ?_ ?_
  · exact ⟨.undef, .undef, {}, {}, StepsTo.tail _ (StepsTo.refl _) trivial⟩
  · with_unfolding_all decide
  · with_unfolding_all decide

/-- **C9**: terminal statuses are absorbing — once a job's stored record is
terminal, every later valid event sequence leaves both the record and its
cached envelope untouched; and a retry timer firing for a job that has
meanwhile reached a terminal status only spends the timer: the job map, the
lanes (in particular the retry lane) and the result cache are unchanged, so
exactly the one already-stored terminal envelope survives. -/
theorem C9_terminal_absorbing :
    (∀ (s t : AsyncQueueManager) (j : String) (job : Job),
        Reachable s → StepsTo s t →
        s.lookupJob j = some job → job.status.isFinal = true →
        t.lookupJob j = some job ∧
          lookupAssoc t.results j = lookupAssoc s.results j) ∧
    (∀ (s : AsyncQueueManager) (j : String) (job : Job),
        s.lookupJob j = some job → job.status.isFinal = true →
        (s.retryFireStep j).jobs = s.jobs ∧
        (s.retryFireStep j).lanes = s.lanes ∧
        (s.retryFireStep j).results = s.results ∧
        (s.retryFireStep j).retryTimers = s.retryTimers.erase j) := by
  constructor
  · intro s t j job hreach hsteps hlook hfin
    exact stepsTo_preserves_final hsteps (inv_reachable hreach) j job hlook hfin
  · intro s j job hlook hfin
    unfold AsyncQueueManager.retryFireStep
    dsimp only
    have h0 : AsyncQueueManager.lookupJob
        { s with retryTimers := s.retryTimers.erase j } j = some job := hlook
    rw [h0]
    simp only [hfin, if_true]
    exact ⟨trivial, trivial, trivial, trivial⟩

theorem C9_witness :
    ((applyEvent (Event.cancel (mkJobId 1000 1) 1000)
        (applyEvent (Event.fail (mkJobId 1000 1)
            (some { name := JSValue.str "TimeoutError" }) 1000)
          (applyEvent (Event.drain 1000)
            (applyEvent (Event.submit
                { payload := JSValue.obj
                    [("model", .str "m"), ("messages", .arr [])] } 1000)
              mkQueueManager)))).retryFireStep (mkJobId 1000 1)).lanes =
      (applyEvent (Event.cancel (mkJobId 1000 1) 1000)
        (applyEvent (Event.fail (mkJobId 1000 1)
            (some { name := JSValue.str "TimeoutError" }) 1000)
          (applyEvent (Event.drain 1000)
            (applyEvent (Event.submit
                { payload := JSValue.obj
                    [("model", .str "m"), ("messages", .arr [])] } 1000)
              mkQueueManager)))).lanes := by
  have hst : ((applyEvent (Event.cancel (mkJobId 1000 1) 1000)
      (applyEvent (Event.fail (mkJobId 1000 1)
          (some { name := JSValue.str "TimeoutError" }) 1000)
        (applyEvent (Event.drain 1000)
          (applyEvent (Event.submit
              { payload := JSValue.obj
                  [("model", .str "m"), ("messages", .arr [])] } 1000)
            mkQueueManager)))).lookupJob (mkJobId 1000 1)).map
      (fun j => j.status.isFinal) = some true := by
    with_unfolding_all decide
  rcases hl : (applyEvent (Event.cancel (mkJobId 1000 1) 1000)
      (applyEvent (Event.fail (mkJobId 1000 1)
          (some { name := JSValue.str "TimeoutError" }) 1000)
        (applyEvent (Event.drain 1000)
          (applyEvent (Event.submit
              { payload := JSValue.obj
                  [("model", .str "m"), ("messages", .arr [])] } 1000)
            mkQueueManager)))).lookupJob (mkJobId 1000 1) with _ | job
  · rw [hl] at hst
    cases hst
  · rw [hl] at hst
    have hfin : job.status.isFinal = true := by simpa using hst
    exact (C9_terminal_absorbing.2 _ (mkJobId 1000 1) job hl hfin).2.1

/-- **C5**: `cancel` on an id in neither map returns `JOB_NOT_FOUND` and
changes nothing; on a terminal (cached) id returns `ALREADY_FINAL` and
changes nothing (repeated cancel never mutates the cached envelope); on a
running job it only marks `cancel_requested` and reports
`cancel_requested`; and on a queued or retrying job it removes the id from
every lane and immediately finalizes a cancelled envelope carrying
`JOB_CANCELLED`/409, after which the job can never enter the running set
(no upstream call is made for it). -/
theorem C5_cancel_semantics :
    ∀ (s : AsyncQueueManager) (id : String) (now : ℕ), Reachable s →
      (((s.lookupJob id).isNone ∧ (lookupAssoc s.results id).isNone) →
        (s.cancel id now).1 =
          { cancelled := false, code := some "JOB_NOT_FOUND"
            message := some "Job not found." } ∧
        (s.cancel id now).2 = s) ∧
      ((lookupAssoc s.results id).isSome →
        (s.cancel id now).1 =
          { cancelled := false, code := some "ALREADY_FINAL"
            message := some "Job is already final." } ∧
        (s.cancel id now).2 = s) ∧
      (∀ job, s.lookupJob id = some job → job.status = Status.running →
        (s.cancel id now).1 =
          { cancelled := true, running := some true
            job_id := some id, status := some "cancel_requested" } ∧
        (s.cancel id now).2.jobs =
          setAssoc s.jobs id { job with cancelRequested := true } ∧
        (s.cancel id now).2.results = s.results) ∧
      (∀ job, s.lookupJob id = some job →
        (job.status = Status.queued ∨ job.status = Status.retrying) →
        (s.cancel id now).1 =
          { cancelled := true, running := some false
            job_id := some id, status := some "cancelled" } ∧
        id ∉ (s.cancel id now).2.lanes.all ∧
        (∃ env, lookupAssoc (s.cancel id now).2.results id = some env ∧
          env.status = Status.cancelled ∧
          env.error = some
            { code := ErrCode.JOB_CANCELLED
              message := "Job cancelled before execution."
              retryable := false, status := 409 }) ∧
        (∀ t, StepsTo (s.cancel id now).2 t → id ∉ t.runningIds)) := by
  intro s id now hreach
  have hs := inv_reachable hreach
  refine ⟨?_, ?_, ?_, ?_⟩
  · rintro ⟨hjn', hrn'⟩
    have hjn : s.lookupJob id = none := Option.isNone_iff_eq_none.mp hjn'
    have hrn : lookupAssoc s.results id = none := Option.isNone_iff_eq_none.mp hrn'
    have hc : s.cancel id now =
        ({ cancelled := false, code := some "JOB_NOT_FOUND"
           message := some "Job not found." }, s) := by
      unfold AsyncQueueManager.cancel
      rw [hjn, hrn]
      simp
    exact ⟨by rw [hc], by rw [hc]⟩
  · intro hres
    have hc : s.cancel id now =
        ({ cancelled := false, code := some "ALREADY_FINAL"
           message := some "Job is already final." }, s) := by
      unfold AsyncQueueManager.cancel
      simp [hres]
    exact ⟨by rw [hc], by rw [hc]⟩
  · intro job hjob hrunstat
    have hres : lookupAssoc s.results id = none := by
      cases hx : lookupAssoc s.results id with
      | none => rfl
      | some e =>
        exfalso
        obtain ⟨job', hlook', hfin'⟩ := (hs.resultsFinal id).mp (by rw [hx]; rfl)
        rw [hjob] at hlook'
        cases hlook'
        rw [hrunstat] at hfin'
        simp [Status.isFinal] at hfin'
    have hrun : id ∈ s.runningIds :=
      hs.statusRunning (id, job) (lookupAssoc_mem s.jobs id job hjob) hrunstat
    have hc : s.cancel id now =
        ({ cancelled := true, running := some true
           job_id := some id, status := some "cancel_requested" },
         { s with jobs := setAssoc s.jobs id { job with cancelRequested := true } }) := by
      unfold AsyncQueueManager.cancel
      rw [hjob, hres]
      simp [hrun]
    exact ⟨by rw [hc], by rw [hc], by rw [hc]⟩
  · intro job hjob hqr
    have hnf : job.status.isFinal = false := by
      rcases hqr with h | h <;> rw [h] <;> rfl
    have hres : lookupAssoc s.results id = none := by
      cases hx : lookupAssoc s.results id with
      | none => rfl
      | some e =>
        exfalso
        obtain ⟨job', hlook', hfin'⟩ := (hs.resultsFinal id).mp (by rw [hx]; rfl)
        rw [hjob] at hlook'
        cases hlook'
        rw [hnf] at hfin'
        cases hfin'
    have hnrun : id ∉ s.runningIds := by
      intro hmem
      obtain ⟨job', hlook', hst'⟩ := hs.runningStatus id hmem
      rw [hjob] at hlook'
      cases hlook'
      rcases hqr with h | h <;> rw [h] at hst' <;> cases hst'
    have hjid : job.job_id = id := hs.job_id_eq hjob
    have hc : s.cancel id now =
        ({ cancelled := true, running := some false
           job_id := some id, status := some "cancelled" },
         ({ (s.removeFromLanes id) with
              jobs := setAssoc (s.removeFromLanes id).jobs id
                { job with status := Status.cancelled }
              metrics := (s.removeFromLanes id).metrics.recordCancelled
           : AsyncQueueManager }).finalize
           { job with status := Status.cancelled }
           (buildStructuredEnvelope (cancelledEnvelopeInput
             { job with status := Status.cancelled } now)) now) := by
      unfold AsyncQueueManager.cancel
      rw [hjob, hres]
      simp [hnrun]
    refine ⟨by rw [hc], ?_, ?_, ?_⟩
    · intro hmem
      rw [hc] at hmem
      simp only [AsyncQueueManager.finalize, AsyncQueueManager.removeFromLanes,
        Lanes.all, List.mem_append, List.mem_filter] at hmem
      rcases hmem with (⟨_, hx⟩ | ⟨_, hx⟩) | ⟨_, hx⟩ <;> simp at hx
    · refine ⟨buildStructuredEnvelope (cancelledEnvelopeInput
        { job with status := Status.cancelled } now), ?_, rfl, rfl⟩
      rw [hc]
      show lookupAssoc (setAssoc _ ({ job with status := Status.cancelled
        : Job }).job_id _) id = _
      have hjid' : ({ job with status := Status.cancelled : Job }).job_id = id := hjid
      rw [hjid']
      exact lookupAssoc_set_self _ id _
    · intro t hsteps hmem
      have hinv4 : Inv (s.cancel id now).2 := inv_cancel s id now hs
      have hres4 : (lookupAssoc (s.cancel id now).2.results id).isSome := by
        rw [hc]
        show (lookupAssoc (setAssoc _ ({ job with status := Status.cancelled
          : Job }).job_id _) id).isSome
        have hjid' : ({ job with status := Status.cancelled : Job }).job_id = id := hjid
        rw [hjid', lookupAssoc_set_self]
        rfl
      obtain ⟨jobf, hlookf, hfinf⟩ := (hinv4.resultsFinal id).mp hres4
      obtain ⟨hlookt, _⟩ :=
        stepsTo_preserves_final hsteps hinv4 id jobf hlookf hfinf
      exact final_not_running (inv_stepsTo hsteps hinv4) hlookt hfinf hmem

theorem C5_witness :
    ((mkQueueManager : AsyncQueueManager).cancel "missing" 0).1 =
      { cancelled := false, code := some "JOB_NOT_FOUND"
        message := some "Job not found." } ∧
    ((mkQueueManager : AsyncQueueManager).cancel "missing" 0).2 =
      mkQueueManager :=
  (C5_cancel_semantics mkQueueManager "missing" 0
      ⟨.undef, .undef, {}, {}, StepsTo.refl _⟩).1
    ⟨by with_unfolding_all decide, by with_unfolding_all decide⟩

/-- **C4**: `#applySignal` moves exactly the one deadline mapped to the
classified code to `now + duration` (other codes touch no signal), the fail
path applies precisely that signal, every configured duration of a
reachable manager sits at or above its one-second floor so the deadline
lands at or beyond `now + 1000`, and while the cooldown gate (the maximum
of the four deadlines) exceeds `now` a drain tick starts nothing, changes
nothing, and reschedules itself after at least 50 ms. -/
theorem C4_cooldown_signals :
    (∀ (s : AsyncQueueManager) (now : ℕ),
        (s.applySignal .UPSTREAM_LOGIN_REQUIRED now).signals =
          { s.signals with
              auth_required_until := (now : ℚ) + s.cooldowns.authRequiredMs } ∧
        (s.applySignal .UPSTREAM_CHALLENGE now).signals =
          { s.signals with
              challenge_until := (now : ℚ) + s.cooldowns.challengeMs } ∧
        (s.applySignal .UPSTREAM_RATE_LIMITED now).signals =
          { s.signals with
              rate_limited_until := (now : ℚ) + s.cooldowns.rateLimitedMs } ∧
        (s.applySignal .UPSTREAM_UNAVAILABLE now).signals =
          { s.signals with
              degraded_until := (now : ℚ) + s.cooldowns.degradedMs } ∧
        (∀ c : ErrCode, c ≠ .UPSTREAM_LOGIN_REQUIRED → c ≠ .UPSTREAM_CHALLENGE →
          c ≠ .UPSTREAM_RATE_LIMITED → c ≠ .UPSTREAM_UNAVAILABLE →
          (s.applySignal c now).signals = s.signals)) ∧
    (∀ (s : AsyncQueueManager) (jobId : String) (error : Option JSError)
        (now : ℕ) (job : Job), s.lookupJob jobId = some job →
        (s.failStep jobId error now).signals =
          (s.applySignal (classifyError error).code now).signals) ∧
    (∀ (s : AsyncQueueManager) (now : ℕ), Reachable s →
        (now : ℚ) + 1000 ≤
          (s.applySignal .UPSTREAM_LOGIN_REQUIRED now).signals.auth_required_until ∧
        (now : ℚ) + 1000 ≤
          (s.applySignal .UPSTREAM_CHALLENGE now).signals.challenge_until ∧
        (now : ℚ) + 1000 ≤
          (s.applySignal .UPSTREAM_RATE_LIMITED now).signals.rate_limited_until ∧
        (now : ℚ) + 1000 ≤
          (s.applySignal .UPSTREAM_UNAVAILABLE now).signals.degraded_until) ∧
    (∀ (s : AsyncQueueManager) (now : ℕ), s.cooldownUntil > (now : ℚ) →
        (s.drain now).1.1 = [] ∧
        (∃ w, (s.drain now).1.2 = some w ∧ 50 ≤ w) ∧
        (s.drain now).2 = s) := by
  refine ⟨?_, ?_, ?_, ?_⟩
  · intro s now
    refine ⟨rfl, rfl, rfl, rfl, ?_⟩
    intro c h1 h2 h3 h4
    cases c <;> first | rfl | simp_all
  · intro s jobId error now job hjob
    unfold AsyncQueueManager.failStep
    rw [hjob]
    dsimp only
    split
    · rfl
    · split
      · rfl
      · rfl
  · intro s now hreach
    obtain ⟨h1, h2, h3, h4⟩ := cooldowns_reachable hreach
    refine ⟨?_, ?_, ?_, ?_⟩
    · show (now : ℚ) + 1000 ≤ (now : ℚ) + s.cooldowns.authRequiredMs
      exact add_le_add_left h1 _
    · show (now : ℚ) + 1000 ≤ (now : ℚ) + s.cooldowns.challengeMs
      exact add_le_add_left h2 _
    · show (now : ℚ) + 1000 ≤ (now : ℚ) + s.cooldowns.rateLimitedMs
      exact add_le_add_left h3 _
    · show (now : ℚ) + 1000 ≤ (now : ℚ) + s.cooldowns.degradedMs
      exact add_le_add_left h4 _
  · intro s now hgate
    have hc : s.drain now =
        (([], some (max 50 (s.cooldownUntil - (now : ℚ)))), s) := by
      unfold AsyncQueueManager.drain
      rw [if_pos hgate]
    exact ⟨by rw [hc],
      ⟨max 50 (s.cooldownUntil - (now : ℚ)), by rw [hc], le_max_left _ _⟩,
      by rw [hc]⟩

theorem C4_witness :
    ((0 : ℚ) + 1000 ≤ ((mkQueueManager : AsyncQueueManager).applySignal
        .UPSTREAM_LOGIN_REQUIRED 0).signals.auth_required_until) ∧
    ((((mkQueueManager : AsyncQueueManager).applySignal
        .UPSTREAM_LOGIN_REQUIRED 0).drain 0).1.1 = []) := by
  constructor
  · exact (C4_cooldown_signals.2.2.1 mkQueueManager 0
      ⟨.undef, .undef, {}, {}, StepsTo.refl _⟩).1
  · exact (C4_cooldown_signals.2.2.2
      ((mkQueueManager : AsyncQueueManager).applySignal
        .UPSTREAM_LOGIN_REQUIRED 0) 0 (by with_unfolding_all decide)).1

/-- **C7**: replay scoring — values are normalized (strings trimmed and
lower-cased, numbers kept as their numeric value, booleans unchanged, other
objects as JSON text, null/undefined as null), a field matches exactly when
the normalized forms are strictly equal, per-case accuracy is
matched/total (0 without expected fields), report accuracies are arithmetic
means over the cases, and an `accuracy_drop`/`warn` alert is appended
exactly when a well-formed prior report carries a finite previous candidate
accuracy and the drop is at least five points (malformed priors are
ignored). -/
theorem C7_replay_scoring :
    ((∀ s, normalizeValue (.str s) = .nstr (strLower (strTrim s))) ∧
      (∀ n, normalizeValue (.num n) = .nnum n) ∧
      (∀ b, normalizeValue (.bool b) = .nbool b) ∧
      (normalizeValue .null = .nnull ∧ normalizeValue .undef = .nnull) ∧
      (∀ fs, normalizeValue (.obj fs) = .nstr (jsonStringify (.obj fs))) ∧
      (∀ xs, normalizeValue (.arr xs) = .nstr (jsonStringify (.arr xs)))) ∧
    (∀ (expected actual : JSValue) (k : String) (fr : FieldResult),
        (k, fr) ∈ (computeFieldScores expected actual).field_results →
        fr.match_ = jsStrictEq (normalizeValue fr.expected)
            (normalizeValue fr.actual) ∧
        fr.expected = (if isObjType expected then expected else .obj []).get k ∧
        fr.actual = (if isObjType actual then actual else .obj []).get k) ∧
    (∀ expected actual : JSValue,
        (computeFieldScores expected actual).accuracy =
          if (computeFieldScores expected actual).total_fields = 0 then 0
          else ((computeFieldScores expected actual).matched_fields : ℚ) /
            ((computeFieldScores expected actual).total_fields : ℚ)) ∧
    (∀ expected actual : JSValue,
        (computeFieldScores expected actual).matched_fields =
          ((computeFieldScores expected actual).field_results.filter
            (fun p => p.2.match_)).length) ∧
    (∀ (cs : List ReplayCaseInput) (prior : Option PriorReport),
        (replayRun cs prior).baseline_accuracy =
          (if cs.length = 0 then 0
           else (cs.map (fun c =>
              (computeFieldScores c.expected c.baselineParsed).accuracy)).sum /
             (cs.length : ℚ)) ∧
        (replayRun cs prior).candidate_accuracy =
          (if cs.length = 0 then 0
           else (cs.map (fun c =>
              (computeFieldScores c.expected c.candidateParsed).accuracy)).sum /
             (cs.length : ℚ))) ∧
    (∀ (prior : Option PriorReport) (acc : ℚ),
        (driftAlerts prior acc ≠ [] ↔
          ∃ prev, previousCandidateAcc prior = some prev ∧
            acc - prev ≤ -(5 / 100)) ∧
        (∀ al ∈ driftAlerts prior acc,
          al.level = "warn" ∧ al.type_ = "accuracy_drop" ∧
          al.current_candidate_accuracy = acc ∧
          previousCandidateAcc prior = some al.previous_candidate_accuracy)) ∧
    (∀ (cs : List ReplayCaseInput) (prior : Option PriorReport),
        (replayRun cs prior).drift_alerts =
          driftAlerts prior (replayRun cs prior).candidate_accuracy) ∧
    (∀ acc : ℚ, driftAlerts (some PriorReport.malformed) acc = []) := by
  refine ⟨⟨fun s => rfl, fun n => rfl, fun b => rfl, ⟨rfl, rfl⟩,
    fun fs => rfl, fun xs => rfl⟩, ?_, ?_, fun e a => rfl, ?_, ?_,
    fun cs prior => rfl, fun acc => rfl⟩
  · intro expected actual k fr hmem
    simp only [computeFieldScores] at hmem
    obtain ⟨field, hfmem, heq⟩ := List.mem_map.mp hmem
    cases heq
    exact ⟨rfl, rfl, rfl⟩
  · intro expected actual
    unfold computeFieldScores
    dsimp only
    by_cases h : ((objFields (if isObjType expected then expected
        else .obj [])).map Prod.fst).length = 0
    · simp [h]
    · rw [if_pos (Nat.pos_of_ne_zero h), if_neg h]
  · intro cs prior
    constructor <;>
      · unfold replayRun
        dsimp only
        rw [List.map_map]
        rfl
  · intro prior acc
    unfold driftAlerts
    cases hp : previousCandidateAcc prior with
    | none => simp
    | some prev =>
      dsimp only
      by_cases hd : acc - prev ≤ -(5 / 100)
      · simp [hd]
        linarith
      · simp [hd]
        linarith [lt_of_not_le hd]

theorem C7_witness :
    ((computeFieldScores (.obj [("a", JSValue.str " X ")])
        (.obj [("a", JSValue.str "x")])).field_results.all
      (fun p => p.2.match_ == jsStrictEq (normalizeValue p.2.expected)
        (normalizeValue p.2.actual))) = true := by
  rcases hl : (computeFieldScores (.obj [("a", JSValue.str " X ")])
      (.obj [("a", JSValue.str "x")])).field_results with _ | ⟨⟨k, fr⟩, tl⟩
  · rfl
  · have hlen : (computeFieldScores (.obj [("a", JSValue.str " X ")])
        (.obj [("a", JSValue.str "x")])).field_results.length = 1 := by
      with_unfolding_all decide
    rw [hl] at hlen
    simp only [List.length_cons, Nat.add_left_eq_self] at hlen
    have hmem : (k, fr) ∈ (computeFieldScores (.obj [("a", JSValue.str " X ")])
        (.obj [("a", JSValue.str "x")])).field_results := by
      rw [hl]
      exact List.mem_cons_self _ _
    have h := C7_replay_scoring.2.1 (.obj [("a", JSValue.str " X ")])
      (.obj [("a", JSValue.str "x")]) k fr hmem
    rw [List.eq_nil_of_length_eq_zero hlen]
    simp [List.all, h.1]

/-- Reading back a just-written reservoir. -/
theorem reservoir_setReservoir (m : MetricsStore) (key : LatencyKey)
    (l : List ℚ) : (m.setReservoir key l).reservoir key = l := by
  cases key <;> rfl

set_option maxRecDepth 4000 in
/-- **C10 counterexample**: the constructor accepts the fractional cap
`50.5` untouched (`Math.max(50, 50.5)`); after 51 accepted samples the
overflow splice count `51 − 50.5` truncates to zero, so the reservoir holds
51 entries — more than `maxLatencySamples` — refuting the unconditional
"at most maxLatencySamples entries at all times". -/
theorem C10_counterexample :
    ((List.replicate 51 (JSValue.num (some 1))).foldl
        (fun m v => m.pushLatency .total_ms v)
        (mkMetricsStore (.num (some (101 / 2))))).maxLatencySamples =
      101 / 2 ∧
    ((((List.replicate 51 (JSValue.num (some 1))).foldl
        (fun m v => m.pushLatency .total_ms v)
        (mkMetricsStore (.num (some (101 / 2))))).latencyTotal.length : ℚ) >
      ((List.replicate 51 (JSValue.num (some 1))).foldl
        (fun m v => m.pushLatency .total_ms v)
        (mkMetricsStore (.num (some (101 / 2))))).maxLatencySamples) := by
  constructor
  · with_unfolding_all decide
  · with_unfolding_all decide

/-- **C10 (amended)**: the constructor clamps the cap to at least 50
(default 500); non-finite or negative samples are ignored; an overflowing
append drops the oldest entries (a front segment of the insertion order);
and whenever the configured cap is an integer — as in every in-repo
construction — each reservoir holds at most `maxLatencySamples` entries at
all times (a fractional cap can be exceeded because the splice count is
truncated). -/
theorem C10_latency_reservoirs :
    (∀ x, (mkMetricsStore x).maxLatencySamples = max 50 (numOrDefault x 500) ∧
      50 ≤ (mkMetricsStore x).maxLatencySamples) ∧
    (∀ (m : MetricsStore) (key : LatencyKey) (v : JSValue),
        jsToNumber v = none → m.pushLatency key v = m) ∧
    (∀ (m : MetricsStore) (key : LatencyKey) (v : JSValue) (q : ℚ),
        jsToNumber v = some q → q < 0 → m.pushLatency key v = m) ∧
    (∀ (m : MetricsStore) (key : LatencyKey) (v : JSValue) (q : ℚ),
        jsToNumber v = some q → ¬ q < 0 →
        (((m.reservoir key ++ [q]).length : ℚ) > m.maxLatencySamples →
          (m.pushLatency key v).reservoir key =
            (m.reservoir key ++ [q]).drop
              ((((m.reservoir key ++ [q]).length : ℚ) -
                m.maxLatencySamples).floor.toNat)) ∧
        (¬ (((m.reservoir key ++ [q]).length : ℚ) > m.maxLatencySamples) →
          (m.pushLatency key v).reservoir key = m.reservoir key ++ [q])) ∧
    (∀ (m : MetricsStore) (key : LatencyKey) (v : JSValue),
        m.maxLatencySamples.den = 1 →
        ((m.reservoir key).length : ℚ) ≤ m.maxLatencySamples →
        (((m.pushLatency key v).reservoir key).length : ℚ) ≤
          m.maxLatencySamples) := by
  refine ⟨?_, ?_, ?_, ?_, ?_⟩
  · intro x
    exact ⟨rfl, le_max_left _ _⟩
  · intro m key v hv
    unfold MetricsStore.pushLatency
    rw [hv]
  · intro m key v q hv hq
    unfold MetricsStore.pushLatency
    rw [hv]
    dsimp only
    rw [if_pos hq]
  · intro m key v q hv hq
    constructor
    · intro hover
      unfold MetricsStore.pushLatency
      rw [hv]
      dsimp only
      rw [if_neg hq, if_pos hover, reservoir_setReservoir]
    · intro hover
      unfold MetricsStore.pushLatency
      rw [hv]
      dsimp only
      rw [if_neg hq, if_neg hover, reservoir_setReservoir]
  · intro m key v hden hlen
    unfold MetricsStore.pushLatency
    cases hv : jsToNumber v with
    | none => exact hlen
    | some q =>
      dsimp only
      by_cases hq : q < 0
      · rw [if_pos hq]
        exact hlen
      · rw [if_neg hq]
        have hcap : ((m.maxLatencySamples.num : ℤ) : ℚ) = m.maxLatencySamples :=
          (Rat.den_eq_one_iff _).mp hden
        by_cases hover : (((m.reservoir key ++ [q]).length : ℚ) >
            m.maxLatencySamples)
        · rw [if_pos hover, reservoir_setReservoir]
          have hlen2 : (m.reservoir key ++ [q]).length =
              (m.reservoir key).length + 1 := by simp
          have hlen' : ((m.reservoir key).length : ℤ) ≤
              m.maxLatencySamples.num := by
            have h1 := hlen
            rw [← hcap] at h1
            exact_mod_cast h1
          have hover' : m.maxLatencySamples.num <
              ((m.reservoir key).length : ℤ) + 1 := by
            have h1 := hover
            rw [← hcap, hlen2] at h1
            exact_mod_cast h1
          have hcapn : m.maxLatencySamples.num =
              ((m.reservoir key).length : ℤ) := by omega
          have heq2 : (((m.reservoir key ++ [q]).length : ℚ) -
              m.maxLatencySamples) = 1 := by
            rw [← hcap, hcapn, hlen2]
            push_cast
            ring
          have hfl1 : (1 : ℚ).floor = 1 := rfl
          rw [heq2, hfl1, List.length_drop, hlen2]
          show (((m.reservoir key).length + 1 - (1 : ℤ).toNat : ℕ) : ℚ) ≤ _
          rw [Int.toNat_one, Nat.add_sub_cancel]
          exact hlen
        · rw [if_neg hover, reservoir_setReservoir]
          exact le_of_not_lt hover

theorem C10_witness :
    ((((mkMetricsStore .undef).pushLatency .total_ms
        (.num (some 1))).reservoir .total_ms).length : ℚ) ≤
      (mkMetricsStore .undef).maxLatencySamples :=
  C10_latency_reservoirs.2.2.2.2 (mkMetricsStore .undef) .total_ms
    (.num (some 1)) (by with_unfolding_all decide)
    (by with_unfolding_all decide)

end ChatMock
